import Mathlib

/-!
# Physical-core lifecycle of the hypervisor (arch/x86/cpu.c)

A shallow embedding of the bring-up / tear-down code of
`hypervisor/arch/x86/cpu.c`: the active bitmap, the per-core boot state, the
synchronisation gate `pcpu_sync`, `start_pcpus`, `cpu_dead`, the offline
request flag and `wait_sync_change`.

Machine words are natural numbers; the width is made explicit where it
matters.  Shared memory that other cores write while the executing core is
busy-waiting is collected in `pcpu_registry`; what the other cores do to it
during a delay is a parameter (`hv_env.other_cores`).  Loops that the C code
does not bound structurally take a fuel argument and report, next to the
state reached, whether the function has returned.
-/

namespace Acrn

/-! ## Constants -/

/-- CPU_UP_TIMEOUT of cpu.c, in milliseconds. -/
def CPU_UP_TIMEOUT : Nat := 100

/-- CPU_DOWN_TIMEOUT of cpu.c, in milliseconds. -/
def CPU_DOWN_TIMEOUT : Nat := 100

/-- Modelled from the spec: INVALID_BIT_INDEX is declared in x86/lib/bits.h, which
is not among the sources.  It is the 16-bit value that `ffs64` gives for an empty
word; any value outside 0..63 yields the same behaviour of the loops below. -/
def INVALID_BIT_INDEX : Nat := 0xFFFF

/-- Modelled from the spec: MSR_IA32_TSC_AUX is declared in x86/msr.h, which is not
among the sources; it is the index of the per-core identity register. -/
def MSR_IA32_TSC_AUX : Nat := 0xC0000103

/-- Modelled from the spec: NEED_OFFLINE is declared in a header that is not among
the sources; it is the index of the needs-offline bit in `per_cpu(pcpu_flag, id)`.
The proofs below use it only as a bit index. -/
def NEED_OFFLINE : Nat := 1

/-- VECTOR_FIXED_START of include/arch/x86/irq.h. -/
def VECTOR_FIXED_START : Nat := 0xE0

/-- NOTIFY_VCPU_VECTOR of include/arch/x86/irq.h. -/
def NOTIFY_VCPU_VECTOR : Nat := VECTOR_FIXED_START + 1

/-! ## Bit operations on 64-bit words -/

/-- Modelled from the spec: the bitmap helpers live in x86/lib/bits.h, which is not
among the sources.  The bit selected by index `nr` in a 64-bit word: the index is
reduced to the word width, `1UL << (nr & 0x3f)`. -/
def bitmap_bit (nr : Nat) : Nat := 1 <<< (nr % 64)

/-- Modelled from the spec: atomic set of one bit of a shared 64-bit word. -/
def bitmap_set_lock (nr word : Nat) : Nat := word ||| bitmap_bit nr

/-- Modelled from the spec: non-atomic set of one bit of a 64-bit word. -/
def bitmap_set_nolock (nr word : Nat) : Nat := word ||| bitmap_bit nr

/-- Modelled from the spec: atomic clear of one bit, `word & ~bit` in 64 bits. -/
def bitmap_clear_lock (nr word : Nat) : Nat := word &&& ((2 ^ 64 - 1) ^^^ bitmap_bit nr)

/-- Modelled from the spec: non-atomic clear of one bit, `word & ~bit` in 64 bits. -/
def bitmap_clear_nolock (nr word : Nat) : Nat := word &&& ((2 ^ 64 - 1) ^^^ bitmap_bit nr)

/-- Modelled from the spec: test of one bit of a 64-bit word. -/
def bitmap_test (nr word : Nat) : Bool := word.testBit (nr % 64)

/-- Modelled from the spec: atomic test-and-clear; yields the old bit and the new word. -/
def bitmap_test_and_clear_lock (nr word : Nat) : Bool × Nat :=
  (bitmap_test nr word, bitmap_clear_lock nr word)

/-- Modelled from the spec: ffs64 is declared in x86/lib/bits.h, which is not among
the sources.  Index of the least significant set bit of a 64-bit word, or
INVALID_BIT_INDEX when no bit is set. -/
def ffs64 (value : Nat) : Nat :=
  ((List.range 64).find? (fun i => value.testBit i)).getD INVALID_BIT_INDEX

/-- The ids whose bit is set in a 64-bit mask, in ascending order. -/
def mask_ids (mask : Nat) : List Nat :=
  (List.range 64).filter (fun i => mask.testBit i)

/-! ## Data model -/

/-- Modelled from the spec: enum pcpu_boot_state is declared in a header that is not
among the sources.  cpu.c names PCPU_STATE_INITIALIZING and PCPU_STATE_DEAD; the
spec adds the states before start-up and Running. -/
inductive pcpu_boot_state
  | PCPU_STATE_NOT_STARTED
  | PCPU_STATE_INITIALIZING
  | PCPU_STATE_RUNNING
  | PCPU_STATE_DEAD
  deriving DecidableEq

open pcpu_boot_state

/-- Shared state that any core may write: the active bitmap, and the per-core
slots `per_cpu(boot_state, id)`, `per_cpu(pcpu_flag, id)` and the model-specific
registers of each core (`msr cpu index`). -/
structure pcpu_registry where
  pcpu_active_bitmap : Nat
  boot_state : Nat → pcpu_boot_state
  pcpu_flag : Nat → Nat
  msr : Nat → Nat → Nat

/-- Modelled from the spec: struct msr_data_struct is declared in a header that is
not among the sources; cpu.c uses the fields msr_index, read_val and write_val. -/
structure msr_data_struct where
  msr_index : Nat
  read_val : Nat
  write_val : Nat
  deriving DecidableEq

/-- The two closures that cpu.c hands to smp_call_function. -/
inductive smp_call_func
  | smpcall_write_msr_func
  | smpcall_read_msr_func
  deriving DecidableEq

/-- Actions of the executing core in program order: stores to the gate, barriers,
polls of the active bitmap and calls to collaborators. -/
inductive hv_event
  | pcpu_sync_store (value : Nat)
  | cpu_write_memory_barrier
  | prepare_trampoline
  | stac
  | clac
  | write_trampoline_stack_sym (pcpu_id : Nat)
  | send_startup_ipi (pcpu_id : Nat) (paddr : Nat)
  | is_pcpu_active (pcpu_id : Nat) (active : Bool)
  | udelay (us : Nat)
  | pr_fatal (pcpu_id : Nat)
  | send_single_ipi (pcpu_id : Nat) (vector : Nat)
  | deinit_sched (pcpu_id : Nat)
  | vmx_off
  | cache_flush_invalidate_all
  | asm_hlt
  | pr_err (pcpu_id : Nat)
  | asm_monitor
  | asm_mwait
  | asm_pause
  | read_active_bitmap (value : Nat)
  | smp_call_function (mask : Nat) (func : smp_call_func) (data : msr_data_struct)
  deriving DecidableEq

/-- State seen by the executing core: the shared registry, the file-scope
variables of cpu.c, the time spent in delays (microseconds) and the log of its
own actions. -/
structure hv_state where
  reg : pcpu_registry
  phys_cpu_num : Nat
  pcpu_sync : Nat
  startup_paddr : Nat
  clock : Nat
  trace : List hv_event

/-- What the executing core cannot control: `other_cores s` is what the other
cores have made of the registry by the end of a delay that the executing core
entered in state `s` (they may react to the signals logged in `s.trace`);
`prepare_trampoline` is the address the trampoline provider returns. -/
structure hv_env where
  other_cores : hv_state → pcpu_registry
  prepare_trampoline : Nat

/-- Outcome of running a function with some fuel: the state reached and, when the
function has returned within the fuel, its return value. -/
structure run (α : Type) where
  state : hv_state
  result : Option α

/-! ## Registry operations (cpu.c) -/

/-- msr_write on core `cpu`. -/
def msr_write (cpu index value : Nat) (r : pcpu_registry) : pcpu_registry :=
  { r with msr := fun c i => if c = cpu ∧ i = index then value else r.msr c i }

/-- set_current_pcpu_id, executed on core `cpu`: write the TSC AUX register. -/
def set_current_pcpu_id (cpu pcpu_id : Nat) (r : pcpu_registry) : pcpu_registry :=
  msr_write cpu MSR_IA32_TSC_AUX pcpu_id r

/-- pcpu_set_current_state, executed on core `cpu`. -/
def pcpu_set_current_state (cpu pcpu_id : Nat) (state : pcpu_boot_state)
    (r : pcpu_registry) : pcpu_registry :=
  let r1 := if state = PCPU_STATE_INITIALIZING then set_current_pcpu_id cpu pcpu_id r else r
  { r1 with boot_state := fun id => if id = pcpu_id then state else r1.boot_state id }

/-- set_active_pcpu_bitmap. -/
def set_active_pcpu_bitmap (pcpu_id : Nat) (r : pcpu_registry) : pcpu_registry :=
  { r with pcpu_active_bitmap := bitmap_set_lock pcpu_id r.pcpu_active_bitmap }

/-- is_pcpu_active. -/
def is_pcpu_active (pcpu_id : Nat) (r : pcpu_registry) : Bool :=
  bitmap_test pcpu_id r.pcpu_active_bitmap

/-- get_active_pcpu_bitmap. -/
def get_active_pcpu_bitmap (r : pcpu_registry) : Nat := r.pcpu_active_bitmap

/-- init_pcpu_state, executed on core `cpu`. -/
def init_pcpu_state (cpu pcpu_id : Nat) (r : pcpu_registry) : pcpu_registry :=
  pcpu_set_current_state cpu pcpu_id PCPU_STATE_INITIALIZING (set_active_pcpu_bitmap pcpu_id r)

/-! ## Start-up sequencer (cpu.c) -/

/-- Append one action to the log of the executing core. -/
def log (e : hv_event) (s : hv_state) : hv_state :=
  { s with trace := s.trace ++ [e] }

/-- udelay (common/udelay.c) busy-waits on the cycle counter for `us`
microseconds.  Here: the delay is logged, the other cores act on the registry,
and the clock advances by `us`. -/
def udelay (env : hv_env) (us : Nat) (s : hv_state) : hv_state :=
  let s1 := log (hv_event.udelay us) s
  { s1 with reg := env.other_cores s1, clock := s1.clock + us }

/-- The polling loop of start_pcpu,
`while (!is_pcpu_active(pcpu_id) && (timeout != 0U))`, with its 32-bit countdown.
Returns the final value of `timeout`. -/
def start_pcpu_wait (env : hv_env) (pcpu_id : Nat) : Nat → Nat → hv_state → run Nat
  | 0, _, s => ⟨s, none⟩
  | fuel + 1, timeout, s =>
    let active := is_pcpu_active pcpu_id s.reg
    let s1 := log (hv_event.is_pcpu_active pcpu_id active) s
    if !active && timeout != 0 then
      start_pcpu_wait env pcpu_id fuel ((timeout + 2 ^ 32 - 10) % 2 ^ 32) (udelay env 10 s1)
    else
      ⟨s1, some timeout⟩

/-- The first half of start_pcpu: the trampoline is prepared when `startup_paddr`
is still 0, the stack of the target is written between stac and clac, and the
startup IPI is sent. -/
def start_pcpu_signal (env : hv_env) (pcpu_id : Nat) (s : hv_state) : hv_state :=
  let s1 := if s.startup_paddr = 0 then
      { log hv_event.prepare_trampoline s with startup_paddr := env.prepare_trampoline }
    else s
  let s2 := log hv_event.clac (log (hv_event.write_trampoline_stack_sym pcpu_id)
    (log hv_event.stac s1))
  log (hv_event.send_startup_ipi pcpu_id s2.startup_paddr) s2

/-- start_pcpu, executed on core `cpu`. -/
def start_pcpu (env : hv_env) (cpu fuel pcpu_id : Nat) (s : hv_state) : run Unit :=
  let s3 := start_pcpu_signal env pcpu_id s
  let w := start_pcpu_wait env pcpu_id fuel (CPU_UP_TIMEOUT * 1000) s3
  match w.result with
  | none => ⟨w.state, none⟩
  | some _ =>
    let active := is_pcpu_active pcpu_id w.state.reg
    let s4 := log (hv_event.is_pcpu_active pcpu_id active) w.state
    if !active then
      ⟨{ log (hv_event.pr_fatal pcpu_id) s4 with
          reg := pcpu_set_current_state cpu pcpu_id PCPU_STATE_DEAD s4.reg }, some ()⟩
    else
      ⟨s4, some ()⟩

/-- The loop of start_pcpus over `expected_start_mask`; `continue` jumps back to
the loop test without recomputing `i`. -/
def start_pcpus_loop (env : hv_env) (cpu inner : Nat) :
    Nat → Nat → Nat → hv_state → run Unit
  | 0, _, _, s => ⟨s, none⟩
  | fuel + 1, i, expected_start_mask, s =>
    if i ≠ INVALID_BIT_INDEX then
      let expected := bitmap_clear_nolock i expected_start_mask
      if cpu = i then
        start_pcpus_loop env cpu inner fuel i expected s
      else
        let r := start_pcpu env cpu inner i s
        match r.result with
        | none => ⟨r.state, none⟩
        | some _ => start_pcpus_loop env cpu inner fuel (ffs64 expected) expected r.state
    else
      ⟨s, some ()⟩

/-- The entry of start_pcpus, `pcpu_sync = 1UL; cpu_write_memory_barrier();`. -/
def gate_hold (s : hv_state) : hv_state :=
  log hv_event.cpu_write_memory_barrier (log (hv_event.pcpu_sync_store 1) { s with pcpu_sync := 1 })

/-- The release of the gate at the end of start_pcpus, `pcpu_sync = 0UL;`. -/
def gate_release (s : hv_state) : hv_state :=
  log (hv_event.pcpu_sync_store 0) { s with pcpu_sync := 0 }

/-- start_pcpus, executed on core `cpu` (the value of get_pcpu_id). -/
def start_pcpus (env : hv_env) (cpu fuel mask : Nat) (s : hv_state) : run Bool :=
  let l := start_pcpus_loop env cpu fuel fuel (ffs64 mask) mask (gate_hold s)
  match l.result with
  | none => ⟨l.state, none⟩
  | some _ =>
    let s2 := gate_release l.state
    ⟨s2, some ((s2.reg.pcpu_active_bitmap &&& mask) == mask)⟩

/-! ## Gate, offline request and retirement (cpu.c) -/

/-- The monitor/mwait loop of wait_sync_change.  `sync n` is the value that the
n-th read of the watched location yields; the result is the number of reads made
when the function returns, with the instructions issued. -/
def wait_sync_monitor (sync : Nat → Nat) (wake_sync : Nat) :
    Nat → Nat → List hv_event → Option (Nat × List hv_event)
  | 0, _, _ => none
  | fuel + 1, n, tr =>
    if sync n ≠ wake_sync then
      let tr1 := tr ++ [hv_event.asm_monitor]
      if sync (n + 1) ≠ wake_sync then
        wait_sync_monitor sync wake_sync fuel (n + 2) (tr1 ++ [hv_event.asm_mwait])
      else
        wait_sync_monitor sync wake_sync fuel (n + 2) tr1
    else
      some (n + 1, tr)

/-- The pause loop of wait_sync_change. -/
def wait_sync_pause (sync : Nat → Nat) (wake_sync : Nat) :
    Nat → Nat → List hv_event → Option (Nat × List hv_event)
  | 0, _, _ => none
  | fuel + 1, n, tr =>
    if sync n ≠ wake_sync then
      wait_sync_pause sync wake_sync fuel (n + 1) (tr ++ [hv_event.asm_pause])
    else
      some (n + 1, tr)

/-- wait_sync_change; `has_monitor_cap` is the value of has_monitor_cap(). -/
def wait_sync_change (has_monitor_cap : Bool) (sync : Nat → Nat) (wake_sync fuel : Nat) :
    Option (Nat × List hv_event) :=
  if has_monitor_cap then wait_sync_monitor sync wake_sync fuel 0 []
  else wait_sync_pause sync wake_sync fuel 0 []

/-- wait_all_pcpus_run: `pcpu_sync n` is the value of the gate at the n-th read. -/
def wait_all_pcpus_run (has_monitor_cap : Bool) (pcpu_sync : Nat → Nat) (fuel : Nat) :
    Option (Nat × List hv_event) :=
  wait_sync_change has_monitor_cap pcpu_sync 0 fuel

/-- Store `word` into `per_cpu(pcpu_flag, pcpu_id)`. -/
def store_pcpu_flag (pcpu_id word : Nat) (s : hv_state) : hv_state :=
  { s with reg := { s.reg with
      pcpu_flag := (fun id => if id = pcpu_id then word else s.reg.pcpu_flag id) } }

/-- make_pcpu_offline, executed on core `cpu`. -/
def make_pcpu_offline (cpu pcpu_id : Nat) (s : hv_state) : hv_state :=
  let s1 := store_pcpu_flag pcpu_id (bitmap_set_lock NEED_OFFLINE (s.reg.pcpu_flag pcpu_id)) s
  if cpu ≠ pcpu_id then log (hv_event.send_single_ipi pcpu_id NOTIFY_VCPU_VECTOR) s1 else s1

/-- need_offline. -/
def need_offline (pcpu_id : Nat) (s : hv_state) : Bool × hv_state :=
  let tc := bitmap_test_and_clear_lock NEED_OFFLINE (s.reg.pcpu_flag pcpu_id)
  (tc.1, store_pcpu_flag pcpu_id tc.2 s)

/-- The halt loop of cpu_dead, `do { asm_hlt(); } while (halt != 0);`. -/
def cpu_dead_halt (halt : Nat) : Nat → hv_state → run Unit
  | 0, s => ⟨s, none⟩
  | fuel + 1, s =>
    let s1 := log hv_event.asm_hlt s
    if halt ≠ 0 then cpu_dead_halt halt fuel s1 else ⟨s1, some ()⟩

/-- cpu_dead, executed on core `cpu` (the value of get_pcpu_id). -/
def cpu_dead (cpu fuel : Nat) (s : hv_state) : run Unit :=
  let halt := 1
  let s1 := log (hv_event.deinit_sched cpu) s
  if bitmap_test cpu s1.reg.pcpu_active_bitmap then
    let s2 := log hv_event.cache_flush_invalidate_all (log hv_event.vmx_off s1)
    let s3 := { s2 with reg := pcpu_set_current_state cpu cpu PCPU_STATE_DEAD s2.reg }
    let s4 := { s3 with reg := { s3.reg with
      pcpu_active_bitmap := bitmap_clear_lock cpu s3.reg.pcpu_active_bitmap } }
    cpu_dead_halt halt fuel s4
  else
    ⟨log (hv_event.pr_err cpu) s1, some ()⟩

/-! ## Shutdown sequencer, remote register call and topology (cpu.c, init.c) -/

/-- The polling loop of wait_pcpus_offline,
`while (((pcpu_active_bitmap & mask) != 0UL) && (timeout != 0U))`, with its 32-bit
countdown.  Every read of the bitmap is logged.  Returns the final value of
`timeout`. -/
def wait_pcpus_offline_loop (env : hv_env) (mask : Nat) : Nat → Nat → hv_state → run Nat
  | 0, _, s => ⟨s, none⟩
  | fuel + 1, timeout, s =>
    let s1 := log (hv_event.read_active_bitmap s.reg.pcpu_active_bitmap) s
    if (s.reg.pcpu_active_bitmap &&& mask) != 0 && timeout != 0 then
      wait_pcpus_offline_loop env mask fuel ((timeout + 2 ^ 32 - 10) % 2 ^ 32) (udelay env 10 s1)
    else
      ⟨s1, some timeout⟩

/-- wait_pcpus_offline. -/
def wait_pcpus_offline (env : hv_env) (fuel mask : Nat) (s : hv_state) : run Unit :=
  let w := wait_pcpus_offline_loop env mask fuel (CPU_DOWN_TIMEOUT * 1000) s
  ⟨w.state, w.result.map (fun _ => ())⟩

/-- One round of the loop of stop_pcpus, executed on core `cpu`: the executing core
is skipped, any other id is added to the mask and asked to go offline. -/
def stop_pcpus_round (cpu : Nat) (acc : Nat × hv_state) (pcpu_id : Nat) : Nat × hv_state :=
  if cpu = pcpu_id then acc
  else (bitmap_set_nolock pcpu_id acc.1, make_pcpu_offline cpu pcpu_id acc.2)

/-- The loop of stop_pcpus,
`for (pcpu_id = 0U; pcpu_id < phys_cpu_num; pcpu_id++)`: yields the mask and the
state in which wait_pcpus_offline is called. -/
def stop_pcpus_request (cpu : Nat) (s : hv_state) : Nat × hv_state :=
  (List.range s.phys_cpu_num).foldl (stop_pcpus_round cpu) (0, s)

/-- stop_pcpus, executed on core `cpu` (the value of get_pcpu_id). -/
def stop_pcpus (env : hv_env) (cpu fuel : Nat) (s : hv_state) : run Unit :=
  wait_pcpus_offline env fuel (stop_pcpus_request cpu s).1 (stop_pcpus_request cpu s).2

/-- msr_read on core `cpu`. -/
def msr_read (cpu index : Nat) (r : pcpu_registry) : Nat := r.msr cpu index

/-- smpcall_write_msr_func, run on core `cpu`. -/
def smpcall_write_msr_func (cpu : Nat) (msr : msr_data_struct) (r : pcpu_registry) :
    msr_data_struct × pcpu_registry :=
  (msr, msr_write cpu msr.msr_index msr.write_val r)

/-- smpcall_read_msr_func, run on core `cpu`. -/
def smpcall_read_msr_func (cpu : Nat) (msr : msr_data_struct) (r : pcpu_registry) :
    msr_data_struct × pcpu_registry :=
  ({ msr with read_val := msr_read cpu msr.msr_index r }, r)

/-- Run a closure on core `cpu` with the message `msr`. -/
def run_smp_call_func (func : smp_call_func) (cpu : Nat)
    (acc : msr_data_struct × pcpu_registry) : msr_data_struct × pcpu_registry :=
  match func with
  | smp_call_func.smpcall_write_msr_func => smpcall_write_msr_func cpu acc.1 acc.2
  | smp_call_func.smpcall_read_msr_func => smpcall_read_msr_func cpu acc.1 acc.2

/-- Modelled from the spec: smp_call_function is not among the sources.  The call
is logged; the closure runs on each core of the mask, in ascending order of the
ids, and the call returns when all have finished.  Yields the message as the
closures left it. -/
def smp_call_function (mask : Nat) (func : smp_call_func) (data : msr_data_struct)
    (s : hv_state) : msr_data_struct × hv_state :=
  let s1 := log (hv_event.smp_call_function mask func data) s
  let res := (mask_ids mask).foldl (fun acc core => run_smp_call_func func core acc) (data, s1.reg)
  (res.1, { s1 with reg := res.2 })

/-- msr_write_pcpu, executed on core `cpu` (the value of get_pcpu_id). -/
def msr_write_pcpu (cpu msr_index value64 pcpu_id : Nat) (s : hv_state) : hv_state :=
  if pcpu_id = cpu then
    { s with reg := msr_write cpu msr_index value64 s.reg }
  else
    let msr : msr_data_struct := { msr_index := msr_index, read_val := 0, write_val := value64 }
    let mask := bitmap_set_nolock pcpu_id 0
    (smp_call_function mask smp_call_func.smpcall_write_msr_func msr s).2

/-- msr_read_pcpu, executed on core `cpu` (the value of get_pcpu_id). -/
def msr_read_pcpu (cpu msr_index pcpu_id : Nat) (s : hv_state) : Nat × hv_state :=
  if pcpu_id = cpu then
    (msr_read cpu msr_index s.reg, s)
  else
    let msr : msr_data_struct := { msr_index := msr_index, read_val := 0, write_val := 0 }
    let mask := bitmap_set_nolock pcpu_id 0
    let r := smp_call_function mask smp_call_func.smpcall_read_msr_func msr s
    (r.1.read_val, r.2)

/-- set_pcpu_nums. -/
def set_pcpu_nums (num : Nat) (s : hv_state) : hv_state := { s with phys_cpu_num := num }

/-- get_pcpu_nums. -/
def get_pcpu_nums (s : hv_state) : Nat := s.phys_cpu_num

/-- init_percpu_lapic_id (init.c).  `MAX_PCPU_NUM` is a configuration constant that
is not among the sources and is taken as a parameter; `pcpu_num` and
`lapic_id_array` are what parse_madt yields; `lapic_id i` is
`per_cpu(lapic_id, i)`. -/
def init_percpu_lapic_id (MAX_PCPU_NUM pcpu_num : Nat) (lapic_id_array lapic_id : Nat → Nat)
    (s : hv_state) : Bool × (Nat → Nat) × hv_state :=
  if pcpu_num ≠ 0 ∧ pcpu_num ≤ MAX_PCPU_NUM then
    (true,
      (List.range pcpu_num).foldl
        (fun l i => fun j => if j = i then lapic_id_array i else l j) lapic_id,
      set_pcpu_nums pcpu_num s)
  else
    (false, lapic_id, s)

/-- The step of init_primary_pcpu that discovers the topology,
`if (!init_percpu_lapic_id()) panic(...)`. -/
def init_primary_pcpu_lapic (MAX_PCPU_NUM pcpu_num : Nat) (lapic_id_array lapic_id : Nat → Nat)
    (s : hv_state) : Except String ((Nat → Nat) × hv_state) :=
  let r := init_percpu_lapic_id MAX_PCPU_NUM pcpu_num lapic_id_array lapic_id s
  if !r.1 then Except.error "failed to init_percpu_lapic_id!" else Except.ok r.2

/-- The two steps of init_pcpu_state in program order: the atomic set of the active
bit, then pcpu_set_current_state, which writes only the identity register and the
boot state slot of the core itself. -/
inductive init_step
  | set_active
  | set_state
  deriving DecidableEq

/-- One step of init_pcpu_state for `pcpu_id`, executed on core `cpu`. -/
def init_pcpu_state_step (cpu pcpu_id : Nat) : init_step → pcpu_registry → pcpu_registry
  | init_step.set_active, r => set_active_pcpu_bitmap pcpu_id r
  | init_step.set_state, r => pcpu_set_current_state cpu pcpu_id PCPU_STATE_INITIALIZING r

/-- Run a schedule of steps: the pair `(id, step)` is the step `step` of the call
init_pcpu_state(id) that core `id` makes for itself. -/
def run_schedule (sched : List (Nat × init_step)) (r : pcpu_registry) : pcpu_registry :=
  sched.foldl (fun acc p => init_pcpu_state_step p.1 p.1 p.2 acc) r

/-- A schedule interleaves the calls of the cores `ids`: the steps of each core of
`ids` occur once each, in program order, and no other core takes a step. -/
def is_interleaving (ids : List Nat) (sched : List (Nat × init_step)) : Prop :=
  ∀ id, ((sched.filter (fun p => p.1 == id)).map (fun p => p.2))
    = if id ∈ ids then [init_step.set_active, init_step.set_state] else []

/-! ## Seeds (crypto/seed.c)

`BOOTLOADER_SEED_MAX_ENTRIES` is declared in a header that is not among the
sources and is a parameter of the functions that use it.  Byte arrays are maps
from the byte index to the byte.  What `hpa2hva` of an address points to is
given by `boot_memory`; the structures are read field by field, the walk over the
seed entries of the SBL hand-off block is given as the sequence of entries it
visits. -/

/-- BOOTLOADER_SBL of seed.c. -/
def BOOTLOADER_SBL : Nat := 0

/-- BOOTLOADER_ABL of seed.c. -/
def BOOTLOADER_ABL : Nat := 1

/-- BOOTLOADER_INVD of seed.c, `~0U`. -/
def BOOTLOADER_INVD : Nat := 2 ^ 32 - 1

/-- SEED_ARG_NUM of seed.c. -/
def SEED_ARG_NUM : Nat := 4

/-- SEED_ENTRY_TYPE_SVNSEED of seed.c. -/
def SEED_ENTRY_TYPE_SVNSEED : Nat := 1

/-- SEED_ENTRY_USAGE_DSEED of seed.c. -/
def SEED_ENTRY_USAGE_DSEED : Nat := 2

/-- ABL_SEED_LEN of seed.c. -/
def ABL_SEED_LEN : Nat := 32

/-- ABL_SEED_LIST_MAX of seed.c. -/
def ABL_SEED_LIST_MAX : Nat := 4

/-- Modelled from the spec: struct seed_info is declared in x86/seed.h, which is not
among the sources; seed.c uses its fields cse_svn and seed. -/
structure seed_info where
  cse_svn : Nat
  seed : Nat → Nat

/-- struct physical_seed of seed.c; `seed_list i` is `seed_list[i]`. -/
structure physical_seed where
  seed_list : Nat → seed_info
  num_seeds : Nat

/-- struct seed_argument of seed.c; `str = none` is the NULL string. -/
structure seed_argument where
  str : Option String
  bootloader_id : Nat
  addr : Nat

/-- The initial value of the table seed_arg of seed.c. -/
def seed_arg_table : List seed_argument :=
  [⟨some "ImageBootParamsAddr=", BOOTLOADER_SBL, 0⟩,
    ⟨some "ABL.svnseed=", BOOTLOADER_ABL, 0⟩,
    ⟨some "dev_sec_info.param_addr=", BOOTLOADER_ABL, 0⟩,
    ⟨none, BOOTLOADER_INVD, 0⟩]

/-- struct seed_entry of seed.c (the fields that seed parsing reads); `seed` is the
seed_info stored in the entry. -/
structure seed_entry where
  type : Nat
  usage : Nat
  index : Nat
  seed : seed_info

/-- struct seed_list_hob of seed.c, with the seed entries that follow it:
`entries i` is the entry that the walk of parse_seed_sbl visits in round `i`. -/
structure seed_list_hob where
  total_seed_count : Nat
  entries : Nat → seed_entry

/-- struct image_boot_params of seed.c (the field that seed parsing reads). -/
structure image_boot_params where
  p_seed_list : Nat

/-- struct abl_seed_info of seed.c. -/
structure abl_seed_info where
  svn : Nat
  seed : Nat → Nat

/-- struct abl_svn_seed of seed.c (the fields that seed parsing reads). -/
structure abl_svn_seed where
  num_seeds : Nat
  seed_list : Nat → abl_seed_info

/-- What the bootloader left in memory: for a physical address, the structure that
`hpa2hva` of it points to, or none when the pointer is NULL. -/
structure boot_memory where
  boot_params : Nat → Option image_boot_params
  seed_hob : Nat → Option seed_list_hob
  abl_seed : Nat → Option abl_svn_seed

/-- A seed_info whose bytes all hold `byte`, the result of memset. -/
def memset_seed_info (byte : Nat) : seed_info := ⟨byte, fun _ => byte⟩

/-- memset of the first `count` entries of a seed list. -/
def memset_seed_list (byte count : Nat) (seed_list : Nat → seed_info) : Nat → seed_info :=
  fun i => if i < count then memset_seed_info byte else seed_list i

/-- Store `entry` at index `i` of a seed list. -/
def store_seed (i : Nat) (entry : seed_info) (seed_list : Nat → seed_info) : Nat → seed_info :=
  fun j => if j = i then entry else seed_list j

/-- The first loop of parse_seed_abl: the index of the seed with the least svn. -/
def abl_legacy_seed_index (abl_seed : abl_svn_seed) : Nat → Nat → Nat → Nat
  | 0, _, legacy_seed_index => legacy_seed_index
  | n + 1, i, legacy_seed_index =>
    if (abl_seed.seed_list i).svn < (abl_seed.seed_list legacy_seed_index).svn then
      abl_legacy_seed_index abl_seed n (i + 1) i
    else
      abl_legacy_seed_index abl_seed n (i + 1) legacy_seed_index

/-- The second loop of parse_seed_abl: copy each seed out and erase the original
unless it is the legacy seed. -/
def abl_copy_seeds (legacy_seed_index : Nat) :
    Nat → Nat → (Nat → seed_info) → abl_svn_seed → (Nat → seed_info) × abl_svn_seed
  | 0, _, seed_list, abl_seed => (seed_list, abl_seed)
  | n + 1, i, seed_list, abl_seed =>
    let copied : seed_info :=
      ⟨(abl_seed.seed_list i).svn,
        fun k => if k < ABL_SEED_LEN then (abl_seed.seed_list i).seed k else (seed_list i).seed k⟩
    let seed_list1 := store_seed i copied seed_list
    if i = legacy_seed_index then
      abl_copy_seeds legacy_seed_index n (i + 1) seed_list1 abl_seed
    else
      abl_copy_seeds legacy_seed_index n (i + 1) seed_list1
        { abl_seed with seed_list := (fun j =>
            if j = i then ⟨(abl_seed.seed_list i).svn, fun _ => 0⟩ else abl_seed.seed_list j) }

/-- parse_seed_abl, called with `&g_phy_seed`.  Yields the status, the physical
seed and the bootloader memory as the function leaves them. -/
def parse_seed_abl (BOOTLOADER_SEED_MAX_ENTRIES : Nat) (mem : boot_memory) (addr : Nat)
    (phy_seed : physical_seed) : Bool × physical_seed × boot_memory :=
  match mem.abl_seed addr with
  | none => (false, phy_seed, mem)
  | some abl_seed =>
    if 2 ≤ abl_seed.num_seeds ∧ abl_seed.num_seeds ≤ ABL_SEED_LIST_MAX then
      let legacy_seed_index := abl_legacy_seed_index abl_seed (abl_seed.num_seeds - 1) 1 0
      let cleared := memset_seed_list 0 BOOTLOADER_SEED_MAX_ENTRIES phy_seed.seed_list
      let r := abl_copy_seeds legacy_seed_index abl_seed.num_seeds 0 cleared abl_seed
      (true, ⟨r.1, abl_seed.num_seeds⟩,
        { mem with abl_seed := (fun a => if a = addr then some r.2 else mem.abl_seed a) })
    else
      (false, phy_seed, mem)

/-- The loop of parse_seed_sbl over the seed entries, with its 8-bit counters.
Yields the status, dseed_index, the seed list and the entries as the loop leaves
them. -/
def parse_seed_sbl_loop (BOOTLOADER_SEED_MAX_ENTRIES : Nat) :
    Nat → Nat → Nat → (Nat → seed_info) → (Nat → seed_entry) →
      Bool × Nat × (Nat → seed_info) × (Nat → seed_entry)
  | 0, _, dseed_index, seed_list, entries => (true, dseed_index, seed_list, entries)
  | n + 1, i, dseed_index, seed_list, entries =>
    let entry := entries i
    if SEED_ENTRY_TYPE_SVNSEED = entry.type ∧ SEED_ENTRY_USAGE_DSEED = entry.usage then
      if entry.index ≠ dseed_index ∨ entry.index ≥ BOOTLOADER_SEED_MAX_ENTRIES then
        (false, dseed_index, seed_list, entries)
      else
        parse_seed_sbl_loop BOOTLOADER_SEED_MAX_ENTRIES n (i + 1) ((dseed_index + 1) % 256)
          (store_seed dseed_index entry.seed seed_list)
          (fun j => if j = i then { entry with seed := memset_seed_info 0 } else entries j)
    else
      parse_seed_sbl_loop BOOTLOADER_SEED_MAX_ENTRIES n (i + 1) dseed_index seed_list entries

/-- parse_seed_sbl, called with `&g_phy_seed`. -/
def parse_seed_sbl (BOOTLOADER_SEED_MAX_ENTRIES : Nat) (mem : boot_memory) (addr : Nat)
    (phy_seed : physical_seed) : Bool × physical_seed × boot_memory :=
  match mem.boot_params addr with
  | none => (false, phy_seed, mem)
  | some boot_params =>
    match mem.seed_hob boot_params.p_seed_list with
    | none => (false, phy_seed, mem)
    | some seed_hob =>
      let r := parse_seed_sbl_loop BOOTLOADER_SEED_MAX_ENTRIES seed_hob.total_seed_count 0 0
        phy_seed.seed_list seed_hob.entries
      let mem1 := { mem with seed_hob := (fun a =>
        if a = boot_params.p_seed_list then some { seed_hob with entries := r.2.2.2 }
        else mem.seed_hob a) }
      if r.1 then (true, ⟨r.2.2.1, r.2.1⟩, mem1) else (false, ⟨r.2.2.1, phy_seed.num_seeds⟩, mem1)

/-- The loop of parse_seed_arg over the table.  `find str` is the value that
strtoul_hex reads behind the first occurrence of `str` in the command line, or
none when strstr_s does not find `str`.  Yields the index at which the loop stops
and the address found there, if any. -/
def parse_seed_arg_loop (find : String → Option Nat) : List seed_argument → Nat → Nat × Option Nat
  | [], i => (i, none)
  | arg :: rest, i =>
    match arg.str with
    | none => (i, none)
    | some str =>
      match find str with
      | some addr => (i, some addr)
      | none => parse_seed_arg_loop find rest (i + 1)

/-- parse_seed_arg.  `cmdline` is none when the multiboot information holds no
command line.  Yields the index and the table with the address stored.  The
blanking of the argument in the command line is left out. -/
def parse_seed_arg (cmdline : Option (String → Option Nat)) (seed_arg : List seed_argument) :
    Nat × List seed_argument :=
  match cmdline with
  | none => (SEED_ARG_NUM - 1, seed_arg)
  | some find =>
    match parse_seed_arg_loop find seed_arg 0 with
    | (i, none) => (i, seed_arg)
    | (i, some addr) => (i, seed_arg.modify (fun arg => { arg with addr := addr }) i)

/-- init_seed.  Yields g_phy_seed, the table seed_arg and the bootloader memory as
the function leaves them. -/
def init_seed (BOOTLOADER_SEED_MAX_ENTRIES : Nat) (cmdline : Option (String → Option Nat))
    (mem : boot_memory) (g_phy_seed : physical_seed) (seed_arg : List seed_argument) :
    physical_seed × List seed_argument × boot_memory :=
  let parsed := parse_seed_arg cmdline seed_arg
  let arg := parsed.2.getD parsed.1 ⟨none, BOOTLOADER_INVD, 0⟩
  let r :=
    if arg.bootloader_id = BOOTLOADER_SBL then
      parse_seed_sbl BOOTLOADER_SEED_MAX_ENTRIES mem arg.addr g_phy_seed
    else if arg.bootloader_id = BOOTLOADER_ABL then
      parse_seed_abl BOOTLOADER_SEED_MAX_ENTRIES mem arg.addr g_phy_seed
    else (false, g_phy_seed, mem)
  if !r.1 then
    (⟨memset_seed_list 0xA5 BOOTLOADER_SEED_MAX_ENTRIES r.2.1.seed_list, 1⟩, parsed.2, r.2.2)
  else
    (r.2.1, parsed.2, r.2.2)

/-- The loop of derive_virtual_seed.  `hkdf_sha256 secret salt info` is the key that
hkdf_sha256 derives, or none when it returns 0.  Yields ret, the output list and
`*num_seeds` as the loop leaves them. -/
def derive_virtual_seed_loop (BOOTLOADER_SEED_MAX_ENTRIES : Nat)
    (hkdf_sha256 : (Nat → Nat) → List Nat → List Nat → Option (Nat → Nat))
    (g_phy_seed : physical_seed) (salt info : List Nat) :
    Nat → Nat → (Nat → seed_info) → Nat → Bool × (Nat → seed_info) × Nat
  | 0, _, seed_list, num_seeds => (true, seed_list, num_seeds)
  | n + 1, i, seed_list, num_seeds =>
    match hkdf_sha256 (g_phy_seed.seed_list i).seed salt info with
    | none => (false, memset_seed_list 0 BOOTLOADER_SEED_MAX_ENTRIES seed_list, 0)
    | some key =>
      derive_virtual_seed_loop BOOTLOADER_SEED_MAX_ENTRIES hkdf_sha256 g_phy_seed salt info n
        (i + 1) (store_seed i ⟨(g_phy_seed.seed_list i).cse_svn, key⟩ seed_list) num_seeds

/-- derive_virtual_seed.  `seed_list = none` is the NULL pointer; `num_seeds` is the
value of `*num_seeds` on entry.  Yields the return value, the output list and
`*num_seeds`. -/
def derive_virtual_seed (BOOTLOADER_SEED_MAX_ENTRIES : Nat)
    (hkdf_sha256 : (Nat → Nat) → List Nat → List Nat → Option (Nat → Nat))
    (g_phy_seed : physical_seed) (seed_list : Option (Nat → seed_info)) (num_seeds : Nat)
    (salt info : List Nat) : Bool × Option (Nat → seed_info) × Nat :=
  match seed_list with
  | none => (false, none, num_seeds)
  | some list =>
    if g_phy_seed.num_seeds = 0 then (false, some list, num_seeds)
    else
      let r := derive_virtual_seed_loop BOOTLOADER_SEED_MAX_ENTRIES hkdf_sha256 g_phy_seed
        salt info g_phy_seed.num_seeds 0 list num_seeds
      (r.1, some r.2.1, g_phy_seed.num_seeds)

/-- The loop of get_max_svn_index, from `i` with `n` rounds to go. -/
def get_max_svn_index_loop (g_phy_seed : physical_seed) : Nat → Nat → Nat → Nat
  | 0, _, max_svn_idx => max_svn_idx
  | n + 1, i, max_svn_idx =>
    if (g_phy_seed.seed_list i).cse_svn > (g_phy_seed.seed_list (i - 1)).cse_svn then
      get_max_svn_index_loop g_phy_seed n (i + 1) i
    else
      get_max_svn_index_loop g_phy_seed n (i + 1) max_svn_idx

/-- get_max_svn_index. -/
def get_max_svn_index (g_phy_seed : physical_seed) : Nat :=
  get_max_svn_index_loop g_phy_seed (g_phy_seed.num_seeds - 1) 1 0

/-- The salt of derive_attkb_enc_key, with its terminating zero byte. -/
def attkb_salt : List Nat :=
  "Attestation Keybox Encryption Key".toList.map Char.toNat ++ [0]

/-- derive_attkb_enc_key.  `hmac_sha256 ikm salt` is the key that hmac_sha256
derives, or none when it does not return 1; `out_key = none` is the NULL pointer.
Yields the return value and the output key. -/
def derive_attkb_enc_key (BOOTLOADER_SEED_MAX_ENTRIES : Nat)
    (hmac_sha256 : List Nat → List Nat → Option (List Nat))
    (g_phy_seed : physical_seed) (out_key : Option (List Nat)) : Bool × Option (List Nat) :=
  match out_key with
  | none => (false, none)
  | some key =>
    if g_phy_seed.num_seeds = 0 ∨ g_phy_seed.num_seeds > BOOTLOADER_SEED_MAX_ENTRIES then
      (false, some key)
    else
      let max_svn_idx := get_max_svn_index g_phy_seed
      let ikm := (List.range 32).map (g_phy_seed.seed_list max_svn_idx).seed
      match hmac_sha256 ikm attkb_salt with
      | none => (false, some key)
      | some derived => (true, some derived)

/-! ## Vocabulary for the statements -/

/-- Events of the polling phase of start_pcpu for core `pcpu_id`. -/
def wait_event (pcpu_id : Nat) : hv_event → Bool
  | hv_event.is_pcpu_active id _ => id == pcpu_id
  | hv_event.udelay us => us == 10
  | hv_event.pr_fatal id => id == pcpu_id
  | _ => false

/-- The address start_pcpu passes to send_startup_ipi from state `s`. -/
def trampoline_addr (env : hv_env) (s : hv_state) : Nat :=
  if s.startup_paddr = 0 then env.prepare_trampoline else s.startup_paddr

/-- The four actions by which start_pcpu signals core `i`, in program order. -/
def signal_events (addr i : Nat) : List hv_event :=
  [hv_event.stac, hv_event.write_trampoline_stack_sym i, hv_event.clac,
    hv_event.send_startup_ipi i addr]

/-- Whether an action is a start-up signal (stack preparation or startup IPI)
addressed to `core`. -/
def signals (core : Nat) : hv_event → Bool
  | hv_event.write_trampoline_stack_sym id => id == core
  | hv_event.send_startup_ipi id _ => id == core
  | _ => false

/-- Whether an action is a store to the gate `pcpu_sync`. -/
def gate_store : hv_event → Bool
  | hv_event.pcpu_sync_store _ => true
  | _ => false

/-- The startup IPIs of a log, as pairs (target, address), in program order. -/
def startup_ipis (l : List hv_event) : List (Nat × Nat) :=
  l.filterMap (fun e => match e with
    | hv_event.send_startup_ipi id paddr => some (id, paddr)
    | _ => none)

/-- The log of `k` rounds of the polling loop of start_pcpu for core `i`: a poll
that finds `i` inactive, then a delay of 10 microseconds. -/
def start_polls (i k : Nat) : List hv_event :=
  (List.replicate k [hv_event.is_pcpu_active i false, hv_event.udelay 10]).flatten

/-- The log of one complete start attempt for core `i`: optional trampoline
preparation, the signal, `k` rounds of the polling loop (at most 10000), the poll
that ends the loop with the value `b`, the check after the loop, which reads the
same value, and the failure report when `b` is false.  The loop ends on an
inactive core only when all 10000 delays have passed. -/
def start_segment (addr i : Nat) (seg : List hv_event) : Prop :=
  ∃ pre k b, (pre = [] ∨ pre = [hv_event.prepare_trampoline]) ∧ k ≤ 10000 ∧
    (b = false → k = 10000) ∧
    seg = pre ++ signal_events addr i ++ (start_polls i k ++
      (hv_event.is_pcpu_active i b :: hv_event.is_pcpu_active i b ::
        (if b = true then [] else [hv_event.pr_fatal i])))

/-- Sequential composition of complete start_pcpu calls over a list of ids. -/
def starts (env : hv_env) (cpu inner : Nat) : List Nat → hv_state → hv_state → Prop
  | [], s, t => t = s
  | i :: ids, s, t =>
    ∃ m, start_pcpu env cpu inner i s = ⟨m, some ()⟩ ∧ starts env cpu inner ids m t

/-- Whether the log holds a startup IPI for core `j`. -/
def signalled (j : Nat) (l : List hv_event) : Bool :=
  l.any (fun e => match e with
    | hv_event.send_startup_ipi i _ => i == j
    | _ => false)

/-- Other cores that answer their startup IPI: during a delay, each core of
`responsive` that has been signalled and is not yet active runs
init_pcpu_state for itself (init_secondary_pcpu). -/
def answering (responsive : List Nat) (st : hv_state) : pcpu_registry :=
  responsive.foldl (fun r j =>
    if signalled j st.trace && !is_pcpu_active j r then init_pcpu_state j j r else r) st.reg

/-- Scenario 1 of the spec: the cores 1, 2 and 3 all answer their startup IPI. -/
def env_all_answer : hv_env := ⟨answering [1, 2, 3], 0x8000⟩

/-- Other cores that answer their startup IPI with one step of init_pcpu_state
per delay: during a delay, each core of `responsive` that has been signalled sets
its active bit when it is not yet active, and writes its boot state when it is
active and not yet Initializing. -/
def answering_in_steps (responsive : List Nat) (st : hv_state) : pcpu_registry :=
  responsive.foldl (fun r j =>
    if signalled j st.trace then
      if !is_pcpu_active j r then init_pcpu_state_step j j init_step.set_active r
      else if r.boot_state j ≠ PCPU_STATE_INITIALIZING then
        init_pcpu_state_step j j init_step.set_state r
      else r
    else r) st.reg

/-- The cores 1, 2 and 3 all answer their startup IPI, each taking one delay for
each of the two steps of init_pcpu_state. -/
def env_answer_in_steps : hv_env := ⟨answering_in_steps [1, 2, 3], 0x8000⟩

/-- Scenario 2 of the spec: the cores 1 and 3 answer their startup IPI, core 2
never runs. -/
def env_core2_silent : hv_env := ⟨answering [1, 3], 0x8000⟩

/-- A gate that holds 1 for the first five reads and 0 afterwards. -/
def gate_released_at_5 (n : Nat) : Nat := if n < 5 then 1 else 0

/-- The cross-core calls of a log, as triples (mask, closure, message), in program
order. -/
def smp_calls (l : List hv_event) : List (Nat × smp_call_func × msr_data_struct) :=
  l.filterMap (fun e => match e with
    | hv_event.smp_call_function mask func data => some (mask, func, data)
    | _ => none)

/-- One round of the loop of wait_pcpus_offline without its exit test: the bitmap
is read, then a delay of 10 microseconds passes. -/
def poll_round (env : hv_env) (s : hv_state) : hv_state :=
  udelay env 10 (log (hv_event.read_active_bitmap s.reg.pcpu_active_bitmap) s)

/-- The state after `j` rounds of read and delay. -/
def poll_rounds (env : hv_env) : Nat → hv_state → hv_state
  | 0, s => s
  | j + 1, s => poll_rounds env j (poll_round env s)

/-- Other cores that honour an offline request: during a delay each core of
`cores` consumes its request with need_offline and, when there was one, runs
cpu_dead. -/
def retiring (cores : List Nat) (st : hv_state) : pcpu_registry :=
  cores.foldl (fun r j =>
    if (need_offline j { st with reg := r }).1 then
      (cpu_dead j 1 (need_offline j { st with reg := r }).2).state.reg
    else (need_offline j { st with reg := r }).2.reg) st.reg

/-- Scenario 3 of the spec: the cores 1, 2 and 3 honour an offline request. -/
def env_all_retire : hv_env := ⟨retiring [1, 2, 3], 0x8000⟩

/-- A physical seed list of three seeds with the svn values 5, 1 and 2; every byte
of seed `i` is `0x11 * (i + 1)`. -/
def seeds_5_1_2 : physical_seed where
  seed_list := fun i =>
    ⟨if i = 0 then 5 else if i = 1 then 1 else if i = 2 then 2 else 0, fun _ => 0x11 * (i + 1)⟩
  num_seeds := 3

/-- A physical seed list with the single seed of svn 7. -/
def seeds_single : physical_seed where
  seed_list := fun _ => ⟨7, fun _ => 0x42⟩
  num_seeds := 1

/-- The zero-initialised g_phy_seed. -/
def zero_phy_seed : physical_seed where
  seed_list := fun _ => memset_seed_info 0
  num_seeds := 0

/-- A command line that holds `ImageBootParamsAddr=0x1000` and no other seed
argument. -/
def cmdline_sbl (str : String) : Option Nat :=
  if str = "ImageBootParamsAddr=" then some 0x1000 else none

/-- Bootloader memory with the boot parameters of SBL at 0x1000 and, at 0x2000, a
seed hand-off block that holds no seed entry. -/
def memory_empty_hob : boot_memory where
  boot_params := fun a => if a = 0x1000 then some ⟨0x2000⟩ else none
  seed_hob := fun a =>
    if a = 0x2000 then some ⟨0, fun _ => ⟨0, 0, 0, memset_seed_info 0⟩⟩ else none
  abl_seed := fun _ => none

/-- A registry in which no core is active. -/
def empty_registry : pcpu_registry where
  pcpu_active_bitmap := 0
  boot_state := fun _ => PCPU_STATE_NOT_STARTED
  pcpu_flag := fun _ => 0
  msr := fun _ _ => 0

/-- The cores 3, 1 and 2 run init_pcpu_state for themselves, their steps
interleaved. -/
def schedule_312 : List (Nat × init_step) :=
  [(3, init_step.set_active), (1, init_step.set_active), (3, init_step.set_state),
    (2, init_step.set_active), (1, init_step.set_state), (2, init_step.set_state)]

/-- A registry in which only core 0 (the boot core) is active. -/
def boot_registry : pcpu_registry where
  pcpu_active_bitmap := 1
  boot_state := fun id => if id = 0 then PCPU_STATE_INITIALIZING else PCPU_STATE_NOT_STARTED
  pcpu_flag := fun _ => 0
  msr := fun _ _ => 0

/-- The state of a board with four cores before the secondary cores are started. -/
def boot_state4 : hv_state where
  reg := boot_registry
  phys_cpu_num := 4
  pcpu_sync := 0
  startup_paddr := 0
  clock := 0
  trace := []

/-- The state at the end of scenario 1 of the spec: four cores, all active. -/
def running_state4 : hv_state :=
  (start_pcpus env_all_answer 0 10001 0b1110 boot_state4).state

/-! ## Lemmas -/

theorem mem_mask_ids {mask i : Nat} : i ∈ mask_ids mask ↔ i < 64 ∧ mask.testBit i = true := by
  simp [mask_ids]

theorem mask_ids_nodup (mask : Nat) : (mask_ids mask).Nodup :=
  (List.nodup_range 64).filter _

theorem mask_ids_sorted (mask : Nat) : (mask_ids mask).Pairwise (· < ·) :=
  List.Pairwise.filter _ (List.pairwise_lt_range 64)

theorem ffs64_eq_head (mask : Nat) :
    ffs64 mask = (mask_ids mask).head?.getD INVALID_BIT_INDEX := by
  simp [ffs64, mask_ids]

theorem ffs64_of_cons {mask i : Nat} {rest : List Nat} (h : mask_ids mask = i :: rest) :
    ffs64 mask = i := by
  simp [ffs64_eq_head, h]

theorem ffs64_of_nil {mask : Nat} (h : mask_ids mask = []) :
    ffs64 mask = INVALID_BIT_INDEX := by
  simp [ffs64_eq_head, h]

theorem testBit_bitmap_bit (nr j : Nat) :
    (bitmap_bit nr).testBit j = decide (nr % 64 = j) := by
  simp [bitmap_bit, Nat.one_shiftLeft, Nat.testBit_two_pow]

theorem testBit_bitmap_clear (nr word j : Nat) :
    (bitmap_clear_nolock nr word).testBit j
      = (word.testBit j && decide (j < 64) && !decide (nr % 64 = j)) := by
  simp only [bitmap_clear_nolock, Nat.testBit_and, Nat.testBit_xor,
    Nat.testBit_two_pow_sub_one, testBit_bitmap_bit]
  by_cases h2 : nr % 64 = j
  · have h1 : j < 64 := by omega
    simp [h1, h2]
  · by_cases h1 : j < 64 <;> simp [h1, h2]

theorem testBit_bitmap_set (nr word j : Nat) :
    (bitmap_set_lock nr word).testBit j = (word.testBit j || decide (nr % 64 = j)) := by
  simp [bitmap_set_lock, Nat.testBit_or, testBit_bitmap_bit]

theorem mask_ids_clear {mask i : Nat} {rest : List Nat} (h : mask_ids mask = i :: rest) :
    mask_ids (bitmap_clear_nolock i mask) = rest := by
  have hi : i < 64 := (mem_mask_ids.1 (by rw [h]; simp)).1
  have hnd := mask_ids_nodup mask
  rw [h] at hnd
  have hni : i ∉ rest := (List.nodup_cons.1 hnd).1
  have h1 : mask_ids (bitmap_clear_nolock i mask)
      = (mask_ids mask).filter (fun j => !decide (i = j)) := by
    unfold mask_ids
    rw [List.filter_filter]
    apply List.filter_congr
    intro j hj
    have hj64 : j < 64 := List.mem_range.1 hj
    simp [testBit_bitmap_clear, hj64, Nat.mod_eq_of_lt hi, Bool.and_comm]
  rw [h1, h]
  simp only [List.filter_cons, decide_True, Bool.not_true]
  simp
  intro j hj hij
  exact hni (hij ▸ hj)

theorem mask_ids_ne_invalid {mask i : Nat} (h : i ∈ mask_ids mask) : i ≠ INVALID_BIT_INDEX := by
  have := (mem_mask_ids.1 h).1
  unfold INVALID_BIT_INDEX
  omega

theorem start_pcpu_wait_frame (env : hv_env) (id : Nat) :
    ∀ (fuel timeout : Nat) (s : hv_state),
      (start_pcpu_wait env id fuel timeout s).state.pcpu_sync = s.pcpu_sync ∧
      (start_pcpu_wait env id fuel timeout s).state.startup_paddr = s.startup_paddr ∧
      (start_pcpu_wait env id fuel timeout s).state.phys_cpu_num = s.phys_cpu_num ∧
      ∃ tl, (start_pcpu_wait env id fuel timeout s).state.trace = s.trace ++ tl ∧
        (∀ e ∈ tl, wait_event id e = true) ∧
        ((start_pcpu_wait env id fuel timeout s).result ≠ none →
          ∃ b rest, tl = hv_event.is_pcpu_active id b :: rest) := by
  intro fuel
  induction fuel with
  | zero =>
    intro timeout s
    refine ⟨rfl, rfl, rfl, [], by simp [start_pcpu_wait], by simp, by simp [start_pcpu_wait]⟩
  | succ n ih =>
    intro timeout s
    unfold start_pcpu_wait
    simp only
    split
    · obtain ⟨h1, h2, h3, tl, h4, h5, h6⟩ := ih ((timeout + 2 ^ 32 - 10) % 2 ^ 32)
        (udelay env 10 (log (hv_event.is_pcpu_active id (is_pcpu_active id s.reg)) s))
      refine ⟨by rw [h1]; rfl, by rw [h2]; rfl, by rw [h3]; rfl,
        hv_event.is_pcpu_active id (is_pcpu_active id s.reg) :: hv_event.udelay 10 :: tl, ?_, ?_, ?_⟩
      · rw [h4]; simp [udelay, log]
      · intro e he
        simp only [List.mem_cons] at he
        rcases he with rfl | rfl | he
        · simp [wait_event]
        · simp [wait_event]
        · exact h5 e he
      · intro _; exact ⟨_, _, rfl⟩
    · refine ⟨rfl, rfl, rfl, [hv_event.is_pcpu_active id (is_pcpu_active id s.reg)], by simp [log], ?_, ?_⟩
      · intro e he
        simp only [List.mem_singleton] at he
        subst he
        simp [wait_event]
      · intro _; exact ⟨_, _, rfl⟩

theorem start_pcpu_wait_inv (env : hv_env) (id : Nat) (P : pcpu_registry → Prop)
    (henv : ∀ st : hv_state, P st.reg → P (env.other_cores st)) :
    ∀ (fuel timeout : Nat) (s : hv_state), P s.reg →
      P (start_pcpu_wait env id fuel timeout s).state.reg := by
  intro fuel
  induction fuel with
  | zero => intro timeout s h; simpa [start_pcpu_wait] using h
  | succ n ih =>
    intro timeout s h
    unfold start_pcpu_wait
    simp only
    split
    · apply ih
      exact henv (log (hv_event.udelay 10) (log (hv_event.is_pcpu_active id (is_pcpu_active id s.reg)) s)) h
    · exact h

theorem start_pcpu_wait_returns (env : hv_env) (id : Nat) :
    ∀ (k fuel : Nat) (s : hv_state), k < fuel → 10 * k < 2 ^ 32 →
      (start_pcpu_wait env id fuel (10 * k) s).result ≠ none := by
  intro k
  induction k with
  | zero =>
    intro fuel s hf _
    obtain ⟨n, rfl⟩ : ∃ n, fuel = n + 1 := ⟨fuel - 1, by omega⟩
    simp [start_pcpu_wait]
  | succ k ih =>
    intro fuel s hf hk
    obtain ⟨n, rfl⟩ : ∃ n, fuel = n + 1 := ⟨fuel - 1, by omega⟩
    unfold start_pcpu_wait
    simp only
    split
    · have e : (10 * (k + 1) + 2 ^ 32 - 10) % 2 ^ 32 = 10 * k := by omega
      rw [e]
      exact ih n _ (by omega) (by omega)
    · simp

/-- The poll that ends the loop of start_pcpu reads the registry of the state in
which the loop returns. -/
theorem start_pcpu_wait_exit (env : hv_env) (id : Nat) :
    ∀ (fuel timeout : Nat) (s : hv_state) (t : Nat),
      (start_pcpu_wait env id fuel timeout s).result = some t →
      is_pcpu_active id (start_pcpu_wait env id fuel timeout s).state.reg = true ∨ t = 0 := by
  intro fuel
  induction fuel with
  | zero => intro timeout s t h; simp [start_pcpu_wait] at h
  | succ n ih =>
    intro timeout s t h
    unfold start_pcpu_wait at h ⊢
    simp only at h ⊢
    split
    · rename_i hc
      rw [if_pos hc] at h
      exact ih _ _ t h
    · rename_i hc
      rw [if_neg hc] at h
      simp only [Option.some.injEq] at h
      subst h
      simp only [Bool.and_eq_true, Bool.not_eq_true', bne_iff_ne, ne_eq, not_and, not_not] at hc
      by_cases ha : is_pcpu_active id s.reg = true
      · left; simpa [log] using ha
      · right; exact hc (by simpa using ha)

theorem start_pcpu_signal_spec (env : hv_env) (id : Nat) (s : hv_state) :
    (start_pcpu_signal env id s).reg = s.reg ∧
    (start_pcpu_signal env id s).pcpu_sync = s.pcpu_sync ∧
    (start_pcpu_signal env id s).phys_cpu_num = s.phys_cpu_num ∧
    (start_pcpu_signal env id s).clock = s.clock ∧
    (start_pcpu_signal env id s).startup_paddr = trampoline_addr env s ∧
    ∃ pre, (pre = [] ∨ pre = [hv_event.prepare_trampoline]) ∧
      (start_pcpu_signal env id s).trace
        = s.trace ++ (pre ++ signal_events (trampoline_addr env s) id) := by
  by_cases h : s.startup_paddr = 0
  · refine ⟨?_, ?_, ?_, ?_, ?_, [hv_event.prepare_trampoline], Or.inr rfl, ?_⟩ <;>
      simp [start_pcpu_signal, trampoline_addr, signal_events, h, log]
  · refine ⟨?_, ?_, ?_, ?_, ?_, [], Or.inl rfl, ?_⟩ <;>
      simp [start_pcpu_signal, trampoline_addr, signal_events, h, log]

theorem start_pcpu_returns (env : hv_env) (cpu fuel id : Nat) (s : hv_state)
    (hf : 10001 ≤ fuel) : (start_pcpu env cpu fuel id s).result = some () := by
  have h := start_pcpu_wait_returns env id 10000 fuel (start_pcpu_signal env id s)
    (by omega) (by norm_num)
  unfold start_pcpu
  simp only [CPU_UP_TIMEOUT]
  cases hw : (start_pcpu_wait env id fuel (100 * 1000) (start_pcpu_signal env id s)).result with
  | none => exact absurd hw h
  | some t =>
    simp only
    split <;> rfl

/-- Shape of the log that one call of start_pcpu appends, and what it leaves alone. -/
theorem start_pcpu_frame (env : hv_env) (cpu fuel id : Nat) (s : hv_state) :
    (start_pcpu env cpu fuel id s).state.pcpu_sync = s.pcpu_sync ∧
    (start_pcpu env cpu fuel id s).state.phys_cpu_num = s.phys_cpu_num ∧
    trampoline_addr env (start_pcpu env cpu fuel id s).state = trampoline_addr env s ∧
    ∃ pre tl, (pre = [] ∨ pre = [hv_event.prepare_trampoline]) ∧
      (start_pcpu env cpu fuel id s).state.trace
        = s.trace ++ (pre ++ signal_events (trampoline_addr env s) id ++ tl) ∧
      (∀ e ∈ tl, wait_event id e = true) ∧
      ((start_pcpu env cpu fuel id s).result ≠ none →
        ∃ b rest, tl = hv_event.is_pcpu_active id b :: rest) := by
  obtain ⟨_, g2, g3, _, g5, pre, hpre, g6⟩ := start_pcpu_signal_spec env id s
  obtain ⟨w1, w2, w3, tl, w4, w5, w6⟩ :=
    start_pcpu_wait_frame env id fuel (CPU_UP_TIMEOUT * 1000) (start_pcpu_signal env id s)
  have haddr : ∀ st : hv_state, st.startup_paddr = trampoline_addr env s →
      trampoline_addr env st = trampoline_addr env s := by
    intro st hst
    unfold trampoline_addr at hst ⊢
    rw [hst]
    by_cases h0 : s.startup_paddr = 0 <;> simp [h0]
  unfold start_pcpu
  simp only
  cases hw : (start_pcpu_wait env id fuel (CPU_UP_TIMEOUT * 1000)
      (start_pcpu_signal env id s)).result with
  | none =>
    simp only
    refine ⟨by rw [w1, g2], by rw [w3, g3], haddr _ (by rw [w2, g5]), pre, tl, hpre, ?_, w5, ?_⟩
    · rw [w4, g6]; simp
    · intro h; exact absurd rfl h
  | some t =>
    simp only
    obtain ⟨b, rest, hb⟩ := w6 (by rw [hw]; simp)
    split
    · refine ⟨by simp [log, w1, g2], by simp [log, w3, g3],
        haddr _ (by simp [log, w2, g5]), pre, tl ++ [hv_event.is_pcpu_active id
          (is_pcpu_active id (start_pcpu_wait env id fuel (CPU_UP_TIMEOUT * 1000)
            (start_pcpu_signal env id s)).state.reg), hv_event.pr_fatal id], hpre, ?_, ?_, ?_⟩
      · simp [log, w4, g6]
      · intro e he
        simp only [List.mem_append, List.mem_cons, List.mem_singleton, List.not_mem_nil,
          or_false] at he
        rcases he with he | rfl | rfl
        · exact w5 e he
        · simp [wait_event]
        · simp [wait_event]
      · intro _; exact ⟨b, rest ++ _, by rw [hb]; rfl⟩
    · refine ⟨by simp [log, w1, g2], by simp [log, w3, g3],
        haddr _ (by simp [log, w2, g5]), pre, tl ++ [hv_event.is_pcpu_active id
          (is_pcpu_active id (start_pcpu_wait env id fuel (CPU_UP_TIMEOUT * 1000)
            (start_pcpu_signal env id s)).state.reg)], hpre, ?_, ?_, ?_⟩
      · simp [log, w4, g6]
      · intro e he
        simp only [List.mem_append, List.mem_singleton] at he
        rcases he with he | rfl
        · exact w5 e he
        · simp [wait_event]
      · intro _; exact ⟨b, rest ++ _, by rw [hb]; rfl⟩

/-- A property of the registry that the other cores preserve, and that survives
marking an inactive core Dead, survives start_pcpu (whether or not it returns
within the fuel). -/
theorem start_pcpu_inv (env : hv_env) (cpu fuel id : Nat) (P : pcpu_registry → Prop)
    (henv : ∀ st : hv_state, P st.reg → P (env.other_cores st))
    (hdead : ∀ r, P r → is_pcpu_active id r = false →
      P (pcpu_set_current_state cpu id PCPU_STATE_DEAD r))
    (s : hv_state) (h : P s.reg) : P (start_pcpu env cpu fuel id s).state.reg := by
  have hw := start_pcpu_wait_inv env id P henv fuel (CPU_UP_TIMEOUT * 1000)
    (start_pcpu_signal env id s) (by rw [(start_pcpu_signal_spec env id s).1]; exact h)
  unfold start_pcpu
  simp only
  cases hr : (start_pcpu_wait env id fuel (CPU_UP_TIMEOUT * 1000)
      (start_pcpu_signal env id s)).result with
  | none => exact hw
  | some t =>
    simp only
    split
    · rename_i hc
      exact hdead _ hw (by simpa [log] using hc)
    · exact hw

theorem wait_event_quiet {i : Nat} {e : hv_event} (h : wait_event i e = true) (core : Nat) :
    signals core e = false ∧ gate_store e = false ∧ startup_ipis [e] = [] := by
  cases e <;> simp_all [wait_event, signals, gate_store, startup_ipis]

theorem segment_events_quiet {cpu i addr : Nat} {pre tl : List hv_event}
    (hne : cpu ≠ i) (hpre : pre = [] ∨ pre = [hv_event.prepare_trampoline])
    (htl : ∀ e ∈ tl, wait_event i e = true) :
    ∀ e ∈ pre ++ signal_events addr i ++ tl, signals cpu e = false ∧ gate_store e = false := by
  intro e he
  simp only [List.mem_append] at he
  rcases he with (he | he) | he
  · rcases hpre with rfl | rfl
    · simp at he
    · simp only [List.mem_singleton] at he
      subst he
      simp [signals, gate_store]
  · simp only [signal_events, List.mem_cons, List.mem_singleton, List.not_mem_nil, or_false] at he
    have hne2 : ¬ (i = cpu) := fun h => hne h.symm
    rcases he with rfl | rfl | rfl | rfl <;> simp [signals, gate_store, hne2]
  · exact ⟨(wait_event_quiet (htl e he) cpu).1, (wait_event_quiet (htl e he) cpu).2.1⟩

/-- Whatever the fuel and the mask, the loop of start_pcpus only appends actions
that are neither a signal to the executing core nor a store to the gate, and it
does not touch the gate. -/
theorem start_pcpus_loop_quiet (env : hv_env) (cpu inner : Nat) :
    ∀ (fuel i expected : Nat) (s : hv_state),
      (start_pcpus_loop env cpu inner fuel i expected s).state.pcpu_sync = s.pcpu_sync ∧
      ∃ delta, (start_pcpus_loop env cpu inner fuel i expected s).state.trace = s.trace ++ delta ∧
        ∀ e ∈ delta, signals cpu e = false ∧ gate_store e = false := by
  intro fuel
  induction fuel with
  | zero => intro i expected s; exact ⟨rfl, [], by simp [start_pcpus_loop], by simp⟩
  | succ n ih =>
    intro i expected s
    unfold start_pcpus_loop
    by_cases hi : i ≠ INVALID_BIT_INDEX
    · rw [if_pos hi]
      simp only
      by_cases hc : cpu = i
      · rw [if_pos hc]
        exact ih i _ s
      · rw [if_neg hc]
        obtain ⟨f1, _, _, pre, tl, hpre, f4, f5, _⟩ := start_pcpu_frame env cpu inner i s
        have hq := @segment_events_quiet cpu i (trampoline_addr env s) pre tl hc hpre f5
        cases hr : (start_pcpu env cpu inner i s).result with
        | none => exact ⟨f1, _, f4, hq⟩
        | some u =>
          simp only
          obtain ⟨g1, delta, g2, g3⟩ := ih (ffs64 (bitmap_clear_nolock i expected))
            (bitmap_clear_nolock i expected) (start_pcpu env cpu inner i s).state
          refine ⟨by rw [g1, f1], (pre ++ signal_events (trampoline_addr env s) i ++ tl) ++ delta,
            by rw [g2, f4, List.append_assoc], ?_⟩
          intro e he
          rcases List.mem_append.1 he with he | he
          · exact hq e he
          · exact g3 e he
    · rw [if_neg hi]
      exact ⟨rfl, [], by simp, by simp⟩

/-- Registry invariants carry through the loop of start_pcpus. -/
theorem start_pcpus_loop_inv (env : hv_env) (cpu inner : Nat) (P : pcpu_registry → Prop)
    (henv : ∀ st : hv_state, P st.reg → P (env.other_cores st))
    (hdead : ∀ id r, id ≠ cpu → P r → is_pcpu_active id r = false →
      P (pcpu_set_current_state cpu id PCPU_STATE_DEAD r)) :
    ∀ (fuel i expected : Nat) (s : hv_state), P s.reg →
      P (start_pcpus_loop env cpu inner fuel i expected s).state.reg := by
  intro fuel
  induction fuel with
  | zero => intro i expected s h; simpa [start_pcpus_loop] using h
  | succ n ih =>
    intro i expected s h
    unfold start_pcpus_loop
    by_cases hi : i ≠ INVALID_BIT_INDEX
    · rw [if_pos hi]
      simp only
      by_cases hc : cpu = i
      · rw [if_pos hc]
        exact ih i _ s h
      · rw [if_neg hc]
        have hs := start_pcpu_inv env cpu inner i P henv (hdead i · (fun e => hc e.symm)) s h
        cases hr : (start_pcpu env cpu inner i s).result with
        | none => exact hs
        | some u => exact ih _ _ _ hs
    · rw [if_neg hi]
      exact h

/-- With the executing core outside the mask and enough fuel, the loop of
start_pcpus returns, having run start_pcpu once for each id of the mask in
ascending order. -/
theorem start_pcpus_loop_complete (env : hv_env) (cpu inner : Nat) (hin : 10001 ≤ inner) :
    ∀ (ids : List Nat) (fuel expected : Nat) (s : hv_state),
      mask_ids expected = ids → cpu ∉ ids → ids.length < fuel →
      ∃ t, start_pcpus_loop env cpu inner fuel (ffs64 expected) expected s = ⟨t, some ()⟩ ∧
        starts env cpu inner ids s t := by
  intro ids
  induction ids with
  | nil =>
    intro fuel expected s hm _ hf
    obtain ⟨n, rfl⟩ : ∃ n, fuel = n + 1 := ⟨fuel - 1, by simp at hf; omega⟩
    refine ⟨s, ?_, rfl⟩
    unfold start_pcpus_loop
    rw [ffs64_of_nil hm]
    simp
  | cons i rest ih =>
    intro fuel expected s hm hc hf
    obtain ⟨n, rfl⟩ : ∃ n, fuel = n + 1 := ⟨fuel - 1, by simp at hf; omega⟩
    have hi : i ≠ INVALID_BIT_INDEX := mask_ids_ne_invalid (by rw [hm]; simp)
    have hci : ¬ cpu = i := fun e => hc (by simp [e])
    have hret := start_pcpu_returns env cpu inner i s hin
    obtain ⟨t, ht, hst⟩ := ih n (bitmap_clear_nolock i expected)
      (start_pcpu env cpu inner i s).state (mask_ids_clear hm)
      (fun h => hc (List.mem_cons_of_mem _ h)) (by simp at hf; omega)
    refine ⟨t, ?_, (start_pcpu env cpu inner i s).state, ?_, hst⟩
    · unfold start_pcpus_loop
      rw [ffs64_of_cons hm, if_pos hi]
      simp only
      rw [if_neg hci, hret]
      exact ht
    · rw [← hret]

/-- With the bit of the executing core in the mask, the loop of start_pcpus does
not return, whatever the fuel: once `i` equals the executing core, `continue`
re-enters the loop with the same `i`. -/
theorem start_pcpus_loop_diverges (env : hv_env) (cpu inner : Nat) :
    ∀ (fuel i expected : Nat) (s : hv_state),
      (i = cpu ∧ cpu ≠ INVALID_BIT_INDEX) ∨ (i = ffs64 expected ∧ cpu ∈ mask_ids expected) →
      (start_pcpus_loop env cpu inner fuel i expected s).result = none := by
  intro fuel
  induction fuel with
  | zero => intro i expected s _; rfl
  | succ n ih =>
    intro i expected s h
    unfold start_pcpus_loop
    rcases h with ⟨rfl, hinv⟩ | ⟨rfl, hmem⟩
    · rw [if_pos hinv]
      simp only [if_true]
      exact ih _ _ _ (Or.inl ⟨rfl, hinv⟩)
    · cases hm : mask_ids expected with
      | nil => rw [hm] at hmem; simp at hmem
      | cons j rest =>
        have hj : j ≠ INVALID_BIT_INDEX := mask_ids_ne_invalid (by rw [hm]; simp)
        rw [ffs64_of_cons hm, if_pos hj]
        simp only
        by_cases hc : cpu = j
        · rw [if_pos hc]
          exact ih _ _ _ (Or.inl ⟨hc.symm, hc ▸ hj⟩)
        · rw [if_neg hc]
          cases hr : (start_pcpu env cpu inner j s).result with
          | none => rfl
          | some u =>
            simp only
            apply ih
            right
            refine ⟨rfl, ?_⟩
            rw [mask_ids_clear hm]
            rw [hm] at hmem
            rcases List.mem_cons.1 hmem with h | h
            · exact absurd h hc
            · exact h

theorem start_pcpus_none (env : hv_env) (cpu fuel mask : Nat) (s : hv_state)
    (h : (start_pcpus_loop env cpu fuel fuel (ffs64 mask) mask (gate_hold s)).result = none) :
    start_pcpus env cpu fuel mask s
      = ⟨(start_pcpus_loop env cpu fuel fuel (ffs64 mask) mask (gate_hold s)).state, none⟩ := by
  unfold start_pcpus
  simp only [h]

theorem start_pcpus_some (env : hv_env) (cpu fuel mask : Nat) (s : hv_state) (u : Unit)
    (h : (start_pcpus_loop env cpu fuel fuel (ffs64 mask) mask (gate_hold s)).result = some u) :
    start_pcpus env cpu fuel mask s
      = ⟨gate_release (start_pcpus_loop env cpu fuel fuel (ffs64 mask) mask (gate_hold s)).state,
          some (((start_pcpus_loop env cpu fuel fuel (ffs64 mask) mask
            (gate_hold s)).state.reg.pcpu_active_bitmap &&& mask) == mask)⟩ := by
  unfold start_pcpus
  simp only [h]
  rfl

theorem start_pcpus_reg (env : hv_env) (cpu fuel mask : Nat) (s : hv_state) :
    (start_pcpus env cpu fuel mask s).state.reg
      = (start_pcpus_loop env cpu fuel fuel (ffs64 mask) mask (gate_hold s)).state.reg := by
  cases h : (start_pcpus_loop env cpu fuel fuel (ffs64 mask) mask (gate_hold s)).result with
  | none => rw [start_pcpus_none env cpu fuel mask s h]
  | some u => rw [start_pcpus_some env cpu fuel mask s u h]; rfl

theorem start_pcpus_result (env : hv_env) (cpu fuel mask : Nat) (s : hv_state) (b : Bool)
    (h : (start_pcpus env cpu fuel mask s).result = some b) :
    b = (((start_pcpus env cpu fuel mask s).state.reg.pcpu_active_bitmap &&& mask) == mask) := by
  cases hl : (start_pcpus_loop env cpu fuel fuel (ffs64 mask) mask (gate_hold s)).result with
  | none => rw [start_pcpus_none env cpu fuel mask s hl] at h; simp at h
  | some u =>
    rw [start_pcpus_some env cpu fuel mask s u hl] at h ⊢
    simp only [Option.some.injEq] at h
    rw [← h]
    rfl

/-- C1 (as amended): if start_pcpus returns true then every core of the mask is
active.  The return value tells nothing about the boot state: start_pcpus reads
only the active bitmap, and init_pcpu_state sets the bit before it writes the boot
state.  When each of the two steps of init_pcpu_state takes one delay,
start_pcpus returns true for the cores 1, 2 and 3 while core 3 is active and its
boot state is still the one before start-up. -/
theorem C1_start_pcpus_true_active :
    (∀ (env : hv_env) (cpu fuel mask : Nat) (s : hv_state),
      (start_pcpus env cpu fuel mask s).result = some true →
      ∀ id, id < 64 → mask.testBit id = true →
        is_pcpu_active id (start_pcpus env cpu fuel mask s).state.reg = true) ∧
    (start_pcpus env_answer_in_steps 0 10001 0b1110 boot_state4).result = some true ∧
    is_pcpu_active 3
      (start_pcpus env_answer_in_steps 0 10001 0b1110 boot_state4).state.reg = true ∧
    (start_pcpus env_answer_in_steps 0 10001 0b1110 boot_state4).state.reg.boot_state 3
      = PCPU_STATE_NOT_STARTED := by
  refine ⟨?_, by decide, by decide, by decide⟩
  intro env cpu fuel mask s hres id hid hbit
  have hb := start_pcpus_result env cpu fuel mask s true hres
  have hact : (start_pcpus env cpu fuel mask s).state.reg.pcpu_active_bitmap.testBit id = true := by
    have h1 : ((start_pcpus env cpu fuel mask s).state.reg.pcpu_active_bitmap &&& mask) = mask := by
      simpa using hb.symm
    have h2 := congrArg (fun w => Nat.testBit w id) h1
    simp only [Nat.testBit_and, hbit, Bool.and_true] at h2
    exact h2
  simpa [is_pcpu_active, bitmap_test, Nat.mod_eq_of_lt hid] using hact

/-- C1 as stated fails in scenario 1 of the spec (four cores, core 0 starts the
cores 1, 2 and 3, all of which answer): start_pcpus returns true, yet the boot
state of core 1 is Initializing, not Running. -/
theorem C1_counterexample :
    ¬ ((start_pcpus env_all_answer 0 10001 0b1110 boot_state4).result = some true →
        ∀ id, id < 64 → (0b1110).testBit id = true →
          is_pcpu_active id (start_pcpus env_all_answer 0 10001 0b1110 boot_state4).state.reg = true ∧
          (start_pcpus env_all_answer 0 10001 0b1110 boot_state4).state.reg.boot_state id
            = PCPU_STATE_RUNNING) := by
  intro h
  have h1 := (h (by decide) 1 (by decide) (by decide)).2
  revert h1
  decide

/-- C1 (as amended) in scenario 1 of the spec: the cores 1, 2 and 3 answer,
start_pcpus returns true, and the three cores are active. -/
theorem C1_start_pcpus_true_active_witness :
    (start_pcpus env_all_answer 0 10001 0b1110 boot_state4).result = some true ∧
    ∀ id, id < 64 → (0b1110).testBit id = true →
      is_pcpu_active id
        (start_pcpus env_all_answer 0 10001 0b1110 boot_state4).state.reg = true :=
  ⟨by decide,
    C1_start_pcpus_true_active.1 env_all_answer 0 10001 0b1110 boot_state4 (by decide)⟩

theorem start_pcpus_own_bit (env : hv_env) (cpu fuel mask : Nat) (s : hv_state)
    (hcpu : cpu < 64) (hbit : mask.testBit cpu = true) :
    (start_pcpus env cpu fuel mask s).result = none := by
  have h := start_pcpus_loop_diverges env cpu fuel fuel (ffs64 mask) mask (gate_hold s)
    (Or.inr ⟨rfl, mem_mask_ids.2 ⟨hcpu, hbit⟩⟩)
  rw [start_pcpus_none env cpu fuel mask s h]

/-- C2 (code defect): when the mask holds the bit of the executing core,
start_pcpus does not return, whatever the fuel, the other bits of the mask and the
behaviour of the other cores.  The mask is written as an arbitrary word with the
bit of the caller set. -/
theorem C2_start_pcpus_own_bit_never_returns (env : hv_env) (cpu fuel mask : Nat)
    (s : hv_state) :
    (start_pcpus env (cpu % 64) fuel (bitmap_set_nolock cpu mask) s).result = none := by
  apply start_pcpus_own_bit
  · exact Nat.mod_lt _ (by norm_num)
  · have := testBit_bitmap_set cpu mask (cpu % 64)
    simp only [bitmap_set_lock] at this
    simp [bitmap_set_nolock, this]

theorem signals_false_iff (cpu : Nat) (e : hv_event) (h : signals cpu e = false) :
    e ≠ hv_event.write_trampoline_stack_sym cpu ∧ ∀ addr, e ≠ hv_event.send_startup_ipi cpu addr := by
  constructor
  · rintro rfl; simp [signals] at h
  · rintro addr rfl; simp [signals] at h

/-- C3: whatever the mask, the fuel and the behaviour of the other cores, the
actions that start_pcpus appends to the log hold neither a
write_trampoline_stack_sym nor a send_startup_ipi for the executing core.  The
statement covers every finite prefix of a run, returned or not. -/
theorem C3_start_pcpus_never_signals_itself (env : hv_env) (cpu fuel mask : Nat)
    (s : hv_state) :
    ∃ delta, (start_pcpus env cpu fuel mask s).state.trace = s.trace ++ delta ∧
      ∀ e ∈ delta, e ≠ hv_event.write_trampoline_stack_sym cpu ∧
        ∀ addr, e ≠ hv_event.send_startup_ipi cpu addr := by
  obtain ⟨_, delta, hd, hq⟩ :=
    start_pcpus_loop_quiet env cpu fuel fuel (ffs64 mask) mask (gate_hold s)
  have hq2 : ∀ e ∈ delta, e ≠ hv_event.write_trampoline_stack_sym cpu ∧
      ∀ addr, e ≠ hv_event.send_startup_ipi cpu addr :=
    fun e he => signals_false_iff cpu e (hq e he).1
  cases h : (start_pcpus_loop env cpu fuel fuel (ffs64 mask) mask (gate_hold s)).result with
  | none =>
    rw [start_pcpus_none env cpu fuel mask s h]
    refine ⟨[hv_event.pcpu_sync_store 1, hv_event.cpu_write_memory_barrier] ++ delta, ?_, ?_⟩
    · simp only [hd]; simp [gate_hold, log]
    · intro e he
      rcases List.mem_append.1 he with he | he
      · simp only [List.mem_cons, List.mem_singleton, List.not_mem_nil, or_false] at he
        rcases he with rfl | rfl <;> simp
      · exact hq2 e he
  | some u =>
    rw [start_pcpus_some env cpu fuel mask s u h]
    refine ⟨[hv_event.pcpu_sync_store 1, hv_event.cpu_write_memory_barrier] ++ delta
      ++ [hv_event.pcpu_sync_store 0], ?_, ?_⟩
    · simp only [gate_release, log, hd]; simp [gate_hold, log]
    · intro e he
      simp only [List.mem_append, List.mem_cons, List.mem_singleton, List.not_mem_nil,
        or_false] at he
      rcases he with (((rfl | rfl) | he) | rfl)
      · simp
      · simp
      · exact hq2 e he
      · simp

theorem count_udelay_polls (id : Nat) (b : Bool) (k : Nat) :
    ((List.replicate k [hv_event.is_pcpu_active id b, hv_event.udelay 10]).flatten).count
      (hv_event.udelay 10) = k := by
  induction k with
  | zero => simp
  | succ k ih =>
    rw [List.replicate_succ, List.flatten_cons, List.count_append, ih]
    simp [List.count_cons]
    omega

/-- The polling loop of start_pcpu for a core whose active bit stays clear: `k`
rounds of poll and delay count the timeout down from `10 * k` to exactly 0. -/
theorem start_pcpu_wait_timeout (env : hv_env) (id : Nat)
    (hquiet : ∀ st : hv_state, is_pcpu_active id st.reg = false →
      is_pcpu_active id (env.other_cores st) = false) :
    ∀ (k fuel : Nat) (s : hv_state), k < fuel → 10 * k < 2 ^ 32 →
      is_pcpu_active id s.reg = false →
      (start_pcpu_wait env id fuel (10 * k) s).result = some 0 ∧
      (start_pcpu_wait env id fuel (10 * k) s).state.trace
        = s.trace ++ ((List.replicate k
            [hv_event.is_pcpu_active id false, hv_event.udelay 10]).flatten
            ++ [hv_event.is_pcpu_active id false]) ∧
      (start_pcpu_wait env id fuel (10 * k) s).state.clock = s.clock + 10 * k ∧
      is_pcpu_active id (start_pcpu_wait env id fuel (10 * k) s).state.reg = false := by
  intro k
  induction k with
  | zero =>
    intro fuel s hf _ h0
    obtain ⟨n, rfl⟩ : ∃ n, fuel = n + 1 := ⟨fuel - 1, by omega⟩
    simp [start_pcpu_wait, h0, log]
  | succ k ih =>
    intro fuel s hf hk h0
    obtain ⟨n, rfl⟩ : ∃ n, fuel = n + 1 := ⟨fuel - 1, by omega⟩
    have e : (10 * (k + 1) + 2 ^ 32 - 10) % 2 ^ 32 = 10 * k := by omega
    have hs : is_pcpu_active id
        (udelay env 10 (log (hv_event.is_pcpu_active id false) s)).reg = false := by
      simp only [udelay]
      exact hquiet _ (by simpa [log] using h0)
    obtain ⟨i1, i2, i3, i4⟩ := ih n (udelay env 10 (log (hv_event.is_pcpu_active id false) s))
      (by omega) (by omega) hs
    have hstep : start_pcpu_wait env id (n + 1) (10 * (k + 1)) s
        = start_pcpu_wait env id n (10 * k)
            (udelay env 10 (log (hv_event.is_pcpu_active id false) s)) := by
      conv => lhs; unfold start_pcpu_wait
      simp only [h0, e]
      simp
    rw [hstep]
    refine ⟨i1, ?_, ?_, i4⟩
    · rw [i2, List.replicate_succ, List.flatten_cons]
      simp [udelay, log]
    · rw [i3]
      simp [udelay, log]
      omega

theorem dead_mark_spec (cpu id : Nat) (r : pcpu_registry) :
    (pcpu_set_current_state cpu id PCPU_STATE_DEAD r).pcpu_active_bitmap = r.pcpu_active_bitmap ∧
    (pcpu_set_current_state cpu id PCPU_STATE_DEAD r).pcpu_flag = r.pcpu_flag ∧
    (pcpu_set_current_state cpu id PCPU_STATE_DEAD r).msr = r.msr ∧
    (pcpu_set_current_state cpu id PCPU_STATE_DEAD r).boot_state id = PCPU_STATE_DEAD ∧
    ∀ j, j ≠ id → (pcpu_set_current_state cpu id PCPU_STATE_DEAD r).boot_state j = r.boot_state j := by
  refine ⟨?_, ?_, ?_, ?_, ?_⟩ <;> simp [pcpu_set_current_state]
  intro j hj h
  exact absurd h hj

theorem dead_mark_is_pcpu_active (cpu id j : Nat) (r : pcpu_registry) :
    is_pcpu_active j (pcpu_set_current_state cpu id PCPU_STATE_DEAD r) = is_pcpu_active j r := by
  simp [is_pcpu_active, (dead_mark_spec cpu id r).1]

/-- One call of start_pcpu for a core whose active bit stays clear. -/
theorem start_pcpu_timeout (env : hv_env) (cpu fuel id : Nat) (s : hv_state)
    (hfuel : 10001 ≤ fuel) (h0 : is_pcpu_active id s.reg = false)
    (hquiet : ∀ st : hv_state, is_pcpu_active id st.reg = false →
      is_pcpu_active id (env.other_cores st) = false) :
    ∃ t pre, start_pcpu env cpu fuel id s = ⟨t, some ()⟩ ∧
      (pre = [] ∨ pre = [hv_event.prepare_trampoline]) ∧
      t.trace = s.trace ++ (pre ++ signal_events (trampoline_addr env s) id
        ++ (List.replicate 10000 [hv_event.is_pcpu_active id false, hv_event.udelay 10]).flatten
        ++ [hv_event.is_pcpu_active id false, hv_event.is_pcpu_active id false,
            hv_event.pr_fatal id]) ∧
      t.clock = s.clock + 100000 ∧
      t.reg.boot_state id = PCPU_STATE_DEAD ∧
      is_pcpu_active id t.reg = false := by
  obtain ⟨g1, _, _, g4, _, pre, hpre, g6⟩ := start_pcpu_signal_spec env id s
  obtain ⟨w1, w2, w3, w4⟩ := start_pcpu_wait_timeout env id hquiet 10000 fuel
    (start_pcpu_signal env id s) (by omega) (by norm_num) (by rw [g1]; exact h0)
  have hT : CPU_UP_TIMEOUT * 1000 = 10 * 10000 := by norm_num [CPU_UP_TIMEOUT]
  have hst : (start_pcpu env cpu fuel id s).state
      = { log (hv_event.pr_fatal id) (log (hv_event.is_pcpu_active id false)
            (start_pcpu_wait env id fuel (10 * 10000) (start_pcpu_signal env id s)).state) with
          reg := pcpu_set_current_state cpu id PCPU_STATE_DEAD
            (start_pcpu_wait env id fuel (10 * 10000) (start_pcpu_signal env id s)).state.reg } := by
    unfold start_pcpu
    simp only [hT, w1, w4]
    rfl
  refine ⟨(start_pcpu env cpu fuel id s).state, pre, ?_, hpre, ?_, ?_, ?_, ?_⟩
  · have hr := start_pcpu_returns env cpu fuel id s hfuel
    cases hrun : start_pcpu env cpu fuel id s with
    | mk st res =>
      rw [hrun] at hr
      simp only at hr
      rw [hr]
  · rw [hst]
    simp only [log, w2, g6, List.append_assoc, List.cons_append, List.nil_append]
  · rw [hst]
    simp only [log, w3, g4]
  · rw [hst]
    exact (dead_mark_spec cpu id _).2.2.2.1
  · rw [hst]
    simp only
    rw [dead_mark_is_pcpu_active]
    exact w4

theorem run_eta {α : Type} (r : run α) (a : α) (h : r.result = some a) :
    r = ⟨r.state, some a⟩ := by
  cases r with
  | mk st res =>
    simp only at h
    rw [h]

theorem starts_inv (env : hv_env) (cpu inner : Nat) (P : pcpu_registry → Prop)
    (henv : ∀ st : hv_state, P st.reg → P (env.other_cores st))
    (hdead : ∀ j r, P r → is_pcpu_active j r = false →
      P (pcpu_set_current_state cpu j PCPU_STATE_DEAD r)) :
    ∀ (ids : List Nat) (s t : hv_state), starts env cpu inner ids s t → P s.reg → P t.reg := by
  intro ids
  induction ids with
  | nil => intro s t h hP; simp only [starts] at h; rw [h]; exact hP
  | cons i rest ih =>
    intro s t h hP
    obtain ⟨m, hm, hrest⟩ := h
    apply ih m t hrest
    have := start_pcpu_inv env cpu inner i P henv (hdead i) s hP
    rw [hm] at this
    exact this

theorem starts_split (env : hv_env) (cpu inner i : Nat) :
    ∀ (ids : List Nat) (s t : hv_state), i ∈ ids → starts env cpu inner ids s t →
      ∃ l1 l2 m1 m2, ids = l1 ++ i :: l2 ∧ starts env cpu inner l1 s m1 ∧
        start_pcpu env cpu inner i m1 = ⟨m2, some ()⟩ ∧ starts env cpu inner l2 m2 t := by
  intro ids
  induction ids with
  | nil => intro s t hi; simp at hi
  | cons j rest ih =>
    intro s t hi h
    obtain ⟨m, hm, hrest⟩ := h
    by_cases hji : i = j
    · subst hji
      exact ⟨[], rest, s, m, rfl, rfl, hm, hrest⟩
    · have hi2 : i ∈ rest := by
        rcases List.mem_cons.1 hi with h | h
        · exact absurd h hji
        · exact h
      obtain ⟨l1, l2, m1, m2, e, h1, h2, h3⟩ := ih m t hi2 hrest
      exact ⟨j :: l1, l2, m1, m2, by rw [e]; rfl, ⟨m, hm, h1⟩, h2, h3⟩

/-- With the bit of the executing core clear in the mask and fuel for one full
timeout per core, start_pcpus returns after one complete start_pcpu for each id of
the mask in ascending order, between the hold and the release of the gate. -/
theorem start_pcpus_complete (env : hv_env) (cpu fuel mask : Nat) (s : hv_state)
    (hcpu : mask.testBit cpu = false) (hfuel : 10001 ≤ fuel) :
    ∃ t, starts env cpu fuel (mask_ids mask) (gate_hold s) t ∧
      start_pcpus env cpu fuel mask s
        = ⟨gate_release t, some ((t.reg.pcpu_active_bitmap &&& mask) == mask)⟩ := by
  have hlen : (mask_ids mask).length < fuel := by
    have h1 : (mask_ids mask).length ≤ (List.range 64).length := List.length_filter_le _ _
    simp only [List.length_range] at h1
    omega
  have hnot : cpu ∉ mask_ids mask := by
    intro h
    have := (mem_mask_ids.1 h).2
    rw [hcpu] at this
    exact absurd this (by simp)
  obtain ⟨t, ht, hst⟩ := start_pcpus_loop_complete env cpu fuel hfuel (mask_ids mask) fuel mask
    (gate_hold s) rfl hnot hlen
  refine ⟨t, hst, ?_⟩
  have hr : (start_pcpus_loop env cpu fuel fuel (ffs64 mask) mask (gate_hold s)).result
      = some () := by rw [ht]
  rw [start_pcpus_some env cpu fuel mask s () hr, ht]

/-- For a target whose active bit stays clear, start_pcpus returns false with the
target Dead and inactive, for every mask that holds the target and not the
executing core. -/
theorem start_pcpus_timeout (env : hv_env) (cpu fuel id : Nat) (s : hv_state)
    (hfuel : 10001 ≤ fuel) (h0 : is_pcpu_active id s.reg = false)
    (hquiet : ∀ st : hv_state, is_pcpu_active id st.reg = false →
      is_pcpu_active id (env.other_cores st) = false)
    (hstate : ∀ st : hv_state, st.reg.boot_state id = PCPU_STATE_DEAD →
      (env.other_cores st).boot_state id = PCPU_STATE_DEAD)
    (mask : Nat) (hid : id < 64) (hbit : mask.testBit id = true)
    (hcpu : mask.testBit cpu = false) :
    ∃ t, start_pcpus env cpu fuel mask s = ⟨t, some false⟩ ∧
      t.reg.boot_state id = PCPU_STATE_DEAD ∧ is_pcpu_active id t.reg = false := by
  obtain ⟨t, hst, hrun⟩ := start_pcpus_complete env cpu fuel mask s hcpu hfuel
  obtain ⟨l1, l2, m1, m2, _, hl1, hmid, hl2⟩ := starts_split env cpu fuel id (mask_ids mask)
    (gate_hold s) t (mem_mask_ids.2 ⟨hid, hbit⟩) hst
  have hm1 : is_pcpu_active id m1.reg = false :=
    starts_inv env cpu fuel (fun r => is_pcpu_active id r = false) hquiet
      (fun j r hr _ => by beta_reduce at hr ⊢; rw [dead_mark_is_pcpu_active]; exact hr)
      l1 (gate_hold s) m1 hl1 h0
  obtain ⟨t2, _, e2, _, _, _, d1, d2⟩ := start_pcpu_timeout env cpu fuel id m1 hfuel hm1 hquiet
  have hm2 : m2 = t2 := by
    have := hmid.symm.trans e2
    simpa using this
  subst hm2
  have hfin : is_pcpu_active id t.reg = false ∧ t.reg.boot_state id = PCPU_STATE_DEAD :=
    starts_inv env cpu fuel
      (fun r => is_pcpu_active id r = false ∧ r.boot_state id = PCPU_STATE_DEAD)
      (fun st h => ⟨hquiet st h.1, hstate st h.2⟩)
      (fun j r hr _ => by
        beta_reduce at hr ⊢
        refine ⟨by rw [dead_mark_is_pcpu_active]; exact hr.1, ?_⟩
        by_cases hj : id = j
        · subst hj; exact (dead_mark_spec cpu id r).2.2.2.1
        · rw [(dead_mark_spec cpu j r).2.2.2.2 id hj]; exact hr.2)
      l2 m2 t hl2 ⟨d2, d1⟩
  have hbm : t.reg.pcpu_active_bitmap.testBit id = false := by
    simpa [is_pcpu_active, bitmap_test, Nat.mod_eq_of_lt hid] using hfin.1
  have hres : ((t.reg.pcpu_active_bitmap &&& mask) == mask) = false := by
    apply Bool.eq_false_iff.2
    intro h
    have h1 : t.reg.pcpu_active_bitmap &&& mask = mask := by simpa using h
    have h2 := congrArg (fun w => Nat.testBit w id) h1
    simp only [Nat.testBit_and, hbit, hbm, Bool.and_true] at h2
    exact absurd h2 (by simp)
  refine ⟨gate_release t, ?_, hfin.2, hfin.1⟩
  rw [hrun, hres]

/-- For a target whose active bit stays clear, start_pcpus cannot return true for a
mask that holds the target, whatever the fuel and the rest of the mask. -/
theorem start_pcpus_never_true (env : hv_env) (cpu fuel id : Nat) (s : hv_state)
    (h0 : is_pcpu_active id s.reg = false)
    (hquiet : ∀ st : hv_state, is_pcpu_active id st.reg = false →
      is_pcpu_active id (env.other_cores st) = false)
    (mask : Nat) (hid : id < 64) (hbit : mask.testBit id = true) :
    (start_pcpus env cpu fuel mask s).result ≠ some true := by
  intro hres
  have hb := start_pcpus_result env cpu fuel mask s true hres
  have hinact : is_pcpu_active id (start_pcpus env cpu fuel mask s).state.reg = false := by
    rw [start_pcpus_reg]
    exact start_pcpus_loop_inv env cpu fuel (fun r => is_pcpu_active id r = false) hquiet
      (fun j r _ hr _ => by beta_reduce at hr ⊢; rw [dead_mark_is_pcpu_active]; exact hr)
      _ _ _ _ (by simpa [gate_hold, log] using h0)
  have hbm : (start_pcpus env cpu fuel mask s).state.reg.pcpu_active_bitmap.testBit id = false := by
    simpa [is_pcpu_active, bitmap_test, Nat.mod_eq_of_lt hid] using hinact
  have h1 : (start_pcpus env cpu fuel mask s).state.reg.pcpu_active_bitmap &&& mask = mask := by
    simpa using hb.symm
  have h2 := congrArg (fun w => Nat.testBit w id) h1
  simp only [Nat.testBit_and, hbit, hbm, Bool.and_true] at h2
  exact absurd h2 (by simp)

/-- C4: start-up timeout.  For a target whose active bit is clear and stays clear
during the delays, start_pcpu returns after exactly 10000 delays of 10
microseconds (100000 microseconds on the clock, the countdown of the polling loop
ending at exactly 0), with the boot state of the target Dead; start_pcpu itself
leaves the active bitmap alone: every property of the bitmap that the other cores
preserve still holds.  Consequently, for every mask that holds the target,
start_pcpus never returns true, and when the mask does not hold the executing core
it returns false, with the target Dead and inactive. -/
theorem C4_startup_timeout (env : hv_env) (cpu fuel id : Nat) (s : hv_state)
    (hfuel : 10001 ≤ fuel) (h0 : is_pcpu_active id s.reg = false)
    (hquiet : ∀ st : hv_state, is_pcpu_active id st.reg = false →
      is_pcpu_active id (env.other_cores st) = false)
    (hstate : ∀ st : hv_state, st.reg.boot_state id = PCPU_STATE_DEAD →
      (env.other_cores st).boot_state id = PCPU_STATE_DEAD) :
    (∃ t delta, start_pcpu env cpu fuel id s = ⟨t, some ()⟩ ∧
      (start_pcpu_wait env id fuel (CPU_UP_TIMEOUT * 1000)
        (start_pcpu_signal env id s)).result = some 0 ∧
      t.trace = s.trace ++ delta ∧
      delta.count (hv_event.udelay 10) = 10000 ∧
      (∀ us, hv_event.udelay us ∈ delta → us = 10) ∧
      t.clock = s.clock + 100000 ∧
      t.reg.boot_state id = PCPU_STATE_DEAD ∧
      is_pcpu_active id t.reg = false ∧
      ∀ P : Nat → Prop,
        (∀ st : hv_state, P st.reg.pcpu_active_bitmap → P (env.other_cores st).pcpu_active_bitmap) →
        P s.reg.pcpu_active_bitmap → P t.reg.pcpu_active_bitmap) ∧
    (∀ mask, id < 64 → mask.testBit id = true →
      (∀ fuel2, (start_pcpus env cpu fuel2 mask s).result ≠ some true) ∧
      (mask.testBit cpu = false →
        ∃ t, start_pcpus env cpu fuel mask s = ⟨t, some false⟩ ∧
          t.reg.boot_state id = PCPU_STATE_DEAD ∧ is_pcpu_active id t.reg = false)) := by
  constructor
  · obtain ⟨t, pre, h1, hpre, h2, h3, h4, h5⟩ := start_pcpu_timeout env cpu fuel id s hfuel h0 hquiet
    refine ⟨t, _, h1, ?_, h2, ?_, ?_, h3, h4, h5, ?_⟩
    · have hT : CPU_UP_TIMEOUT * 1000 = 10 * 10000 := by norm_num [CPU_UP_TIMEOUT]
      rw [hT]
      exact (start_pcpu_wait_timeout env id hquiet 10000 fuel (start_pcpu_signal env id s)
        (by omega) (by norm_num)
        (by rw [(start_pcpu_signal_spec env id s).1]; exact h0)).1
    · simp only [List.count_append, count_udelay_polls]
      rcases hpre with rfl | rfl <;> simp [signal_events, List.count_cons]
    · intro us hus
      simp only [List.mem_append, List.mem_flatten, List.mem_replicate] at hus
      rcases hus with ((hus | hus) | ⟨l, ⟨_, rfl⟩, hus⟩) | hus
      · rcases hpre with rfl | rfl <;> simp at hus
      · simp [signal_events] at hus
      · simp at hus; exact hus
      · simp at hus
    · intro P hP hs
      have := start_pcpu_inv env cpu fuel id (fun r => P r.pcpu_active_bitmap) hP
        (fun r hr _ => by beta_reduce at hr ⊢; rw [(dead_mark_spec cpu id r).1]; exact hr) s hs
      rw [h1] at this
      exact this
  · intro mask hid hbit
    exact ⟨fun fuel2 => start_pcpus_never_true env cpu fuel2 id s h0 hquiet mask hid hbit,
      fun hcpu => start_pcpus_timeout env cpu fuel id s hfuel h0 hquiet hstate mask hid hbit hcpu⟩

theorem signalled_append (j : Nat) (l1 l2 : List hv_event) :
    signalled j (l1 ++ l2) = (signalled j l1 || signalled j l2) := by
  simp [signalled]

theorem testBit_init_pcpu_state (c j b : Nat) (r : pcpu_registry) :
    (init_pcpu_state c j r).pcpu_active_bitmap.testBit b
      = (r.pcpu_active_bitmap.testBit b || decide (j % 64 = b)) := by
  simp only [init_pcpu_state, pcpu_set_current_state, set_active_pcpu_bitmap,
    set_current_pcpu_id, msr_write, if_true]
  exact testBit_bitmap_set j _ b

theorem boot_state_init_pcpu_state (c j id : Nat) (r : pcpu_registry) (h : id ≠ j) :
    (init_pcpu_state c j r).boot_state id = r.boot_state id := by
  simp [init_pcpu_state, pcpu_set_current_state, set_active_pcpu_bitmap,
    set_current_pcpu_id, msr_write, h]

/-- Bits of the active bitmap after the answering cores have acted: a bit is set
if it was set or if it is the bit of a signalled core of the list. -/
theorem testBit_answering (l : List Nat) (st : hv_state) (b : Nat) :
    (answering l st).pcpu_active_bitmap.testBit b
      = (st.reg.pcpu_active_bitmap.testBit b ||
          l.any (fun j => decide (j % 64 = b) && signalled j st.trace)) := by
  unfold answering
  generalize st.reg = r
  induction l generalizing r with
  | nil => simp
  | cons j rest ih =>
    simp only [List.foldl_cons, List.any_cons]
    rw [ih]
    by_cases hs : signalled j st.trace = true
    · by_cases ha : is_pcpu_active j r = true
      · simp only [hs, ha, Bool.not_true, Bool.and_false, Bool.false_eq_true, if_false,
          Bool.and_true]
        by_cases hb : j % 64 = b
        · have : r.pcpu_active_bitmap.testBit b = true := by
            rw [← hb]; simpa [is_pcpu_active, bitmap_test] using ha
          simp [this]
        · simp [hb]
      · simp only [hs, Bool.not_eq_true] at ha ⊢
        simp only [ha, Bool.not_false, Bool.and_self, if_true, Bool.and_true]
        rw [testBit_init_pcpu_state, Bool.or_assoc]
    · simp only [Bool.not_eq_true] at hs
      simp [hs]

theorem boot_state_answering (l : List Nat) (st : hv_state) (id : Nat) (h : id ∉ l) :
    (answering l st).boot_state id = st.reg.boot_state id := by
  unfold answering
  generalize st.reg = r
  induction l generalizing r with
  | nil => simp
  | cons j rest ih =>
    simp only [List.foldl_cons]
    rw [ih (fun hm => h (List.mem_cons_of_mem _ hm))]
    split
    · exact boot_state_init_pcpu_state j j id r (fun e => h (by simp [e]))
    · rfl

theorem is_pcpu_active_answering (l : List Nat) (st : hv_state) (id : Nat) :
    is_pcpu_active id (answering l st)
      = (is_pcpu_active id st.reg ||
          l.any (fun j => decide (j % 64 = id % 64) && signalled j st.trace)) := by
  simp only [is_pcpu_active, bitmap_test]
  exact testBit_answering l st (id % 64)

/-- A core that was signalled and becomes active during the next delay, and that
the other cores keep active, is active when the polling loop returns. -/
theorem start_pcpu_wait_answered (env : hv_env) (i : Nat)
    (hresp : ∀ st : hv_state, signalled i st.trace = true →
      is_pcpu_active i (env.other_cores st) = true)
    (hkeep : ∀ st : hv_state, is_pcpu_active i st.reg = true →
      is_pcpu_active i (env.other_cores st) = true)
    (fuel timeout : Nat) (s : hv_state) (hsig : signalled i s.trace = true)
    (ht : timeout ≠ 0) (hret : (start_pcpu_wait env i fuel timeout s).result ≠ none) :
    is_pcpu_active i (start_pcpu_wait env i fuel timeout s).state.reg = true := by
  cases fuel with
  | zero => simp [start_pcpu_wait] at hret
  | succ n =>
    by_cases ha : is_pcpu_active i s.reg = true
    · exact start_pcpu_wait_inv env i (fun r => is_pcpu_active i r = true) hkeep _ _ s ha
    · simp only [Bool.not_eq_true] at ha
      unfold start_pcpu_wait
      simp only [ha, Bool.not_false, Bool.true_and, bne_iff_ne, ne_eq, ht, not_false_eq_true,
        if_true]
      apply start_pcpu_wait_inv env i (fun r => is_pcpu_active i r = true) hkeep
      simp only [udelay]
      apply hresp
      simp [log, signalled_append, hsig]

theorem signalled_start_pcpu_signal (env : hv_env) (i : Nat) (s : hv_state) :
    signalled i (start_pcpu_signal env i s).trace = true := by
  obtain ⟨_, _, _, _, _, pre, _, h⟩ := start_pcpu_signal_spec env i s
  rw [h]
  simp [signalled_append, signal_events, signalled]

theorem start_pcpu_answered (env : hv_env) (cpu fuel i : Nat) (s t : hv_state)
    (hresp : ∀ st : hv_state, signalled i st.trace = true →
      is_pcpu_active i (env.other_cores st) = true)
    (hkeep : ∀ st : hv_state, is_pcpu_active i st.reg = true →
      is_pcpu_active i (env.other_cores st) = true)
    (h : start_pcpu env cpu fuel i s = ⟨t, some ()⟩) : is_pcpu_active i t.reg = true := by
  have hw := start_pcpu_wait_answered env i hresp hkeep fuel (CPU_UP_TIMEOUT * 1000)
    (start_pcpu_signal env i s) (signalled_start_pcpu_signal env i s)
    (by norm_num [CPU_UP_TIMEOUT])
  unfold start_pcpu at h
  simp only at h
  cases hr : (start_pcpu_wait env i fuel (CPU_UP_TIMEOUT * 1000)
      (start_pcpu_signal env i s)).result with
  | none => rw [hr] at h; simp at h
  | some x =>
    have ha := hw (by rw [hr]; simp)
    rw [hr] at h
    simp only [ha, Bool.not_true, Bool.false_eq_true, if_false, log] at h
    have := congrArg (fun r => r.state.reg) h
    simp only at this
    rw [← this]
    exact ha

theorem starts_answered (env : hv_env) (cpu fuel i : Nat) (ids : List Nat) (s t : hv_state)
    (hresp : ∀ st : hv_state, signalled i st.trace = true →
      is_pcpu_active i (env.other_cores st) = true)
    (hkeep : ∀ st : hv_state, is_pcpu_active i st.reg = true →
      is_pcpu_active i (env.other_cores st) = true)
    (hi : i ∈ ids) (h : starts env cpu fuel ids s t) : is_pcpu_active i t.reg = true := by
  obtain ⟨l1, l2, m1, m2, _, _, hmid, hl2⟩ := starts_split env cpu fuel i ids s t hi h
  have hm2 := start_pcpu_answered env cpu fuel i m1 m2 hresp hkeep hmid
  exact starts_inv env cpu fuel (fun r => is_pcpu_active i r = true) hkeep
    (fun j r hr _ => by beta_reduce at hr ⊢; rw [dead_mark_is_pcpu_active]; exact hr)
    l2 m2 t hl2 hm2

theorem env_core2_silent_quiet (st : hv_state) (h : is_pcpu_active 2 st.reg = false) :
    is_pcpu_active 2 (env_core2_silent.other_cores st) = false := by
  simp only [env_core2_silent]
  rw [is_pcpu_active_answering, h]
  simp

theorem env_core2_silent_state (st : hv_state) (h : st.reg.boot_state 2 = PCPU_STATE_DEAD) :
    (env_core2_silent.other_cores st).boot_state 2 = PCPU_STATE_DEAD := by
  simp only [env_core2_silent]
  rw [boot_state_answering [1, 3] st 2 (by decide)]
  exact h

/-- Scenario 2 of the spec: on a board of four cores, core 0 starts the cores 1, 2
and 3; core 2 never runs.  The bitmap ends as 0b1011. -/
theorem scenario2_bitmap :
    (start_pcpus env_core2_silent 0 10001 0b1110 boot_state4).state.reg.pcpu_active_bitmap
      = 0b1011 := by
  obtain ⟨t, hst, hrun⟩ := start_pcpus_complete env_core2_silent 0 10001 0b1110 boot_state4
    (by decide) (by decide)
  rw [hrun]
  simp only [gate_release, log]
  have hids : mask_ids 0b1110 = [1, 2, 3] := by decide
  rw [hids] at hst
  have hresp : ∀ i, i = 1 ∨ i = 3 → ∀ st : hv_state, signalled i st.trace = true →
      is_pcpu_active i (env_core2_silent.other_cores st) = true := by
    intro i hi st hs
    simp only [env_core2_silent]
    rw [is_pcpu_active_answering]
    rcases hi with rfl | rfl <;> simp [hs]
  have hkeep : ∀ i, ∀ st : hv_state, is_pcpu_active i st.reg = true →
      is_pcpu_active i (env_core2_silent.other_cores st) = true := by
    intro i st hs
    simp only [env_core2_silent]
    rw [is_pcpu_active_answering, hs]
    simp
  have h1 : is_pcpu_active 1 t.reg = true :=
    starts_answered env_core2_silent 0 10001 1 [1, 2, 3] _ t (hresp 1 (Or.inl rfl)) (hkeep 1)
      (by decide) hst
  have h3 : is_pcpu_active 3 t.reg = true :=
    starts_answered env_core2_silent 0 10001 3 [1, 2, 3] _ t (hresp 3 (Or.inr rfl)) (hkeep 3)
      (by decide) hst
  have hrest : ∀ b, b ≠ 1 → b ≠ 3 →
      t.reg.pcpu_active_bitmap.testBit b = (1 : Nat).testBit b := by
    have := starts_inv env_core2_silent 0 10001
      (fun r => ∀ b, b ≠ 1 → b ≠ 3 → r.pcpu_active_bitmap.testBit b = (1 : Nat).testBit b)
      (fun st h b hb1 hb3 => by
        simp only [env_core2_silent]
        rw [testBit_answering, h b hb1 hb3]
        have e1 : ¬ (1 = b) := fun e => hb1 e.symm
        have e3 : ¬ (3 = b) := fun e => hb3 e.symm
        simp [e1, e3])
      (fun j r hr _ b hb1 hb3 => by
        rw [(dead_mark_spec 0 j r).1]
        exact hr b hb1 hb3)
      [1, 2, 3] _ t hst
    exact this (fun b _ _ => rfl)
  apply Nat.eq_of_testBit_eq
  intro b
  by_cases hb1 : b = 1
  · subst hb1
    simpa [is_pcpu_active, bitmap_test] using h1
  · by_cases hb3 : b = 3
    · subst hb3
      simpa [is_pcpu_active, bitmap_test] using h3
    · rw [hrest b hb1 hb3]
      by_cases hb0 : b = 0
      · subst hb0; decide
      · by_cases hb2 : b = 2
        · subst hb2; decide
        · have hb4 : 4 ≤ b := by omega
          have p1 : (1 : Nat) < 2 ^ b :=
            lt_of_lt_of_le (by norm_num) (Nat.pow_le_pow_right (by norm_num) hb4)
          have p11 : (0b1011 : Nat) < 2 ^ b :=
            lt_of_lt_of_le (by norm_num) (Nat.pow_le_pow_right (by norm_num) hb4)
          rw [Nat.testBit_lt_two_pow p1, Nat.testBit_lt_two_pow p11]

/-- C4 in scenario 2 of the spec: four cores, core 0 starts the cores 1, 2 and 3,
core 2 never runs.  start_pcpus returns false, core 2 is Dead and the active
bitmap is 0b1011. -/
theorem C4_startup_timeout_witness :
    is_pcpu_active 2 boot_state4.reg = false ∧
    (start_pcpus env_core2_silent 0 10001 0b1110 boot_state4).result = some false ∧
    (start_pcpus env_core2_silent 0 10001 0b1110 boot_state4).state.reg.boot_state 2
      = PCPU_STATE_DEAD ∧
    (start_pcpus env_core2_silent 0 10001 0b1110 boot_state4).state.reg.pcpu_active_bitmap
      = 0b1011 := by
  obtain ⟨t, ht, hd, _⟩ := ((C4_startup_timeout env_core2_silent 0 10001 2 boot_state4
    (by decide) (by decide) env_core2_silent_quiet env_core2_silent_state).2
    0b1110 (by decide) (by decide)).2 (by decide)
  refine ⟨by decide, ?_, ?_, scenario2_bitmap⟩
  · rw [ht]
  · rw [ht]; exact hd

/-- Scenario 2 of the spec: the start attempt for core 2 times out, core 2 is
marked Dead and start_pcpus returns false. -/
theorem scenario2_dead :
    (start_pcpus env_core2_silent 0 10001 0b1110 boot_state4).result = some false ∧
    (start_pcpus env_core2_silent 0 10001 0b1110 boot_state4).state.reg.boot_state 2
      = PCPU_STATE_DEAD := by
  obtain ⟨t, ht, hd, _⟩ := start_pcpus_timeout env_core2_silent 0 10001 2 boot_state4
    (by decide) (by decide) env_core2_silent_quiet env_core2_silent_state
    0b1110 (by decide) (by decide) (by decide)
  rw [ht]
  exact ⟨rfl, hd⟩

theorem cpu_dead_halt_spec (halt : Nat) (hh : halt ≠ 0) :
    ∀ (fuel : Nat) (s : hv_state),
      (cpu_dead_halt halt fuel s).result = none ∧
      (cpu_dead_halt halt fuel s).state.reg = s.reg ∧
      (cpu_dead_halt halt fuel s).state.trace
        = s.trace ++ List.replicate fuel hv_event.asm_hlt := by
  intro fuel
  induction fuel with
  | zero => intro s; simp [cpu_dead_halt]
  | succ n ih =>
    intro s
    unfold cpu_dead_halt
    simp only [hh, ne_eq, not_false_eq_true, if_true]
    obtain ⟨h1, h2, h3⟩ := ih (log hv_event.asm_hlt s)
    refine ⟨h1, by rw [h2]; rfl, ?_⟩
    rw [h3, List.replicate_succ]
    simp [log]

/-- cpu_dead on an active core: it does not return, and the state it halts in. -/
theorem cpu_dead_active (c fuel : Nat) (s : hv_state) (h : is_pcpu_active c s.reg = true) :
    (cpu_dead c fuel s).result = none ∧
    (cpu_dead c fuel s).state.reg
      = { pcpu_set_current_state c c PCPU_STATE_DEAD s.reg with
          pcpu_active_bitmap := bitmap_clear_lock c s.reg.pcpu_active_bitmap } ∧
    (cpu_dead c fuel s).state.trace
      = s.trace ++ ([hv_event.deinit_sched c, hv_event.vmx_off,
          hv_event.cache_flush_invalidate_all] ++ List.replicate fuel hv_event.asm_hlt) := by
  have hb : bitmap_test c s.reg.pcpu_active_bitmap = true := h
  unfold cpu_dead
  simp only [log, hb, if_true]
  obtain ⟨h1, h2, h3⟩ := cpu_dead_halt_spec 1 (by decide) fuel
    { reg := { pcpu_set_current_state c c PCPU_STATE_DEAD s.reg with
          pcpu_active_bitmap := bitmap_clear_lock c
            (pcpu_set_current_state c c PCPU_STATE_DEAD s.reg).pcpu_active_bitmap },
      phys_cpu_num := s.phys_cpu_num, pcpu_sync := s.pcpu_sync,
      startup_paddr := s.startup_paddr, clock := s.clock,
      trace := s.trace ++ [hv_event.deinit_sched c] ++ [hv_event.vmx_off]
        ++ [hv_event.cache_flush_invalidate_all] }
  refine ⟨h1, ?_, ?_⟩
  · rw [h2]
    simp only [(dead_mark_spec c c s.reg).1]
  · rw [h3]
    simp

/-- cpu_dead on a core whose active bit is clear: it reports and returns. -/
theorem cpu_dead_inactive (c fuel : Nat) (s : hv_state) (h : is_pcpu_active c s.reg = false) :
    cpu_dead c fuel s
      = ⟨{ s with trace := s.trace ++ [hv_event.deinit_sched c, hv_event.pr_err c] }, some ()⟩ := by
  have hb : bitmap_test c s.reg.pcpu_active_bitmap = false := h
  unfold cpu_dead
  simp [log, hb]

theorem cpu_dead_keeps_dead (c fuel id : Nat) (s : hv_state)
    (hd : s.reg.boot_state id = PCPU_STATE_DEAD) :
    (cpu_dead c fuel s).state.reg.boot_state id = PCPU_STATE_DEAD := by
  by_cases h : is_pcpu_active c s.reg = true
  · rw [(cpu_dead_active c fuel s h).2.1]
    simp only
    by_cases hj : id = c
    · subst hj; exact (dead_mark_spec id id s.reg).2.2.2.1
    · rw [(dead_mark_spec c c s.reg).2.2.2.2 id hj]; exact hd
  · simp only [Bool.not_eq_true] at h
    rw [cpu_dead_inactive c fuel s h]
    exact hd

/-- C5 (as amended): the operations that mark a core Dead never take a Dead core
out of Dead: start_pcpu and start_pcpus (for every mask, every fuel and all other
cores that leave a Dead state of `id` alone) and cpu_dead on any core keep the
boot state of a Dead core `id` Dead, and so does init_pcpu_state for another id.
init_pcpu_state for `id` itself has no guard: it sets the boot state of a Dead
core to Initializing. -/
theorem C5_dead_kept_except_by_init (env : hv_env) (cpu fuel mask id : Nat) (s : hv_state)
    (hd : s.reg.boot_state id = PCPU_STATE_DEAD)
    (henv : ∀ st : hv_state, st.reg.boot_state id = PCPU_STATE_DEAD →
      (env.other_cores st).boot_state id = PCPU_STATE_DEAD) :
    (start_pcpus env cpu fuel mask s).state.reg.boot_state id = PCPU_STATE_DEAD ∧
    (∀ j, (start_pcpu env cpu fuel j s).state.reg.boot_state id = PCPU_STATE_DEAD) ∧
    (∀ c fuel2, (cpu_dead c fuel2 s).state.reg.boot_state id = PCPU_STATE_DEAD) ∧
    (∀ c j, j ≠ id → (init_pcpu_state c j s.reg).boot_state id = PCPU_STATE_DEAD) ∧
    (∀ c, (init_pcpu_state c id s.reg).boot_state id = PCPU_STATE_INITIALIZING) := by
  have hmark : ∀ j r, r.boot_state id = PCPU_STATE_DEAD →
      (pcpu_set_current_state cpu j PCPU_STATE_DEAD r).boot_state id = PCPU_STATE_DEAD := by
    intro j r hr
    by_cases hj : id = j
    · subst hj; exact (dead_mark_spec cpu id r).2.2.2.1
    · rw [(dead_mark_spec cpu j r).2.2.2.2 id hj]; exact hr
  refine ⟨?_, ?_, ?_, ?_, ?_⟩
  · rw [start_pcpus_reg]
    exact start_pcpus_loop_inv env cpu fuel (fun r => r.boot_state id = PCPU_STATE_DEAD) henv
      (fun j r _ hr _ => hmark j r hr) _ _ _ _ (by simpa [gate_hold, log] using hd)
  · intro j
    exact start_pcpu_inv env cpu fuel j (fun r => r.boot_state id = PCPU_STATE_DEAD) henv
      (fun r hr _ => hmark j r hr) s hd
  · intro c fuel2
    exact cpu_dead_keeps_dead c fuel2 id s hd
  · intro c j hj
    rw [boot_state_init_pcpu_state c j id s.reg (fun e => hj e.symm)]
    exact hd
  · intro c
    simp [init_pcpu_state, pcpu_set_current_state, set_active_pcpu_bitmap,
      set_current_pcpu_id, msr_write]

/-- C5 as stated fails for init_pcpu_state: after the timeout of scenario 2 has
marked core 2 Dead, init_pcpu_state for core 2 leaves its boot state different
from Dead. -/
theorem C5_counterexample :
    ¬ ((start_pcpus env_core2_silent 0 10001 0b1110 boot_state4).state.reg.boot_state 2
          = PCPU_STATE_DEAD →
        (init_pcpu_state 2 2
          (start_pcpus env_core2_silent 0 10001 0b1110 boot_state4).state.reg).boot_state 2
          = PCPU_STATE_DEAD) := by
  intro h
  have h2 := h scenario2_dead.2
  have key : ∀ r : pcpu_registry,
      (init_pcpu_state 2 2 r).boot_state 2 = PCPU_STATE_INITIALIZING := by
    intro r
    simp [init_pcpu_state, pcpu_set_current_state, set_active_pcpu_bitmap,
      set_current_pcpu_id, msr_write]
  rw [key] at h2
  exact absurd h2 (by decide)

/-- C5 (as amended) after scenario 2 of the spec: core 2 is Dead; a second
start_pcpus for core 2 alone keeps it Dead; init_pcpu_state for core 2 makes it
Initializing. -/
theorem C5_dead_kept_except_by_init_witness :
    (start_pcpus env_core2_silent 0 10001 0b1110 boot_state4).state.reg.boot_state 2
      = PCPU_STATE_DEAD ∧
    (start_pcpus env_core2_silent 0 10001 0b0100
      (start_pcpus env_core2_silent 0 10001 0b1110 boot_state4).state).state.reg.boot_state 2
      = PCPU_STATE_DEAD ∧
    (init_pcpu_state 2 2
      (start_pcpus env_core2_silent 0 10001 0b1110 boot_state4).state.reg).boot_state 2
      = PCPU_STATE_INITIALIZING :=
  have h := C5_dead_kept_except_by_init env_core2_silent 0 10001 0b0100 2
    (start_pcpus env_core2_silent 0 10001 0b1110 boot_state4).state scenario2_dead.2
    env_core2_silent_state
  ⟨scenario2_dead.2, h.1, h.2.2.2.2 2⟩

theorem startup_ipis_append (l1 l2 : List hv_event) :
    startup_ipis (l1 ++ l2) = startup_ipis l1 ++ startup_ipis l2 := by
  simp [startup_ipis, List.filterMap_append]

theorem startup_ipis_wait (i : Nat) (l : List hv_event) (h : ∀ e ∈ l, wait_event i e = true) :
    startup_ipis l = [] := by
  induction l with
  | nil => rfl
  | cons e rest ih =>
    have h1 := (wait_event_quiet (h e (by simp)) 0).2.2
    have h2 := ih (fun x hx => h x (List.mem_cons_of_mem _ hx))
    have : startup_ipis (e :: rest) = startup_ipis [e] ++ startup_ipis rest :=
      startup_ipis_append [e] rest
    rw [this, h1, h2]
    rfl

theorem start_polls_succ (i k : Nat) :
    start_polls i (k + 1)
      = hv_event.is_pcpu_active i false :: hv_event.udelay 10 :: start_polls i k := by
  simp [start_polls, List.replicate_succ]

theorem start_polls_wait (i k : Nat) : ∀ e ∈ start_polls i k, wait_event i e = true := by
  induction k with
  | zero => simp [start_polls]
  | succ k ih =>
    intro e he
    rw [start_polls_succ] at he
    simp only [List.mem_cons] at he
    rcases he with rfl | rfl | he
    · simp [wait_event]
    · simp [wait_event]
    · exact ih e he

theorem start_pcpu_wait_continue (env : hv_env) (id n timeout : Nat) (s : hv_state)
    (ha : is_pcpu_active id s.reg = false) (ht : timeout ≠ 0) :
    start_pcpu_wait env id (n + 1) timeout s
      = start_pcpu_wait env id n ((timeout + 2 ^ 32 - 10) % 2 ^ 32)
          (udelay env 10 (log (hv_event.is_pcpu_active id false) s)) := by
  rw [start_pcpu_wait]
  simp [ha, ht]

/-- One step of the 32-bit countdown of start_pcpu. -/
theorem countdown_step (m : Nat) (h0 : m ≠ 0) (hm : m ≤ 10000) :
    (10 * m + 2 ^ 32 - 10) % 2 ^ 32 = 10 * (m - 1) := by
  have hW : 100000 < 2 ^ 32 := by norm_num
  generalize 2 ^ 32 = W at hW ⊢
  have h1 : 10 * m + W - 10 = 10 * (m - 1) + W := by omega
  rw [h1, Nat.add_mod_right]
  exact Nat.mod_eq_of_lt (by omega)

theorem start_pcpu_wait_round (env : hv_env) (id n m : Nat) (s : hv_state)
    (ha : is_pcpu_active id s.reg = false) (h0 : m ≠ 0) (hm : m ≤ 10000) :
    start_pcpu_wait env id (n + 1) (10 * m) s
      = start_pcpu_wait env id n (10 * (m - 1))
          (udelay env 10 (log (hv_event.is_pcpu_active id false) s)) := by
  have hne : 10 * m ≠ 0 := by omega
  have e := countdown_step m h0 hm
  have h := start_pcpu_wait_continue env id n (10 * m) s ha hne
  exact h.trans (congrArg (fun t => start_pcpu_wait env id n t
    (udelay env 10 (log (hv_event.is_pcpu_active id false) s))) e)

theorem start_pcpu_wait_stop (env : hv_env) (id n timeout : Nat) (s : hv_state)
    (h : is_pcpu_active id s.reg = true ∨ timeout = 0) :
    start_pcpu_wait env id (n + 1) timeout s
      = ⟨log (hv_event.is_pcpu_active id (is_pcpu_active id s.reg)) s, some timeout⟩ := by
  rw [start_pcpu_wait]
  rcases h with h | h <;> simp [h]

/-- The log of a polling loop that returns: rounds of poll and delay, one for each
10 microseconds taken off the countdown, then the poll that ends the loop.  That
poll reads the registry of the state in which the loop returns, and finds the core
inactive only when the countdown has reached 0. -/
theorem start_pcpu_wait_trace (env : hv_env) (id : Nat) :
    ∀ (fuel m : Nat) (s : hv_state) (t : Nat), m ≤ 10000 →
      (start_pcpu_wait env id fuel (10 * m) s).result = some t →
      ∃ k, k ≤ m ∧ t = 10 * (m - k) ∧
        (start_pcpu_wait env id fuel (10 * m) s).state.trace
          = s.trace ++ (start_polls id k ++ [hv_event.is_pcpu_active id
              (is_pcpu_active id (start_pcpu_wait env id fuel (10 * m) s).state.reg)]) ∧
        (is_pcpu_active id (start_pcpu_wait env id fuel (10 * m) s).state.reg = false →
          k = m) := by
  intro fuel
  induction fuel with
  | zero => intro m s t _ h; simp [start_pcpu_wait] at h
  | succ n ih =>
    intro m s t hm h
    by_cases hc : is_pcpu_active id s.reg = false ∧ m ≠ 0
    · rw [start_pcpu_wait_round env id n m s hc.1 hc.2 hm] at h ⊢
      obtain ⟨k, hk, ht, htr, hb⟩ := ih (m - 1) _ t (by omega) h
      refine ⟨k + 1, by omega, by omega, ?_, fun hf => by have := hb hf; omega⟩
      rw [htr, start_polls_succ]
      simp only [udelay, log, List.append_assoc, List.cons_append, List.nil_append]
    · have hc2 : is_pcpu_active id s.reg = true ∨ 10 * m = 0 := by
        cases ha : is_pcpu_active id s.reg with
        | true => exact Or.inl rfl
        | false => exact Or.inr (by_contra fun h0 => hc ⟨ha, by omega⟩)
      rw [start_pcpu_wait_stop env id n (10 * m) s hc2] at h ⊢
      simp only [Option.some.injEq] at h
      refine ⟨0, Nat.zero_le _, by omega, by simp [start_polls, log], ?_⟩
      intro hf
      simp only [log] at hf
      rcases hc2 with h1 | h1
      · rw [h1] at hf; simp at hf
      · omega

/-- The log that a returning call of start_pcpu appends is one segment. -/
theorem start_pcpu_trace (env : hv_env) (cpu fuel id : Nat) (s m : hv_state)
    (h : start_pcpu env cpu fuel id s = ⟨m, some ()⟩) :
    ∃ seg, start_segment (trampoline_addr env s) id seg ∧ m.trace = s.trace ++ seg := by
  obtain ⟨_, _, _, _, _, pre, hpre, g6⟩ := start_pcpu_signal_spec env id s
  have hT : CPU_UP_TIMEOUT * 1000 = 10 * 10000 := by decide
  unfold start_pcpu at h
  simp only [hT] at h
  cases hw : (start_pcpu_wait env id fuel (10 * 10000) (start_pcpu_signal env id s)).result with
  | none => rw [hw] at h; simp at h
  | some t =>
    obtain ⟨k, hk, _, htr, hb⟩ := start_pcpu_wait_trace env id fuel 10000
      (start_pcpu_signal env id s) t (Nat.le_refl _) hw
    rw [hw] at h
    simp only at h
    cases hact : is_pcpu_active id
        (start_pcpu_wait env id fuel (10 * 10000) (start_pcpu_signal env id s)).state.reg with
    | false =>
      rw [hact] at h htr
      simp only [Bool.not_false, if_true, run.mk.injEq, and_true] at h
      refine ⟨_, ⟨pre, k, false, hpre, hk, fun _ => hb hact, rfl⟩, ?_⟩
      rw [← h]
      simp [log, htr, g6]
    | true =>
      rw [hact] at h htr
      simp only [Bool.not_true, Bool.false_eq_true, if_false, run.mk.injEq, and_true] at h
      refine ⟨_, ⟨pre, k, true, hpre, hk, fun hf => absurd hf (by simp), rfl⟩, ?_⟩
      rw [← h]
      simp [log, htr, g6]

/-- A segment is the signal, after the optional trampoline preparation, followed
by actions of the polling phase only. -/
theorem start_segment_tail {addr i : Nat} {seg : List hv_event}
    (h : start_segment addr i seg) :
    ∃ pre tl, (pre = [] ∨ pre = [hv_event.prepare_trampoline]) ∧
      seg = pre ++ signal_events addr i ++ tl ∧ ∀ e ∈ tl, wait_event i e = true := by
  obtain ⟨pre, k, b, hpre, _, _, rfl⟩ := h
  refine ⟨pre, _, hpre, rfl, ?_⟩
  intro e he
  rcases List.mem_append.1 he with he | he
  · exact start_polls_wait i k e he
  · simp only [List.mem_cons] at he
    rcases he with rfl | rfl | he
    · simp [wait_event]
    · simp [wait_event]
    · cases b with
      | false =>
        simp only [Bool.false_eq_true, if_false, List.mem_singleton] at he
        subst he
        simp [wait_event]
      | true => simp at he

theorem start_segment_ipis {addr i : Nat} {seg : List hv_event} (h : start_segment addr i seg) :
    startup_ipis seg = [(i, addr)] := by
  obtain ⟨pre, tl, hpre, rfl, htl⟩ := start_segment_tail h
  have h0 : startup_ipis tl = [] := startup_ipis_wait i _ htl
  rw [startup_ipis_append, startup_ipis_append, h0]
  rcases hpre with rfl | rfl <;> simp [startup_ipis, signal_events]

theorem start_segment_no_gate_store {addr i : Nat} {seg : List hv_event}
    (h : start_segment addr i seg) : ∀ e ∈ seg, gate_store e = false := by
  obtain ⟨pre, tl, hpre, rfl, htl⟩ := start_segment_tail h
  intro e he
  simp only [List.mem_append] at he
  rcases he with (he | he) | he
  · rcases hpre with rfl | rfl
    · simp at he
    · simp only [List.mem_singleton] at he
      subst he
      rfl
  · simp only [signal_events, List.mem_cons, List.mem_singleton, List.not_mem_nil, or_false] at he
    rcases he with rfl | rfl | rfl | rfl <;> rfl
  · exact (wait_event_quiet (htl e he) 0).2.1

theorem segments_ipis {addr : Nat} :
    ∀ {ids : List Nat} {segs : List (List hv_event)},
      List.Forall₂ (start_segment addr) ids segs →
      startup_ipis segs.flatten = ids.map (fun i => (i, addr)) ∧
      ∀ e ∈ segs.flatten, gate_store e = false := by
  intro ids segs h
  induction h with
  | nil => exact ⟨rfl, by simp⟩
  | cons hseg _ ih =>
    refine ⟨?_, ?_⟩
    · rw [List.flatten_cons, startup_ipis_append, start_segment_ipis hseg, ih.1]
      rfl
    · intro e he
      rw [List.flatten_cons] at he
      rcases List.mem_append.1 he with he | he
      · exact start_segment_no_gate_store hseg e he
      · exact ih.2 e he

/-- The log of a sequence of complete start attempts is the concatenation of one
segment per id, all with the same trampoline address; the gate is not touched. -/
theorem starts_trace (env : hv_env) (cpu inner : Nat) :
    ∀ (ids : List Nat) (s t : hv_state), starts env cpu inner ids s t →
      ∃ segs, List.Forall₂ (start_segment (trampoline_addr env s)) ids segs ∧
        t.trace = s.trace ++ segs.flatten ∧ t.pcpu_sync = s.pcpu_sync := by
  intro ids
  induction ids with
  | nil =>
    intro s t h
    simp only [starts] at h
    subst h
    exact ⟨[], List.Forall₂.nil, by simp, rfl⟩
  | cons i rest ih =>
    intro s t h
    obtain ⟨m, hm, hrest⟩ := h
    obtain ⟨f1, _, f3, _⟩ := start_pcpu_frame env cpu inner i s
    rw [hm] at f1 f3
    simp only at f1 f3
    obtain ⟨seg, hseg, htr⟩ := start_pcpu_trace env cpu inner i s m hm
    obtain ⟨segs, hs1, hs2, hs3⟩ := ih m t hrest
    rw [f3] at hs1
    refine ⟨seg :: segs, List.Forall₂.cons hseg hs1, ?_, ?_⟩
    · rw [hs2, htr, List.flatten_cons, List.append_assoc]
    · rw [hs3, f1]

/-- The log of a complete run of start_pcpus: hold, barrier, one segment per id of
the mask in ascending order, release. -/
theorem start_pcpus_trace (env : hv_env) (cpu fuel mask : Nat) (s : hv_state)
    (hcpu : mask.testBit cpu = false) (hfuel : 10001 ≤ fuel) :
    ∃ t segs, start_pcpus env cpu fuel mask s
        = ⟨gate_release t, some ((t.reg.pcpu_active_bitmap &&& mask) == mask)⟩ ∧
      List.Forall₂ (start_segment (trampoline_addr env s)) (mask_ids mask) segs ∧
      t.trace = s.trace ++ ([hv_event.pcpu_sync_store 1, hv_event.cpu_write_memory_barrier]
        ++ segs.flatten) ∧
      t.pcpu_sync = 1 := by
  obtain ⟨t, hst, hrun⟩ := start_pcpus_complete env cpu fuel mask s hcpu hfuel
  obtain ⟨segs, h1, h2, h3⟩ := starts_trace env cpu fuel (mask_ids mask) (gate_hold s) t hst
  refine ⟨t, segs, hrun, h1, ?_, ?_⟩
  · rw [h2]; simp [gate_hold, log]
  · rw [h3]; rfl

/-- C8: in a run of start_pcpus whose mask does not hold the executing core, the
gate is stored to 1 and the write barrier issued before anything else; the actions
of all start attempts follow, none of them a store to the gate, and the gate still
holds 1 when the last attempt has finished; the store of 0 is the last action, and
the gate is 0 on return. -/
theorem C8_gate_hold_then_single_release (env : hv_env) (cpu fuel mask : Nat) (s : hv_state)
    (hcpu : mask.testBit cpu = false) (hfuel : 10001 ≤ fuel) :
    ∃ t0 r mid, start_pcpus env cpu fuel mask s = ⟨gate_release t0, some r⟩ ∧
      t0.pcpu_sync = 1 ∧
      t0.trace = s.trace ++ ([hv_event.pcpu_sync_store 1, hv_event.cpu_write_memory_barrier]
        ++ mid) ∧
      (gate_release t0).trace = s.trace ++ ([hv_event.pcpu_sync_store 1,
        hv_event.cpu_write_memory_barrier] ++ mid ++ [hv_event.pcpu_sync_store 0]) ∧
      (∀ e ∈ mid, gate_store e = false) ∧
      startup_ipis mid = (mask_ids mask).map (fun i => (i, trampoline_addr env s)) ∧
      (gate_release t0).pcpu_sync = 0 := by
  obtain ⟨t, segs, hrun, hseg, htr, hsync⟩ := start_pcpus_trace env cpu fuel mask s hcpu hfuel
  refine ⟨t, _, segs.flatten, hrun, hsync, htr, ?_, (segments_ipis hseg).2,
    (segments_ipis hseg).1, rfl⟩
  simp [gate_release, log, htr]

/-- C8 in scenario 1 of the spec. -/
theorem C8_gate_hold_then_single_release_witness :
    (0b1110).testBit 0 = false ∧ 10001 ≤ 10001 ∧
    ∃ t0 r mid, start_pcpus env_all_answer 0 10001 0b1110 boot_state4 = ⟨gate_release t0, some r⟩ ∧
      t0.pcpu_sync = 1 ∧
      t0.trace = boot_state4.trace ++ ([hv_event.pcpu_sync_store 1,
        hv_event.cpu_write_memory_barrier] ++ mid) ∧
      (gate_release t0).trace = boot_state4.trace ++ ([hv_event.pcpu_sync_store 1,
        hv_event.cpu_write_memory_barrier] ++ mid ++ [hv_event.pcpu_sync_store 0]) ∧
      (∀ e ∈ mid, gate_store e = false) ∧
      startup_ipis mid
        = (mask_ids 0b1110).map (fun i => (i, trampoline_addr env_all_answer boot_state4)) ∧
      (gate_release t0).pcpu_sync = 0 :=
  ⟨by decide, by decide,
    C8_gate_hold_then_single_release env_all_answer 0 10001 0b1110 boot_state4
      (by decide) (by decide)⟩

/-- C9: in a run of start_pcpus whose mask does not hold the executing core, the
log between the hold and the release of the gate is one segment per id of the
mask, in ascending order of the ids: the stack of the id is written between stac
and clac, the startup IPI for that id follows at once, then comes the poll of that
id: at most 10000 rounds of a poll that finds the id inactive and a delay of 10
microseconds, the poll that ends the loop, which finds the id inactive only after
all 10000 delays, the check after the loop with the same value, and the failure
report when that value is false.  The next segment starts only then.  The startup
IPIs of the run are exactly one per id of the mask, in ascending order, all with
the same address. -/
theorem C9_one_signal_per_id_ascending (env : hv_env) (cpu fuel mask : Nat) (s : hv_state)
    (hcpu : mask.testBit cpu = false) (hfuel : 10001 ≤ fuel) :
    ∃ t r segs, start_pcpus env cpu fuel mask s = ⟨t, some r⟩ ∧
      t.trace = s.trace ++ ([hv_event.pcpu_sync_store 1, hv_event.cpu_write_memory_barrier]
        ++ segs.flatten ++ [hv_event.pcpu_sync_store 0]) ∧
      List.Forall₂ (start_segment (trampoline_addr env s)) (mask_ids mask) segs ∧
      startup_ipis ([hv_event.pcpu_sync_store 1, hv_event.cpu_write_memory_barrier]
        ++ segs.flatten ++ [hv_event.pcpu_sync_store 0])
        = (mask_ids mask).map (fun i => (i, trampoline_addr env s)) ∧
      (mask_ids mask).Pairwise (· < ·) ∧
      (∀ i, i ∈ mask_ids mask ↔ i < 64 ∧ mask.testBit i = true) := by
  obtain ⟨t, segs, hrun, hseg, htr, _⟩ := start_pcpus_trace env cpu fuel mask s hcpu hfuel
  refine ⟨gate_release t, _, segs, hrun, ?_, hseg, ?_, mask_ids_sorted mask,
    fun i => mem_mask_ids⟩
  · simp [gate_release, log, htr]
  · rw [startup_ipis_append, startup_ipis_append, (segments_ipis hseg).1]
    simp [startup_ipis]

/-- C9 in scenario 1 of the spec. -/
theorem C9_one_signal_per_id_ascending_witness :
    (0b1110).testBit 0 = false ∧ 10001 ≤ 10001 ∧
    ∃ t r segs, start_pcpus env_all_answer 0 10001 0b1110 boot_state4 = ⟨t, some r⟩ ∧
      t.trace = boot_state4.trace ++ ([hv_event.pcpu_sync_store 1,
        hv_event.cpu_write_memory_barrier] ++ segs.flatten ++ [hv_event.pcpu_sync_store 0]) ∧
      List.Forall₂ (start_segment (trampoline_addr env_all_answer boot_state4))
        (mask_ids 0b1110) segs ∧
      startup_ipis ([hv_event.pcpu_sync_store 1, hv_event.cpu_write_memory_barrier]
        ++ segs.flatten ++ [hv_event.pcpu_sync_store 0])
        = (mask_ids 0b1110).map (fun i => (i, trampoline_addr env_all_answer boot_state4)) ∧
      (mask_ids 0b1110).Pairwise (· < ·) ∧
      (∀ i, i ∈ mask_ids 0b1110 ↔ i < 64 ∧ (0b1110).testBit i = true) :=
  ⟨by decide, by decide,
    C9_one_signal_per_id_ascending env_all_answer 0 10001 0b1110 boot_state4
      (by decide) (by decide)⟩

theorem wait_sync_monitor_spec (sync : Nat → Nat) (wake : Nat) :
    ∀ (fuel n0 : Nat) (tr0 : List hv_event) (n : Nat) (tr : List hv_event),
      wait_sync_monitor sync wake fuel n0 tr0 = some (n, tr) → n0 < n ∧ sync (n - 1) = wake := by
  intro fuel
  induction fuel with
  | zero => intro n0 tr0 n tr h; simp [wait_sync_monitor] at h
  | succ k ih =>
    intro n0 tr0 n tr h
    unfold wait_sync_monitor at h
    by_cases h1 : sync n0 ≠ wake
    · rw [if_pos h1] at h
      simp only at h
      by_cases h2 : sync (n0 + 1) ≠ wake
      · rw [if_pos h2] at h
        have := ih _ _ _ _ h
        exact ⟨by omega, this.2⟩
      · rw [if_neg h2] at h
        have := ih _ _ _ _ h
        exact ⟨by omega, this.2⟩
    · rw [if_neg h1] at h
      simp only [Option.some.injEq, Prod.mk.injEq] at h
      obtain ⟨rfl, _⟩ := h
      simp only [ne_eq, not_not] at h1
      exact ⟨by omega, by simpa using h1⟩

theorem wait_sync_pause_spec (sync : Nat → Nat) (wake : Nat) :
    ∀ (fuel n0 : Nat) (tr0 : List hv_event) (n : Nat) (tr : List hv_event),
      wait_sync_pause sync wake fuel n0 tr0 = some (n, tr) → n0 < n ∧ sync (n - 1) = wake := by
  intro fuel
  induction fuel with
  | zero => intro n0 tr0 n tr h; simp [wait_sync_pause] at h
  | succ k ih =>
    intro n0 tr0 n tr h
    unfold wait_sync_pause at h
    by_cases h1 : sync n0 ≠ wake
    · rw [if_pos h1] at h
      have := ih _ _ _ _ h
      exact ⟨by omega, this.2⟩
    · rw [if_neg h1] at h
      simp only [Option.some.injEq, Prod.mk.injEq] at h
      obtain ⟨rfl, _⟩ := h
      simp only [ne_eq, not_not] at h1
      exact ⟨by omega, by simpa using h1⟩

theorem wait_sync_monitor_hold (sync : Nat → Nat) (wake : Nat) (h : ∀ k, sync k ≠ wake) :
    ∀ (fuel n0 : Nat) (tr0 : List hv_event), wait_sync_monitor sync wake fuel n0 tr0 = none := by
  intro fuel
  induction fuel with
  | zero => intro n0 tr0; rfl
  | succ k ih =>
    intro n0 tr0
    unfold wait_sync_monitor
    rw [if_pos (h n0)]
    simp only
    rw [if_pos (h (n0 + 1))]
    exact ih _ _

theorem wait_sync_pause_hold (sync : Nat → Nat) (wake : Nat) (h : ∀ k, sync k ≠ wake) :
    ∀ (fuel n0 : Nat) (tr0 : List hv_event), wait_sync_pause sync wake fuel n0 tr0 = none := by
  intro fuel
  induction fuel with
  | zero => intro n0 tr0; rfl
  | succ k ih =>
    intro n0 tr0
    unfold wait_sync_pause
    rw [if_pos (h n0)]
    exact ih _ _

/-- Once the watched location yields the wake value at every read from the
`n0 + 2 * k`-th on, the monitor loop returns within `k + 1` rounds. -/
theorem wait_sync_monitor_returns (sync : Nat → Nat) (wake : Nat) :
    ∀ (k fuel n0 : Nat) (tr0 : List hv_event), k < fuel →
      (∀ j, n0 + 2 * k ≤ j → sync j = wake) →
      (wait_sync_monitor sync wake fuel n0 tr0).isSome = true := by
  intro k
  induction k with
  | zero =>
    intro fuel n0 tr0 hf h
    obtain ⟨m, rfl⟩ : ∃ m, fuel = m + 1 := ⟨fuel - 1, by omega⟩
    unfold wait_sync_monitor
    have : ¬ sync n0 ≠ wake := by simpa using h n0 (by omega)
    rw [if_neg this]
    rfl
  | succ k ih =>
    intro fuel n0 tr0 hf h
    obtain ⟨m, rfl⟩ : ∃ m, fuel = m + 1 := ⟨fuel - 1, by omega⟩
    unfold wait_sync_monitor
    by_cases h1 : sync n0 ≠ wake
    · rw [if_pos h1]
      simp only
      split
      · exact ih m (n0 + 2) _ (by omega) (fun j hj => h j (by omega))
      · exact ih m (n0 + 2) _ (by omega) (fun j hj => h j (by omega))
    · rw [if_neg h1]
      rfl

/-- Once the watched location yields the wake value at every read from the
`n0 + k`-th on, the pause loop returns within `k + 1` rounds. -/
theorem wait_sync_pause_returns (sync : Nat → Nat) (wake : Nat) :
    ∀ (k fuel n0 : Nat) (tr0 : List hv_event), k < fuel →
      (∀ j, n0 + k ≤ j → sync j = wake) →
      (wait_sync_pause sync wake fuel n0 tr0).isSome = true := by
  intro k
  induction k with
  | zero =>
    intro fuel n0 tr0 hf h
    obtain ⟨m, rfl⟩ : ∃ m, fuel = m + 1 := ⟨fuel - 1, by omega⟩
    unfold wait_sync_pause
    have : ¬ sync n0 ≠ wake := by simpa using h n0 (by omega)
    rw [if_neg this]
    rfl
  | succ k ih =>
    intro fuel n0 tr0 hf h
    obtain ⟨m, rfl⟩ : ∃ m, fuel = m + 1 := ⟨fuel - 1, by omega⟩
    unfold wait_sync_pause
    by_cases h1 : sync n0 ≠ wake
    · rw [if_pos h1]
      exact ih m (n0 + 1) _ (by omega) (fun j hj => h j (by omega))
    · rw [if_neg h1]
      rfl

/-- C6: on both paths and for every sequence of values read at the watched
location, wait_sync_change returns only right after a read that yields the wake
value: if it returns having made `n` reads, then `n > 0` and the last read, number
`n - 1`, yielded `wake_sync`.  Hence wait_all_pcpus_run returns only on a read of
0, and as long as every read of the gate yields 1 it does not return, whatever the
fuel; when the gate yields 0 from some read on, it does return. -/
theorem C6_wait_returns_only_on_wake (has_monitor_cap : Bool) (sync : Nat → Nat) :
    (∀ wake fuel n tr, wait_sync_change has_monitor_cap sync wake fuel = some (n, tr) →
      0 < n ∧ sync (n - 1) = wake) ∧
    (∀ fuel n tr, wait_all_pcpus_run has_monitor_cap sync fuel = some (n, tr) →
      0 < n ∧ sync (n - 1) = 0) ∧
    ((∀ k, sync k = 1) → ∀ fuel, wait_all_pcpus_run has_monitor_cap sync fuel = none) ∧
    (∀ k, (∀ j, k ≤ j → sync j = 0) →
      (wait_all_pcpus_run has_monitor_cap sync (k + 1)).isSome = true) := by
  have key : ∀ wake fuel n tr, wait_sync_change has_monitor_cap sync wake fuel = some (n, tr) →
      0 < n ∧ sync (n - 1) = wake := by
    intro wake fuel n tr h
    unfold wait_sync_change at h
    cases has_monitor_cap with
    | true =>
      simp only [if_true] at h
      have := wait_sync_monitor_spec sync wake fuel 0 [] n tr h
      exact ⟨by omega, this.2⟩
    | false =>
      simp only [Bool.false_eq_true, if_false] at h
      have := wait_sync_pause_spec sync wake fuel 0 [] n tr h
      exact ⟨by omega, this.2⟩
  refine ⟨key, fun fuel n tr h => key 0 fuel n tr h, ?_, ?_⟩
  · intro hold fuel
    have hne : ∀ k, sync k ≠ 0 := fun k => by rw [hold k]; decide
    unfold wait_all_pcpus_run wait_sync_change
    cases has_monitor_cap with
    | true => simp only [if_true]; exact wait_sync_monitor_hold sync 0 hne fuel 0 []
    | false =>
      simp only [Bool.false_eq_true, if_false]
      exact wait_sync_pause_hold sync 0 hne fuel 0 []
  · intro k hk
    unfold wait_all_pcpus_run wait_sync_change
    cases has_monitor_cap with
    | true =>
      simp only [if_true]
      exact wait_sync_monitor_returns sync 0 k (k + 1) 0 [] (by omega)
        (fun j hj => hk j (by omega))
    | false =>
      simp only [Bool.false_eq_true, if_false]
      exact wait_sync_pause_returns sync 0 k (k + 1) 0 [] (by omega)
        (fun j hj => hk j (by omega))

/-- C6 on the monitor path for a gate released at the sixth read: the call returns
after seven reads, the last of which yielded 0. -/
theorem C6_wait_returns_only_on_wake_witness :
    wait_all_pcpus_run true gate_released_at_5 10
      = some (7, [hv_event.asm_monitor, hv_event.asm_mwait, hv_event.asm_monitor,
          hv_event.asm_mwait, hv_event.asm_monitor]) ∧
    0 < 7 ∧ gate_released_at_5 (7 - 1) = 0 :=
  ⟨by decide,
    (C6_wait_returns_only_on_wake true gate_released_at_5).2.1 10 7
      [hv_event.asm_monitor, hv_event.asm_mwait, hv_event.asm_monitor,
        hv_event.asm_mwait, hv_event.asm_monitor] (by decide)⟩

theorem testBit_bitmap_clear_lock (nr word j : Nat) :
    (bitmap_clear_lock nr word).testBit j
      = (word.testBit j && decide (j < 64) && !decide (nr % 64 = j)) :=
  testBit_bitmap_clear nr word j

/-- need_offline: the value it returns and the state it leaves. -/
theorem need_offline_spec (id : Nat) (s : hv_state) :
    (need_offline id s).1 = (s.reg.pcpu_flag id).testBit (NEED_OFFLINE % 64) ∧
    ((need_offline id s).2.reg.pcpu_flag id).testBit (NEED_OFFLINE % 64) = false ∧
    (∀ b, b < 64 → b ≠ NEED_OFFLINE % 64 →
      ((need_offline id s).2.reg.pcpu_flag id).testBit b = (s.reg.pcpu_flag id).testBit b) ∧
    (∀ j, j ≠ id → (need_offline id s).2.reg.pcpu_flag j = s.reg.pcpu_flag j) ∧
    (need_offline id s).2.reg.pcpu_active_bitmap = s.reg.pcpu_active_bitmap ∧
    (need_offline id s).2.reg.boot_state = s.reg.boot_state ∧
    (need_offline id s).2.reg.msr = s.reg.msr ∧
    (need_offline id s).2.trace = s.trace ∧
    (need_offline id s).2.pcpu_sync = s.pcpu_sync := by
  refine ⟨rfl, ?_, ?_, ?_, rfl, rfl, rfl, rfl, rfl⟩
  · simp [need_offline, store_pcpu_flag, bitmap_test_and_clear_lock, testBit_bitmap_clear_lock]
  · intro b hb hne
    have hne2 : ¬ (NEED_OFFLINE % 64 = b) := fun e => hne e.symm
    simp [need_offline, store_pcpu_flag, bitmap_test_and_clear_lock, testBit_bitmap_clear_lock,
      hb, hne2]
  · intro j hj
    simp [need_offline, store_pcpu_flag, hj]

/-- C7: the offline request is one-shot.  After make_pcpu_offline for core `id`
(from any core, on any flag word) the first need_offline for `id` returns true and
the second returns false.  Every need_offline clears the NEED_OFFLINE bit of the
flag word of `id` and changes nothing else: the other bits of that word, the flag
words of the other cores, the active bitmap, the boot states, the registers and
the log are as before. -/
theorem C7_offline_request_one_shot (cpu id : Nat) (s : hv_state) :
    (need_offline id (make_pcpu_offline cpu id s)).1 = true ∧
    (need_offline id (need_offline id (make_pcpu_offline cpu id s)).2).1 = false ∧
    (∀ st : hv_state,
      ((need_offline id st).2.reg.pcpu_flag id).testBit NEED_OFFLINE = false ∧
      (∀ b, b < 64 → b ≠ NEED_OFFLINE →
        ((need_offline id st).2.reg.pcpu_flag id).testBit b = (st.reg.pcpu_flag id).testBit b) ∧
      (∀ j, j ≠ id → (need_offline id st).2.reg.pcpu_flag j = st.reg.pcpu_flag j) ∧
      (need_offline id st).2.reg.pcpu_active_bitmap = st.reg.pcpu_active_bitmap ∧
      (need_offline id st).2.reg.boot_state = st.reg.boot_state ∧
      (need_offline id st).2.reg.msr = st.reg.msr ∧
      (need_offline id st).2.trace = st.trace) := by
  have hmod : NEED_OFFLINE % 64 = NEED_OFFLINE := by decide
  have hset : ((make_pcpu_offline cpu id s).reg.pcpu_flag id).testBit (NEED_OFFLINE % 64)
      = true := by
    unfold make_pcpu_offline
    by_cases hc : cpu ≠ id
    · simp [hc, log, store_pcpu_flag, testBit_bitmap_set]
    · simp [hc, store_pcpu_flag, testBit_bitmap_set]
  refine ⟨?_, ?_, ?_⟩
  · rw [(need_offline_spec id _).1, hset]
  · rw [(need_offline_spec id _).1]
    exact (need_offline_spec id _).2.1
  · intro st
    obtain ⟨_, h2, h3, h4, h5, h6, h7, h8, _⟩ := need_offline_spec id st
    rw [hmod] at h2 h3
    exact ⟨h2, h3, h4, h5, h6, h7, h8⟩

/-- C7 in scenario 5 of the spec: core 0 requests core 1 offline; the first
need_offline for core 1 returns true, the second false. -/
theorem C7_offline_request_one_shot_witness :
    (need_offline 1 (make_pcpu_offline 0 1 boot_state4)).1 = true ∧
    (need_offline 1 (need_offline 1 (make_pcpu_offline 0 1 boot_state4)).2).1 = false :=
  ⟨(C7_offline_request_one_shot 0 1 boot_state4).1,
    (C7_offline_request_one_shot 0 1 boot_state4).2.1⟩

/-- C10: core retirement.  cpu_dead on core `c` calls the scheduler teardown hook
exactly once, first.  If the active bit of `c` is set, cpu_dead does not return;
in the state in which it halts the boot state of `c` is Dead, the bit of `c` is
clear, every other bit of the bitmap and every other boot state (and every flag
word and register) is as before.  If the bit is clear, cpu_dead returns and the
registry is as before.  The registry is unchanged exactly in the second case. -/
theorem C10_cpu_dead_retirement (c fuel : Nat) (s : hv_state) :
    (is_pcpu_active c s.reg = true →
      (cpu_dead c fuel s).result = none ∧
      (cpu_dead c fuel s).state.reg.boot_state c = PCPU_STATE_DEAD ∧
      is_pcpu_active c (cpu_dead c fuel s).state.reg = false ∧
      (∀ b, b < 64 → b ≠ c % 64 →
        (cpu_dead c fuel s).state.reg.pcpu_active_bitmap.testBit b
          = s.reg.pcpu_active_bitmap.testBit b) ∧
      (∀ j, j ≠ c → (cpu_dead c fuel s).state.reg.boot_state j = s.reg.boot_state j) ∧
      (cpu_dead c fuel s).state.reg.pcpu_flag = s.reg.pcpu_flag ∧
      (cpu_dead c fuel s).state.reg.msr = s.reg.msr ∧
      (cpu_dead c fuel s).state.trace = s.trace ++ ([hv_event.deinit_sched c, hv_event.vmx_off,
        hv_event.cache_flush_invalidate_all] ++ List.replicate fuel hv_event.asm_hlt)) ∧
    (is_pcpu_active c s.reg = false →
      (cpu_dead c fuel s).result = some () ∧
      (cpu_dead c fuel s).state.reg = s.reg ∧
      (cpu_dead c fuel s).state.trace
        = s.trace ++ [hv_event.deinit_sched c, hv_event.pr_err c]) ∧
    ((cpu_dead c fuel s).state.reg = s.reg ↔ is_pcpu_active c s.reg = false) ∧
    (∃ delta, (cpu_dead c fuel s).state.trace = s.trace ++ delta ∧
      delta.count (hv_event.deinit_sched c) = 1 ∧
      ∀ j, hv_event.deinit_sched j ∈ delta → j = c) := by
  have hA : is_pcpu_active c s.reg = true →
      is_pcpu_active c (cpu_dead c fuel s).state.reg = false := by
    intro h
    rw [(cpu_dead_active c fuel s h).2.1]
    simp [is_pcpu_active, bitmap_test, testBit_bitmap_clear_lock]
  have hI := cpu_dead_inactive c fuel s
  refine ⟨?_, ?_, ?_, ?_⟩
  · intro h
    obtain ⟨h1, h2, h3⟩ := cpu_dead_active c fuel s h
    refine ⟨h1, ?_, hA h, ?_, ?_, ?_, ?_, h3⟩
    · rw [h2]; exact (dead_mark_spec c c s.reg).2.2.2.1
    · intro b hb hne
      have hne2 : ¬ (c % 64 = b) := fun e => hne e.symm
      rw [h2]
      simp [testBit_bitmap_clear_lock, hb, hne2]
    · intro j hj
      rw [h2]
      exact (dead_mark_spec c c s.reg).2.2.2.2 j hj
    · rw [h2]; exact (dead_mark_spec c c s.reg).2.1
    · rw [h2]; exact (dead_mark_spec c c s.reg).2.2.1
  · intro h
    rw [hI h]
    exact ⟨rfl, rfl, rfl⟩
  · constructor
    · intro heq
      by_contra hne
      have hact : is_pcpu_active c s.reg = true := by simpa using hne
      have := hA hact
      rw [heq, hact] at this
      exact absurd this (by simp)
    · intro h
      rw [hI h]
  · by_cases h : is_pcpu_active c s.reg = true
    · refine ⟨_, (cpu_dead_active c fuel s h).2.2, ?_, ?_⟩
      · simp [List.count_cons, List.count_replicate]
      · intro j hj
        simp only [List.mem_append, List.mem_cons, List.mem_singleton, List.not_mem_nil,
          or_false, List.mem_replicate] at hj
        rcases hj with (hj | hj | hj) | hj
        · simpa using hj
        · simp at hj
        · simp at hj
        · simp at hj
    · simp only [Bool.not_eq_true] at h
      refine ⟨[hv_event.deinit_sched c, hv_event.pr_err c], by rw [hI h], ?_, ?_⟩
      · simp [List.count_cons]
      · intro j hj
        simp only [List.mem_cons, List.mem_singleton, List.not_mem_nil, or_false] at hj
        rcases hj with hj | hj
        · simpa using hj
        · simp at hj

/-- C10 on the board of four cores with only core 0 active: cpu_dead on core 0
halts with core 0 Dead and inactive; cpu_dead on core 1, whose bit is clear,
returns and leaves the registry as it was. -/
theorem C10_cpu_dead_retirement_witness :
    is_pcpu_active 0 boot_state4.reg = true ∧
    (cpu_dead 0 3 boot_state4).result = none ∧
    (cpu_dead 0 3 boot_state4).state.reg.boot_state 0 = PCPU_STATE_DEAD ∧
    is_pcpu_active 0 (cpu_dead 0 3 boot_state4).state.reg = false ∧
    is_pcpu_active 1 boot_state4.reg = false ∧
    (cpu_dead 1 3 boot_state4).result = some () ∧
    (cpu_dead 1 3 boot_state4).state.reg = boot_state4.reg :=
  have h0 : is_pcpu_active 0 boot_state4.reg = true := by decide
  have h1 : is_pcpu_active 1 boot_state4.reg = false := by decide
  have a := (C10_cpu_dead_retirement 0 3 boot_state4).1 h0
  have b := (C10_cpu_dead_retirement 1 3 boot_state4).2.1 h1
  ⟨h0, a.1, a.2.1, a.2.2.1, h1, b.1, b.2.1⟩

theorem cpu_dead_msr (c fuel : Nat) (s : hv_state) :
    (cpu_dead c fuel s).state.reg.msr = s.reg.msr := by
  by_cases h : is_pcpu_active c s.reg = true
  · rw [(cpu_dead_active c fuel s h).2.1]
    exact (dead_mark_spec c c s.reg).2.2.1
  · simp only [Bool.not_eq_true] at h
    rw [cpu_dead_inactive c fuel s h]

/-- C15: init_pcpu_state for an id below 64 sets bit id of the active bitmap and
leaves every other bit as it was, sets the boot state of id to Initializing and
leaves every other boot state as it was, writes id to the TSC_AUX register of the
executing core and leaves every other register and every flag word as it was.  A
boot-state change to a state other than Initializing writes no register: this
holds for pcpu_set_current_state itself, for cpu_dead, and for start_pcpu (every
property of the registers that the other cores preserve still holds). -/
theorem C15_init_pcpu_state_frame (cpu id : Nat) (hid : id < 64) (r : pcpu_registry) :
    (init_pcpu_state cpu id r).pcpu_active_bitmap.testBit id = true ∧
    (∀ b, b ≠ id → (init_pcpu_state cpu id r).pcpu_active_bitmap.testBit b
      = r.pcpu_active_bitmap.testBit b) ∧
    (init_pcpu_state cpu id r).boot_state id = PCPU_STATE_INITIALIZING ∧
    (∀ j, j ≠ id → (init_pcpu_state cpu id r).boot_state j = r.boot_state j) ∧
    (init_pcpu_state cpu id r).msr cpu MSR_IA32_TSC_AUX = id ∧
    (∀ c i, ¬ (c = cpu ∧ i = MSR_IA32_TSC_AUX) →
      (init_pcpu_state cpu id r).msr c i = r.msr c i) ∧
    (init_pcpu_state cpu id r).pcpu_flag = r.pcpu_flag ∧
    (∀ c j state, state ≠ PCPU_STATE_INITIALIZING →
      (pcpu_set_current_state c j state r).msr = r.msr) ∧
    (∀ c fuel (s : hv_state), (cpu_dead c fuel s).state.reg.msr = s.reg.msr) ∧
    (∀ (env : hv_env) c fuel j (s : hv_state) (P : (Nat → Nat → Nat) → Prop),
      (∀ st : hv_state, P st.reg.msr → P (env.other_cores st).msr) →
      P s.reg.msr → P (start_pcpu env c fuel j s).state.reg.msr) := by
  refine ⟨?_, ?_, ?_, ?_, ?_, ?_, ?_, ?_, cpu_dead_msr, ?_⟩
  · rw [testBit_init_pcpu_state]
    simp [Nat.mod_eq_of_lt hid]
  · intro b hb
    rw [testBit_init_pcpu_state]
    have : ¬ (id % 64 = b) := by rw [Nat.mod_eq_of_lt hid]; exact fun e => hb e.symm
    simp [this]
  · simp [init_pcpu_state, pcpu_set_current_state, set_active_pcpu_bitmap,
      set_current_pcpu_id, msr_write]
  · intro j hj
    exact boot_state_init_pcpu_state cpu id j r hj
  · simp [init_pcpu_state, pcpu_set_current_state, set_active_pcpu_bitmap,
      set_current_pcpu_id, msr_write]
  · intro c i h
    simp [init_pcpu_state, pcpu_set_current_state, set_active_pcpu_bitmap,
      set_current_pcpu_id, msr_write, h]
  · simp [init_pcpu_state, pcpu_set_current_state, set_active_pcpu_bitmap,
      set_current_pcpu_id, msr_write]
  · intro c j state hs
    simp [pcpu_set_current_state, hs]
  · intro env c fuel j s P hP hs
    exact start_pcpu_inv env c fuel j (fun r => P r.msr) hP
      (fun r hr _ => by beta_reduce at hr ⊢; rw [(dead_mark_spec c j r).2.2.1]; exact hr) s hs

/-- C15 for core 1 of the board of four cores, executing init_pcpu_state for
itself: bit 1 is set, the boot state is Initializing and TSC_AUX of core 1
holds 1. -/
theorem C15_init_pcpu_state_frame_witness :
    1 < 64 ∧
    (init_pcpu_state 1 1 boot_registry).pcpu_active_bitmap.testBit 1 = true ∧
    (init_pcpu_state 1 1 boot_registry).boot_state 1 = PCPU_STATE_INITIALIZING ∧
    (init_pcpu_state 1 1 boot_registry).msr 1 MSR_IA32_TSC_AUX = 1 :=
  have h := C15_init_pcpu_state_frame 1 1 (by decide) boot_registry
  ⟨by decide, h.1, h.2.2.1, h.2.2.2.2.1⟩

/-- C16 (as amended): the capacity check of init_percpu_lapic_id is against
MAX_PCPU_NUM.  When parse_madt reports more cores than MAX_PCPU_NUM the function
returns false, records nothing, and init_primary_pcpu panics.  It returns true
exactly for a reported count n with 0 < n and n at most MAX_PCPU_NUM, and only
then records n, so get_pcpu_nums never exceeds MAX_PCPU_NUM once it did not
before; it stays within the bitmap width of 64 when MAX_PCPU_NUM is at most 64. -/
theorem C16_capacity_check_max_pcpu_num (MAX_PCPU_NUM pcpu_num : Nat)
    (lapic_id_array lapic_id : Nat → Nat) (s : hv_state) :
    (MAX_PCPU_NUM < pcpu_num →
      init_percpu_lapic_id MAX_PCPU_NUM pcpu_num lapic_id_array lapic_id s
        = (false, lapic_id, s) ∧
      init_primary_pcpu_lapic MAX_PCPU_NUM pcpu_num lapic_id_array lapic_id s
        = Except.error "failed to init_percpu_lapic_id!") ∧
    ((init_percpu_lapic_id MAX_PCPU_NUM pcpu_num lapic_id_array lapic_id s).1 = true ↔
      0 < pcpu_num ∧ pcpu_num ≤ MAX_PCPU_NUM) ∧
    ((init_percpu_lapic_id MAX_PCPU_NUM pcpu_num lapic_id_array lapic_id s).1 = true →
      get_pcpu_nums (init_percpu_lapic_id MAX_PCPU_NUM pcpu_num lapic_id_array lapic_id s).2.2
        = pcpu_num) ∧
    ((init_percpu_lapic_id MAX_PCPU_NUM pcpu_num lapic_id_array lapic_id s).1 = false →
      (init_percpu_lapic_id MAX_PCPU_NUM pcpu_num lapic_id_array lapic_id s).2.2 = s) ∧
    (get_pcpu_nums s ≤ MAX_PCPU_NUM →
      get_pcpu_nums (init_percpu_lapic_id MAX_PCPU_NUM pcpu_num lapic_id_array lapic_id s).2.2
        ≤ MAX_PCPU_NUM) ∧
    (MAX_PCPU_NUM ≤ 64 → get_pcpu_nums s ≤ 64 →
      get_pcpu_nums (init_percpu_lapic_id MAX_PCPU_NUM pcpu_num lapic_id_array lapic_id s).2.2
        ≤ 64) := by
  by_cases h : pcpu_num ≠ 0 ∧ pcpu_num ≤ MAX_PCPU_NUM
  · have e : init_percpu_lapic_id MAX_PCPU_NUM pcpu_num lapic_id_array lapic_id s
        = (true, (List.range pcpu_num).foldl
            (fun l i => fun j => if j = i then lapic_id_array i else l j) lapic_id,
          set_pcpu_nums pcpu_num s) := by
      unfold init_percpu_lapic_id
      rw [if_pos h]
    rw [e]
    refine ⟨fun hgt => absurd h.2 (by omega), ?_, fun _ => rfl, ?_, fun _ => h.2, ?_⟩
    · simp only [true_iff]
      exact ⟨Nat.pos_of_ne_zero h.1, h.2⟩
    · intro hf; simp at hf
    · intro h64 _
      exact le_trans h.2 h64
  · have e : init_percpu_lapic_id MAX_PCPU_NUM pcpu_num lapic_id_array lapic_id s
        = (false, lapic_id, s) := by
      unfold init_percpu_lapic_id
      rw [if_neg h]
    refine ⟨fun _ => ⟨e, ?_⟩, ?_, ?_, ?_, ?_, ?_⟩
    · unfold init_primary_pcpu_lapic
      simp [e]
    · rw [e]
      simp only [Bool.false_eq_true, false_iff]
      intro h2
      exact h ⟨by omega, h2.2⟩
    · rw [e]; intro hf; simp at hf
    · rw [e]; intro _; rfl
    · rw [e]; exact id
    · rw [e]; exact fun _ h2 => h2

/-- C16 as stated fails for a build with MAX_PCPU_NUM = 128: a reported count of
100 cores exceeds the bitmap width of 64, yet init_percpu_lapic_id returns true
and records it. -/
theorem C16_counterexample :
    ¬ (64 < 100 →
        (init_percpu_lapic_id 128 100 (fun i => i) (fun _ => 0) boot_state4).1 = false ∧
        get_pcpu_nums (init_percpu_lapic_id 128 100 (fun i => i) (fun _ => 0) boot_state4).2.2
          ≤ 64) := by
  intro h
  have h1 := (h (by decide)).1
  revert h1
  decide

/-- C16 (as amended) for a build with MAX_PCPU_NUM = 8: a reported count of 100
cores is refused and init_primary_pcpu panics; a reported count of 4 is recorded. -/
theorem C16_capacity_check_max_pcpu_num_witness :
    8 < 100 ∧
    init_primary_pcpu_lapic 8 100 (fun i => i) (fun _ => 0) boot_state4
      = Except.error "failed to init_percpu_lapic_id!" ∧
    (init_percpu_lapic_id 8 4 (fun i => i) (fun _ => 0) boot_state4).1 = true ∧
    get_pcpu_nums (init_percpu_lapic_id 8 4 (fun i => i) (fun _ => 0) boot_state4).2.2 = 4 :=
  have a := (C16_capacity_check_max_pcpu_num 8 100 (fun i => i) (fun _ => 0) boot_state4).1
    (by decide)
  have b := (C16_capacity_check_max_pcpu_num 8 4 (fun i => i) (fun _ => 0) boot_state4).2.2.1
    (by decide)
  ⟨by decide, a.2, by decide, b⟩

theorem testBit_run_schedule (sched : List (Nat × init_step)) (r : pcpu_registry) (b : Nat) :
    (run_schedule sched r).pcpu_active_bitmap.testBit b
      = (r.pcpu_active_bitmap.testBit b ||
          sched.any (fun p => decide (p.2 = init_step.set_active) && decide (p.1 % 64 = b))) := by
  unfold run_schedule
  induction sched generalizing r with
  | nil => simp
  | cons p rest ih =>
    simp only [List.foldl_cons, List.any_cons]
    rw [ih]
    obtain ⟨id, step⟩ := p
    cases step with
    | set_active =>
      simp only [init_pcpu_state_step, set_active_pcpu_bitmap, testBit_bitmap_set]
      simp [Bool.or_assoc]
    | set_state =>
      simp [init_pcpu_state_step, pcpu_set_current_state, set_current_pcpu_id, msr_write]

theorem interleaving_set_active (ids : List Nat) (sched : List (Nat × init_step))
    (h : is_interleaving ids sched) (id : Nat) :
    (id, init_step.set_active) ∈ sched ↔ id ∈ ids := by
  have hid := h id
  constructor
  · intro hm
    by_contra hn
    rw [if_neg hn] at hid
    have : init_step.set_active ∈ (sched.filter (fun p => p.1 == id)).map (fun p => p.2) :=
      List.mem_map.2 ⟨(id, init_step.set_active), List.mem_filter.2 ⟨hm, by simp⟩, rfl⟩
    rw [hid] at this
    simp at this
  · intro hm
    rw [if_pos hm] at hid
    have : init_step.set_active ∈ (sched.filter (fun p => p.1 == id)).map (fun p => p.2) := by
      rw [hid]; simp
    obtain ⟨p, hp, hp2⟩ := List.mem_map.1 this
    obtain ⟨hp1, hp3⟩ := List.mem_filter.1 hp
    obtain ⟨a, st⟩ := p
    simp only [beq_iff_eq] at hp3
    simp only at hp2
    subst hp3 hp2
    exact hp1

/-- C17: no update of the active bitmap is lost.  For distinct core ids below 64,
an empty bitmap and every schedule that interleaves the steps of their
init_pcpu_state calls (each call being the atomic set of its bit followed by
pcpu_set_current_state), the bitmap after the schedule has exactly the bits of
those ids set, and the number of its set bits is the number of ids.  The two steps
compose to init_pcpu_state. -/
theorem C17_no_lost_update (ids : List Nat) (sched : List (Nat × init_step))
    (r : pcpu_registry) (hnd : ids.Nodup) (hlt : ∀ id ∈ ids, id < 64)
    (hsched : is_interleaving ids sched) (hempty : r.pcpu_active_bitmap = 0) :
    (∀ b, (get_active_pcpu_bitmap (run_schedule sched r)).testBit b = true ↔ b ∈ ids) ∧
    (mask_ids (get_active_pcpu_bitmap (run_schedule sched r))).length = ids.length ∧
    (∀ cpu id (r0 : pcpu_registry), init_pcpu_state cpu id r0
      = init_pcpu_state_step cpu id init_step.set_state
          (init_pcpu_state_step cpu id init_step.set_active r0)) := by
  have hbits : ∀ b, (get_active_pcpu_bitmap (run_schedule sched r)).testBit b = true ↔
      b ∈ ids := by
    intro b
    unfold get_active_pcpu_bitmap
    rw [testBit_run_schedule, hempty]
    simp only [Nat.zero_testBit, Bool.false_or, List.any_eq_true, Bool.and_eq_true,
      decide_eq_true_eq]
    constructor
    · rintro ⟨⟨id, st⟩, hm, hst, hb⟩
      simp only at hst hb
      subst hst
      have hin := (interleaving_set_active ids sched hsched id).1 hm
      rw [Nat.mod_eq_of_lt (hlt id hin)] at hb
      exact hb ▸ hin
    · intro hb
      exact ⟨(b, init_step.set_active), (interleaving_set_active ids sched hsched b).2 hb,
        rfl, Nat.mod_eq_of_lt (hlt b hb)⟩
  refine ⟨hbits, ?_, fun _ _ _ => rfl⟩
  apply List.Perm.length_eq
  apply (List.perm_ext_iff_of_nodup (mask_ids_nodup _) hnd).2
  intro b
  rw [mem_mask_ids, hbits b]
  constructor
  · exact fun h => h.2
  · exact fun h => ⟨hlt b h, h⟩

/-- C17 for the cores 3, 1 and 2 with interleaved steps: the bitmap ends as
0b1110, with three bits set. -/
theorem C17_no_lost_update_witness :
    [3, 1, 2].Nodup ∧ (∀ id ∈ [3, 1, 2], id < 64) ∧
    empty_registry.pcpu_active_bitmap = 0 ∧
    get_active_pcpu_bitmap (run_schedule schedule_312 empty_registry) = 0b1110 ∧
    (mask_ids (get_active_pcpu_bitmap (run_schedule schedule_312 empty_registry))).length
      = [3, 1, 2].length :=
  have hs : is_interleaving [3, 1, 2] schedule_312 := by
    intro id
    by_cases h1 : id = 1
    · subst h1; decide
    · by_cases h2 : id = 2
      · subst h2; decide
      · by_cases h3 : id = 3
        · subst h3; decide
        · have e1 : ¬ (1 = id) := fun e => h1 e.symm
          have e2 : ¬ (2 = id) := fun e => h2 e.symm
          have e3 : ¬ (3 = id) := fun e => h3 e.symm
          simp [schedule_312, List.filter_cons, h1, h2, h3, e1, e2, e3]
  ⟨by decide, by decide, rfl, by decide,
    (C17_no_lost_update [3, 1, 2] schedule_312 empty_registry (by decide) (by decide) hs rfl).2.1⟩

theorem testBit_single_bit_mask (t : Nat) (ht : t < 64) (b : Nat) :
    (bitmap_set_nolock t 0).testBit b = true ↔ b = t := by
  have h := testBit_bitmap_set t 0 b
  simp only [bitmap_set_lock] at h
  unfold bitmap_set_nolock
  rw [h, Nat.mod_eq_of_lt ht]
  simp [eq_comm]

theorem mask_ids_single_bit_mask (t : Nat) (ht : t < 64) :
    mask_ids (bitmap_set_nolock t 0) = [t] := by
  apply List.perm_singleton.1
  apply (List.perm_ext_iff_of_nodup (mask_ids_nodup _) (List.nodup_singleton t)).2
  intro b
  rw [mem_mask_ids, testBit_single_bit_mask t ht b, List.mem_singleton]
  constructor
  · exact fun h => h.2
  · exact fun h => ⟨h ▸ ht, h⟩

/-- The cross-core call with a single target below 64: the call is logged and the
closure runs on the target only. -/
theorem smp_call_function_single (t : Nat) (ht : t < 64) (func : smp_call_func)
    (data : msr_data_struct) (s : hv_state) :
    smp_call_function (bitmap_set_nolock t 0) func data s
      = ((run_smp_call_func func t (data, s.reg)).1,
          { log (hv_event.smp_call_function (bitmap_set_nolock t 0) func data) s with
            reg := (run_smp_call_func func t (data, s.reg)).2 }) := by
  unfold smp_call_function
  simp only [mask_ids_single_bit_mask t ht, List.foldl_cons, List.foldl_nil, log]

/-- C13: msr_write_pcpu and msr_read_pcpu for a target below 64.  When the target
is the executing core the register is accessed directly and nothing is logged;
otherwise smp_call_function is called exactly once, with the mask whose only set
bit is the bit of the target and with a message that carries the index (and, for a
write, the value).  The cross-core calls logged are none in the first case and
that single call in the second. -/
theorem C13_remote_call_iff_not_self (cpu index value t : Nat) (ht : t < 64) (s : hv_state) :
    (t = cpu → msr_write_pcpu cpu index value t s
      = { s with reg := msr_write cpu index value s.reg }) ∧
    (t = cpu → msr_read_pcpu cpu index t s = (msr_read cpu index s.reg, s)) ∧
    (∃ delta, (msr_write_pcpu cpu index value t s).trace = s.trace ++ delta ∧
      smp_calls delta = if t = cpu then [] else
        [(bitmap_set_nolock t 0, smp_call_func.smpcall_write_msr_func,
          { msr_index := index, read_val := 0, write_val := value })]) ∧
    (∃ delta, (msr_read_pcpu cpu index t s).2.trace = s.trace ++ delta ∧
      smp_calls delta = if t = cpu then [] else
        [(bitmap_set_nolock t 0, smp_call_func.smpcall_read_msr_func,
          { msr_index := index, read_val := 0, write_val := 0 })]) ∧
    (∀ b, (bitmap_set_nolock t 0).testBit b = true ↔ b = t) ∧
    mask_ids (bitmap_set_nolock t 0) = [t] := by
  refine ⟨?_, ?_, ?_, ?_, testBit_single_bit_mask t ht, mask_ids_single_bit_mask t ht⟩
  · intro h
    unfold msr_write_pcpu
    rw [if_pos h]
  · intro h
    unfold msr_read_pcpu
    rw [if_pos h]
  · by_cases h : t = cpu
    · refine ⟨[], ?_, by simp [h, smp_calls]⟩
      unfold msr_write_pcpu
      rw [if_pos h]
      simp
    · refine ⟨[hv_event.smp_call_function (bitmap_set_nolock t 0)
        smp_call_func.smpcall_write_msr_func
        { msr_index := index, read_val := 0, write_val := value }], ?_, by simp [h, smp_calls]⟩
      unfold msr_write_pcpu
      rw [if_neg h]
      simp only
      rw [smp_call_function_single t ht]
      rfl
  · by_cases h : t = cpu
    · refine ⟨[], ?_, by simp [h, smp_calls]⟩
      unfold msr_read_pcpu
      rw [if_pos h]
      simp
    · refine ⟨[hv_event.smp_call_function (bitmap_set_nolock t 0)
        smp_call_func.smpcall_read_msr_func
        { msr_index := index, read_val := 0, write_val := 0 }], ?_, by simp [h, smp_calls]⟩
      unfold msr_read_pcpu
      rw [if_neg h]
      simp only
      rw [smp_call_function_single t ht]
      rfl

/-- C13 on the board of four cores: a write from core 0 to core 0 logs nothing, a
write from core 0 to core 1 logs one cross-core call with mask 0b10. -/
theorem C13_remote_call_iff_not_self_witness :
    0 < 64 ∧ 1 < 64 ∧
    (msr_write_pcpu 0 0x10 0x1234 0 boot_state4).trace = boot_state4.trace ∧
    (∃ delta, (msr_write_pcpu 0 0x10 0x1234 1 boot_state4).trace = boot_state4.trace ++ delta ∧
      smp_calls delta = if 1 = 0 then [] else
        [(bitmap_set_nolock 1 0, smp_call_func.smpcall_write_msr_func,
          { msr_index := 0x10, read_val := 0, write_val := 0x1234 })]) :=
  have a := (C13_remote_call_iff_not_self 0 0x10 0x1234 0 (by decide) boot_state4).1 rfl
  have b := (C13_remote_call_iff_not_self 0 0x10 0x1234 1 (by decide) boot_state4).2.2.1
  ⟨by decide, by decide, by rw [a], b⟩

theorem msr_write_pcpu_reg (cpu index value t : Nat) (ht : t < 64) (s : hv_state) :
    (msr_write_pcpu cpu index value t s).reg = msr_write t index value s.reg := by
  unfold msr_write_pcpu
  by_cases h : t = cpu
  · rw [if_pos h, h]
  · rw [if_neg h]
    simp only
    rw [smp_call_function_single t ht]
    rfl

theorem msr_read_pcpu_value (cpu index t : Nat) (ht : t < 64) (s : hv_state) :
    (msr_read_pcpu cpu index t s).1 = s.reg.msr t index ∧
    (msr_read_pcpu cpu index t s).2.reg = s.reg := by
  unfold msr_read_pcpu
  by_cases h : t = cpu
  · rw [if_pos h, h]
    exact ⟨rfl, rfl⟩
  · rw [if_neg h]
    simp only
    rw [smp_call_function_single t ht]
    exact ⟨rfl, rfl⟩

/-- C14: remote register round trip, with smp_call_function running the closure
on each core of the mask before it returns.  For a target below 64, equal to the
executing core or not, after msr_write_pcpu the register of the target holds the
value, every other register of every core and the rest of the registry are as
before, and msr_read_pcpu yields the value and leaves the registry as it is. -/
theorem C14_remote_register_round_trip (cpu index value t : Nat) (ht : t < 64)
    (s : hv_state) :
    (msr_write_pcpu cpu index value t s).reg.msr t index = value ∧
    (∀ core idx, ¬ (core = t ∧ idx = index) →
      (msr_write_pcpu cpu index value t s).reg.msr core idx = s.reg.msr core idx) ∧
    (msr_write_pcpu cpu index value t s).reg.pcpu_active_bitmap = s.reg.pcpu_active_bitmap ∧
    (msr_write_pcpu cpu index value t s).reg.boot_state = s.reg.boot_state ∧
    (msr_write_pcpu cpu index value t s).reg.pcpu_flag = s.reg.pcpu_flag ∧
    (msr_read_pcpu cpu index t (msr_write_pcpu cpu index value t s)).1 = value ∧
    (msr_read_pcpu cpu index t (msr_write_pcpu cpu index value t s)).2.reg
      = (msr_write_pcpu cpu index value t s).reg := by
  have hw := msr_write_pcpu_reg cpu index value t ht s
  have hr := msr_read_pcpu_value cpu index t ht (msr_write_pcpu cpu index value t s)
  refine ⟨?_, ?_, ?_, ?_, ?_, ?_, hr.2⟩
  · rw [hw]; simp [msr_write]
  · intro core idx h
    rw [hw]; simp [msr_write, h]
  · rw [hw]; rfl
  · rw [hw]; rfl
  · rw [hw]; rfl
  · rw [hr.1, hw]; simp [msr_write]

/-- C14 in scenario 4 of the spec: core 0 writes 0x1234 to register 0x10 of core 1
and reads it back. -/
theorem C14_remote_register_round_trip_witness :
    1 < 64 ∧
    (msr_write_pcpu 0 0x10 0x1234 1 boot_state4).reg.msr 1 0x10 = 0x1234 ∧
    (msr_read_pcpu 0 0x10 1 (msr_write_pcpu 0 0x10 0x1234 1 boot_state4)).1 = 0x1234 :=
  have h := C14_remote_register_round_trip 0 0x10 0x1234 1 (by decide) boot_state4
  ⟨by decide, h.1, h.2.2.2.2.2.1⟩

/-- The log of `vs.length` rounds of wait_pcpus_offline that read the values `vs`. -/
theorem count_udelay_rounds (vs : List Nat) :
    ((vs.map (fun v => [hv_event.read_active_bitmap v, hv_event.udelay 10])).flatten).count
      (hv_event.udelay 10) = vs.length := by
  induction vs with
  | nil => rfl
  | cons v rest ih =>
    rw [List.map_cons, List.flatten_cons, List.count_append, ih]
    simp [List.count_cons]
    omega

/-- The polling loop of wait_pcpus_offline started with a timeout of `10 * k`
returns after at most `k` rounds; it stops at the first read that shows no bit of
the mask. -/
theorem wait_pcpus_offline_loop_spec (env : hv_env) (mask : Nat) :
    ∀ (k fuel : Nat) (s : hv_state), k < fuel → 10 * k < 2 ^ 32 →
      ∃ vs : List Nat,
        (wait_pcpus_offline_loop env mask fuel (10 * k) s).result = some (10 * (k - vs.length)) ∧
        vs.length ≤ k ∧
        (wait_pcpus_offline_loop env mask fuel (10 * k) s).state.trace
          = s.trace ++ ((vs.map (fun v =>
              [hv_event.read_active_bitmap v, hv_event.udelay 10])).flatten
            ++ [hv_event.read_active_bitmap
              (wait_pcpus_offline_loop env mask fuel (10 * k) s).state.reg.pcpu_active_bitmap]) ∧
        (∀ v ∈ vs, v &&& mask ≠ 0) ∧
        ((wait_pcpus_offline_loop env mask fuel (10 * k) s).state.reg.pcpu_active_bitmap
            &&& mask = 0 ∨ vs.length = k) ∧
        (wait_pcpus_offline_loop env mask fuel (10 * k) s).state.clock
          = s.clock + 10 * vs.length ∧
        (s.reg.pcpu_active_bitmap &&& mask = 0 →
          vs = [] ∧ (wait_pcpus_offline_loop env mask fuel (10 * k) s).state.reg = s.reg) := by
  intro k
  induction k with
  | zero =>
    intro fuel s hf _
    obtain ⟨n, rfl⟩ : ∃ n, fuel = n + 1 := ⟨fuel - 1, by omega⟩
    refine ⟨[], ?_⟩
    simp [wait_pcpus_offline_loop, log]
  | succ k ih =>
    intro fuel s hf hk
    obtain ⟨n, rfl⟩ : ∃ n, fuel = n + 1 := ⟨fuel - 1, by omega⟩
    by_cases hz : s.reg.pcpu_active_bitmap &&& mask = 0
    · refine ⟨[], ?_⟩
      simp [wait_pcpus_offline_loop, log, hz]
    · have e : (10 * (k + 1) + 2 ^ 32 - 10) % 2 ^ 32 = 10 * k := by omega
      have hstep : wait_pcpus_offline_loop env mask (n + 1) (10 * (k + 1)) s
          = wait_pcpus_offline_loop env mask n (10 * k)
              (udelay env 10 (log (hv_event.read_active_bitmap s.reg.pcpu_active_bitmap) s)) := by
        conv => lhs; unfold wait_pcpus_offline_loop
        simp only [e]
        simp [hz]
      obtain ⟨vs, h1, h2, h3, h4, h5, h6, _⟩ := ih n
        (udelay env 10 (log (hv_event.read_active_bitmap s.reg.pcpu_active_bitmap) s))
        (by omega) (by omega)
      refine ⟨s.reg.pcpu_active_bitmap :: vs, ?_, ?_, ?_, ?_, ?_, ?_, ?_⟩
      · rw [hstep, h1]
        have hsub : k + 1 - (s.reg.pcpu_active_bitmap :: vs).length = k - vs.length := by
          simp only [List.length_cons]; omega
        rw [hsub]
      · simp only [List.length_cons]; omega
      · rw [hstep, h3]
        simp [udelay, log]
      · intro v hv
        rcases List.mem_cons.1 hv with rfl | hv
        · exact hz
        · exact h4 v hv
      · rw [hstep]
        rcases h5 with h5 | h5
        · exact Or.inl h5
        · right; simp only [List.length_cons]; omega
      · rw [hstep, h6]
        simp [udelay, log]
        omega
      · intro h; exact absurd h hz

theorem wait_pcpus_offline_loop_inv (env : hv_env) (mask : Nat) (P : pcpu_registry → Prop)
    (henv : ∀ st : hv_state, P st.reg → P (env.other_cores st)) :
    ∀ (fuel timeout : Nat) (s : hv_state), P s.reg →
      P (wait_pcpus_offline_loop env mask fuel timeout s).state.reg := by
  intro fuel
  induction fuel with
  | zero => intro timeout s h; simpa [wait_pcpus_offline_loop] using h
  | succ n ih =>
    intro timeout s h
    unfold wait_pcpus_offline_loop
    simp only
    split
    · apply ih
      exact henv (log (hv_event.udelay 10)
        (log (hv_event.read_active_bitmap s.reg.pcpu_active_bitmap) s)) h
    · exact h

/-- When some read within the first `k` rounds would show no bit of the mask, the
loop returns in a state whose bitmap has no bit of the mask. -/
theorem wait_pcpus_offline_loop_retired (env : hv_env) (mask : Nat) :
    ∀ (k fuel : Nat) (s : hv_state), k < fuel → 10 * k < 2 ^ 32 →
      (∃ j, j ≤ k ∧ (poll_rounds env j s).reg.pcpu_active_bitmap &&& mask = 0) →
      (wait_pcpus_offline_loop env mask fuel (10 * k) s).state.reg.pcpu_active_bitmap
        &&& mask = 0 := by
  intro k
  induction k with
  | zero =>
    intro fuel s hf _ hj
    obtain ⟨j, hj0, hz⟩ := hj
    have : j = 0 := by omega
    subst this
    obtain ⟨n, rfl⟩ : ∃ n, fuel = n + 1 := ⟨fuel - 1, by omega⟩
    simp only [poll_rounds] at hz
    simp [wait_pcpus_offline_loop, log, hz]
  | succ k ih =>
    intro fuel s hf hk hj
    obtain ⟨n, rfl⟩ : ∃ n, fuel = n + 1 := ⟨fuel - 1, by omega⟩
    by_cases hz : s.reg.pcpu_active_bitmap &&& mask = 0
    · simp [wait_pcpus_offline_loop, log, hz]
    · have e : (10 * (k + 1) + 2 ^ 32 - 10) % 2 ^ 32 = 10 * k := by omega
      have hstep : wait_pcpus_offline_loop env mask (n + 1) (10 * (k + 1)) s
          = wait_pcpus_offline_loop env mask n (10 * k) (poll_round env s) := by
        conv => lhs; unfold wait_pcpus_offline_loop
        simp only [e]
        simp [hz, poll_round]
      rw [hstep]
      obtain ⟨j, hjk, hzj⟩ := hj
      cases j with
      | zero => simp only [poll_rounds] at hzj; exact absurd hzj hz
      | succ j =>
        simp only [poll_rounds] at hzj
        exact ih n (poll_round env s) (by omega) (by omega) ⟨j, by omega, hzj⟩

theorem wait_pcpus_offline_eq (env : hv_env) (fuel mask : Nat) (s : hv_state) :
    (wait_pcpus_offline env fuel mask s).state
      = (wait_pcpus_offline_loop env mask fuel (10 * 10000) s).state ∧
    (wait_pcpus_offline env fuel mask s).result
      = (wait_pcpus_offline_loop env mask fuel (10 * 10000) s).result.map (fun _ => ()) := by
  have hT : CPU_DOWN_TIMEOUT * 1000 = 10 * 10000 := by norm_num [CPU_DOWN_TIMEOUT]
  refine ⟨?_, ?_⟩ <;> (unfold wait_pcpus_offline; simp only [hT])

/-- What wait_pcpus_offline does from any state, with fuel for a full timeout. -/
theorem wait_pcpus_offline_spec (env : hv_env) (mask fuel : Nat) (s : hv_state)
    (hfuel : 10001 ≤ fuel) :
    ∃ vs : List Nat,
      (wait_pcpus_offline env fuel mask s).result = some () ∧
      vs.length ≤ 10000 ∧
      (wait_pcpus_offline env fuel mask s).state.trace
        = s.trace ++ ((vs.map (fun v =>
            [hv_event.read_active_bitmap v, hv_event.udelay 10])).flatten
          ++ [hv_event.read_active_bitmap
            (wait_pcpus_offline env fuel mask s).state.reg.pcpu_active_bitmap]) ∧
      (∀ v ∈ vs, v &&& mask ≠ 0) ∧
      ((wait_pcpus_offline env fuel mask s).state.reg.pcpu_active_bitmap &&& mask = 0
        ∨ vs.length = 10000) ∧
      (wait_pcpus_offline env fuel mask s).state.clock = s.clock + 10 * vs.length ∧
      (s.reg.pcpu_active_bitmap &&& mask = 0 →
        vs = [] ∧ (wait_pcpus_offline env fuel mask s).state.reg = s.reg) := by
  obtain ⟨vs, h1, h2, h3, h4, h5, h6, h7⟩ :=
    wait_pcpus_offline_loop_spec env mask 10000 fuel s (by omega) (by norm_num)
  obtain ⟨e1, e2⟩ := wait_pcpus_offline_eq env fuel mask s
  refine ⟨vs, ?_, h2, ?_, h4, ?_, ?_, ?_⟩
  · rw [e2, h1]; rfl
  · rw [e1]; exact h3
  · rw [e1]; exact h5
  · rw [e1]; exact h6
  · rw [e1]; exact h7

/-- C12: for every mask and every behaviour of the other cores,
wait_pcpus_offline returns, after at most 10000 delays of 10 microseconds.  Its
log is a sequence of rounds, read of the bitmap then udelay(10), closed by a last
read; every read before a delay showed a bit of the mask, and the last read shows
none unless all 10000 delays have passed, in which case the function returns all
the same.  There is no delay when the first read shows no bit of the mask.  The
function writes nothing to the registry: every property of the registry (bitmap,
boot states, flag words) that the other cores preserve still holds. -/
theorem C12_wait_pcpus_offline_bounded (env : hv_env) (mask fuel : Nat) (s : hv_state)
    (hfuel : 10001 ≤ fuel) :
    (∃ vs : List Nat,
      (wait_pcpus_offline env fuel mask s).result = some () ∧
      vs.length ≤ 10000 ∧
      (wait_pcpus_offline env fuel mask s).state.trace
        = s.trace ++ ((vs.map (fun v =>
            [hv_event.read_active_bitmap v, hv_event.udelay 10])).flatten
          ++ [hv_event.read_active_bitmap
            (wait_pcpus_offline env fuel mask s).state.reg.pcpu_active_bitmap]) ∧
      ((vs.map (fun v => [hv_event.read_active_bitmap v, hv_event.udelay 10])).flatten).count
        (hv_event.udelay 10) = vs.length ∧
      (∀ v ∈ vs, v &&& mask ≠ 0) ∧
      ((wait_pcpus_offline env fuel mask s).state.reg.pcpu_active_bitmap &&& mask = 0
        ∨ vs.length = 10000) ∧
      (wait_pcpus_offline env fuel mask s).state.clock = s.clock + 10 * vs.length ∧
      (s.reg.pcpu_active_bitmap &&& mask = 0 →
        vs = [] ∧ (wait_pcpus_offline env fuel mask s).state.reg = s.reg)) ∧
    (∀ P : pcpu_registry → Prop,
      (∀ st : hv_state, P st.reg → P (env.other_cores st)) →
      P s.reg → P (wait_pcpus_offline env fuel mask s).state.reg) := by
  constructor
  · obtain ⟨vs, h1, h2, h3, h4, h5, h6, h7⟩ := wait_pcpus_offline_spec env mask fuel s hfuel
    exact ⟨vs, h1, h2, h3, count_udelay_rounds vs, h4, h5, h6, h7⟩
  · intro P hP hs
    rw [(wait_pcpus_offline_eq env fuel mask s).1]
    exact wait_pcpus_offline_loop_inv env mask P hP fuel _ s hs

/-- C12 on the board of four cores with only core 0 active: waiting for the cores
1, 2 and 3 returns at once, with the registry as it was. -/
theorem C12_wait_pcpus_offline_bounded_witness :
    10001 ≤ 10001 ∧ boot_state4.reg.pcpu_active_bitmap &&& 0b1110 = 0 ∧
    (wait_pcpus_offline env_all_retire 10001 0b1110 boot_state4).result = some () ∧
    (wait_pcpus_offline env_all_retire 10001 0b1110 boot_state4).state.reg = boot_state4.reg := by
  obtain ⟨vs, h1, _, _, _, _, _, _, h8⟩ :=
    (C12_wait_pcpus_offline_bounded env_all_retire 0b1110 10001 boot_state4 (by decide)).1
  exact ⟨by decide, by decide, h1, (h8 (by decide)).2⟩

theorem make_pcpu_offline_other (cpu j : Nat) (h : cpu ≠ j) (s : hv_state) :
    make_pcpu_offline cpu j s
      = log (hv_event.send_single_ipi j NOTIFY_VCPU_VECTOR)
          (store_pcpu_flag j (bitmap_set_lock NEED_OFFLINE (s.reg.pcpu_flag j)) s) := by
  unfold make_pcpu_offline
  simp only [ne_eq, h, not_false_eq_true, if_true]

/-- The request loop of stop_pcpus after `n` rounds. -/
theorem stop_pcpus_rounds_spec (cpu : Nat) (s : hv_state) :
    ∀ n : Nat,
      (∀ b, ((List.range n).foldl (stop_pcpus_round cpu) (0, s)).1.testBit b
        = (List.range n).any (fun j => decide (j ≠ cpu) && decide (j % 64 = b))) ∧
      (∀ j, ((List.range n).foldl (stop_pcpus_round cpu) (0, s)).2.reg.pcpu_flag j
        = if j < n ∧ j ≠ cpu then bitmap_set_lock NEED_OFFLINE (s.reg.pcpu_flag j)
          else s.reg.pcpu_flag j) ∧
      ((List.range n).foldl (stop_pcpus_round cpu) (0, s)).2.trace
        = s.trace ++ ((List.range n).filter (fun j => decide (j ≠ cpu))).map
            (fun j => hv_event.send_single_ipi j NOTIFY_VCPU_VECTOR) ∧
      ((List.range n).foldl (stop_pcpus_round cpu) (0, s)).2.reg.pcpu_active_bitmap
        = s.reg.pcpu_active_bitmap ∧
      ((List.range n).foldl (stop_pcpus_round cpu) (0, s)).2.reg.boot_state = s.reg.boot_state ∧
      ((List.range n).foldl (stop_pcpus_round cpu) (0, s)).2.reg.msr = s.reg.msr ∧
      ((List.range n).foldl (stop_pcpus_round cpu) (0, s)).2.phys_cpu_num = s.phys_cpu_num ∧
      ((List.range n).foldl (stop_pcpus_round cpu) (0, s)).2.clock = s.clock := by
  intro n
  induction n with
  | zero => simp
  | succ n ih =>
    obtain ⟨h1, h2, h3, h4, h5, h6, h7, h8⟩ := ih
    rw [List.range_succ, List.foldl_append]
    simp only [List.foldl_cons, List.foldl_nil]
    by_cases hc : cpu = n
    · have hr : stop_pcpus_round cpu ((List.range n).foldl (stop_pcpus_round cpu) (0, s)) n
          = (List.range n).foldl (stop_pcpus_round cpu) (0, s) := by
        unfold stop_pcpus_round
        rw [if_pos hc]
      rw [hr]
      refine ⟨?_, ?_, ?_, h4, h5, h6, h7, h8⟩
      · intro b
        rw [h1 b]
        simp [List.any_append, hc]
      · intro j
        rw [h2 j]
        by_cases hj : j = n
        · have : j = cpu := by rw [hj, hc]
          simp [this]
        · have : j < n + 1 ↔ j < n := by omega
          simp only [this]
      · rw [h3, List.filter_append]
        simp [hc]
    · have hr : stop_pcpus_round cpu ((List.range n).foldl (stop_pcpus_round cpu) (0, s)) n
          = (bitmap_set_nolock n ((List.range n).foldl (stop_pcpus_round cpu) (0, s)).1,
              make_pcpu_offline cpu n ((List.range n).foldl (stop_pcpus_round cpu) (0, s)).2) := by
        unfold stop_pcpus_round
        rw [if_neg hc]
      have hnc : ¬ (n = cpu) := fun e => hc e.symm
      rw [hr, make_pcpu_offline_other cpu n hc]
      refine ⟨?_, ?_, ?_, h4, h5, h6, h7, h8⟩
      · intro b
        have hb := testBit_bitmap_set n ((List.range n).foldl (stop_pcpus_round cpu) (0, s)).1 b
        simp only [bitmap_set_lock] at hb
        simp only [bitmap_set_nolock]
        rw [hb, h1 b]
        simp [List.any_append, hnc]
      · intro j
        simp only [log, store_pcpu_flag]
        by_cases hj : j = n
        · subst hj
          have hf := h2 j
          simp only [lt_irrefl, false_and, if_false] at hf
          simp [hf, hnc]
        · have : j < n + 1 ↔ j < n := by omega
          simp only [hj, if_false, this]
          exact h2 j
      · simp only [log, store_pcpu_flag]
        rw [h3, List.filter_append]
        simp [hnc]

/-- The mask that stop_pcpus waits on, for at most 64 cores. -/
theorem stop_pcpus_mask (cpu : Nat) (s : hv_state) (hn : s.phys_cpu_num ≤ 64) (b : Nat) :
    (stop_pcpus_request cpu s).1.testBit b = true ↔ b < s.phys_cpu_num ∧ b ≠ cpu := by
  unfold stop_pcpus_request
  rw [(stop_pcpus_rounds_spec cpu s s.phys_cpu_num).1 b]
  simp only [List.any_eq_true, List.mem_range, Bool.and_eq_true, decide_eq_true_eq]
  constructor
  · rintro ⟨j, hj, hjc, hjb⟩
    rw [Nat.mod_eq_of_lt (by omega)] at hjb
    subst hjb
    exact ⟨hj, hjc⟩
  · rintro ⟨hb, hbc⟩
    exact ⟨b, hb, hbc, Nat.mod_eq_of_lt (by omega)⟩

/-- C11: stop_pcpus on a board of at most 64 cores.  The request loop sets the
NEED_OFFLINE bit of every core below the core count other than the executing core
and sends each of them one NOTIFY_VCPU_VECTOR interrupt, in ascending order; the
flag word of the executing core and of every id from the core count on is
untouched, and no other interrupt is sent.  stop_pcpus then is
wait_pcpus_offline on the mask whose bits are exactly those cores, and it returns.
If, within the 10000 rounds of the deadline, the cores of the mask have all left
the active bitmap, the bitmap on return has no bit of the mask set. -/
theorem C11_stop_pcpus_requests_and_waits (env : hv_env) (cpu fuel : Nat) (s : hv_state)
    (hn : s.phys_cpu_num ≤ 64) (hfuel : 10001 ≤ fuel) :
    (∀ b, (stop_pcpus_request cpu s).1.testBit b = true ↔ b < s.phys_cpu_num ∧ b ≠ cpu) ∧
    (∀ j, j < s.phys_cpu_num → j ≠ cpu →
      (stop_pcpus_request cpu s).2.reg.pcpu_flag j
        = bitmap_set_lock NEED_OFFLINE (s.reg.pcpu_flag j) ∧
      ((stop_pcpus_request cpu s).2.reg.pcpu_flag j).testBit NEED_OFFLINE = true) ∧
    (stop_pcpus_request cpu s).2.reg.pcpu_flag cpu = s.reg.pcpu_flag cpu ∧
    (∀ j, s.phys_cpu_num ≤ j →
      (stop_pcpus_request cpu s).2.reg.pcpu_flag j = s.reg.pcpu_flag j) ∧
    (stop_pcpus_request cpu s).2.trace
      = s.trace ++ ((List.range s.phys_cpu_num).filter (fun j => decide (j ≠ cpu))).map
          (fun j => hv_event.send_single_ipi j NOTIFY_VCPU_VECTOR) ∧
    (stop_pcpus_request cpu s).2.reg.pcpu_active_bitmap = s.reg.pcpu_active_bitmap ∧
    stop_pcpus env cpu fuel s
      = wait_pcpus_offline env fuel (stop_pcpus_request cpu s).1 (stop_pcpus_request cpu s).2 ∧
    (stop_pcpus env cpu fuel s).result = some () ∧
    ((∃ j, j ≤ 10000 ∧
        (poll_rounds env j (stop_pcpus_request cpu s).2).reg.pcpu_active_bitmap
          &&& (stop_pcpus_request cpu s).1 = 0) →
      (stop_pcpus env cpu fuel s).state.reg.pcpu_active_bitmap
        &&& (stop_pcpus_request cpu s).1 = 0) := by
  have hspec := stop_pcpus_rounds_spec cpu s s.phys_cpu_num
  have hflag : ∀ j, (stop_pcpus_request cpu s).2.reg.pcpu_flag j
      = if j < s.phys_cpu_num ∧ j ≠ cpu then bitmap_set_lock NEED_OFFLINE (s.reg.pcpu_flag j)
        else s.reg.pcpu_flag j := hspec.2.1
  refine ⟨stop_pcpus_mask cpu s hn, ?_, ?_, ?_, hspec.2.2.1, hspec.2.2.2.1, rfl, ?_, ?_⟩
  · intro j hj hjc
    have e : (stop_pcpus_request cpu s).2.reg.pcpu_flag j
        = bitmap_set_lock NEED_OFFLINE (s.reg.pcpu_flag j) := by
      rw [hflag j, if_pos ⟨hj, hjc⟩]
    refine ⟨e, ?_⟩
    rw [e, testBit_bitmap_set]
    simp [NEED_OFFLINE]
  · rw [hflag cpu]
    simp
  · intro j hj
    rw [hflag j]
    have : ¬ (j < s.phys_cpu_num ∧ j ≠ cpu) := fun h => absurd h.1 (by omega)
    rw [if_neg this]
  · obtain ⟨vs, h1, _⟩ := wait_pcpus_offline_spec env (stop_pcpus_request cpu s).1 fuel
      (stop_pcpus_request cpu s).2 hfuel
    exact h1
  · intro hj
    have := wait_pcpus_offline_loop_retired env (stop_pcpus_request cpu s).1 10000 fuel
      (stop_pcpus_request cpu s).2 (by omega) (by norm_num) hj
    unfold stop_pcpus
    rw [(wait_pcpus_offline_eq env fuel _ _).1]
    exact this

/-- C11 in scenario 3 of the spec: four cores, all active; core 0 calls stop_pcpus
and the cores 1, 2 and 3 retire during the first delay.  The mask is 0b1110, the
three cores are sent one interrupt each, and the bitmap ends as 0b0001. -/
theorem C11_stop_pcpus_requests_and_waits_witness :
    running_state4.phys_cpu_num ≤ 64 ∧
    running_state4.reg.pcpu_active_bitmap = 0b1111 ∧
    (stop_pcpus_request 0 running_state4).1 = 0b1110 ∧
    (stop_pcpus env_all_retire 0 10001 running_state4).result = some () ∧
    (stop_pcpus env_all_retire 0 10001 running_state4).state.reg.pcpu_active_bitmap
      &&& (stop_pcpus_request 0 running_state4).1 = 0 ∧
    (stop_pcpus env_all_retire 0 10001 running_state4).state.reg.pcpu_active_bitmap = 0b0001 :=
  have h := C11_stop_pcpus_requests_and_waits env_all_retire 0 10001 running_state4
    (by decide) (by decide)
  ⟨by decide, by decide, by decide, h.2.2.2.2.2.2.2.1,
    h.2.2.2.2.2.2.2.2 ⟨1, by decide, by decide⟩, by decide⟩

theorem get_max_svn_index_loop_range (g : physical_seed) :
    ∀ (n i m : Nat), get_max_svn_index_loop g n i m = m ∨
      (i ≤ get_max_svn_index_loop g n i m ∧ get_max_svn_index_loop g n i m < i + n) := by
  intro n
  induction n with
  | zero => intro i m; exact Or.inl rfl
  | succ n ih =>
    intro i m
    unfold get_max_svn_index_loop
    split
    · rcases ih (i + 1) i with h | h
      · right; rw [h]; omega
      · right; omega
    · rcases ih (i + 1) m with h | h
      · left; exact h
      · right; omega

/-- C18 (code defect): get_max_svn_index compares each seed with its predecessor,
not with the greatest seed so far.  For the svn values 5, 1, 2 it yields index 2,
whose svn 2 is below the svn 5 of index 0, and derive_attkb_enc_key hands the
first 32 bytes of seed 2 to hmac_sha256, whatever the ceiling (at least 3) and the
hmac function.  The index that get_max_svn_index yields is always below the seed
count. -/
theorem C18_max_svn_index_last_ascent :
    get_max_svn_index seeds_5_1_2 = 2 ∧
    (seeds_5_1_2.seed_list 2).cse_svn < (seeds_5_1_2.seed_list 0).cse_svn ∧
    (∀ (ceiling : Nat) (hmac_sha256 : List Nat → List Nat → Option (List Nat))
      (key : List Nat),
      derive_attkb_enc_key (ceiling + 3) hmac_sha256 seeds_5_1_2 (some key)
        = match hmac_sha256 (List.replicate 32 0x33) attkb_salt with
          | none => (false, some key)
          | some derived => (true, some derived)) ∧
    (∀ g : physical_seed, get_max_svn_index g < g.num_seeds + 1 ∧
      (g.num_seeds ≠ 0 → get_max_svn_index g < g.num_seeds)) := by
  refine ⟨by decide, by decide, ?_, ?_⟩
  · intro ceiling hmac_sha256 key
    have hidx : get_max_svn_index seeds_5_1_2 = 2 := by decide
    have hikm : (List.range 32).map (seeds_5_1_2.seed_list 2).seed
        = List.replicate 32 0x33 := by decide
    have hn : ¬ (seeds_5_1_2.num_seeds = 0 ∨ seeds_5_1_2.num_seeds > ceiling + 3) := by
      simp [seeds_5_1_2]
    unfold derive_attkb_enc_key
    simp only [hn, if_false, hidx, hikm]
  · intro g
    unfold get_max_svn_index
    rcases get_max_svn_index_loop_range g (g.num_seeds - 1) 1 0 with h | h
    · rw [h]; exact ⟨by omega, fun h0 => by omega⟩
    · exact ⟨by omega, fun h0 => by omega⟩

theorem derive_virtual_seed_loop_fail (ceiling : Nat)
    (hkdf : (Nat → Nat) → List Nat → List Nat → Option (Nat → Nat))
    (g : physical_seed) (salt info : List Nat) :
    ∀ (n i : Nat) (list : Nat → seed_info) (num : Nat),
      (∃ k, k < n ∧ hkdf (g.seed_list (i + k)).seed salt info = none) →
      (derive_virtual_seed_loop ceiling hkdf g salt info n i list num).1 = false ∧
      (derive_virtual_seed_loop ceiling hkdf g salt info n i list num).2.2 = 0 ∧
      ∀ j, j < ceiling →
        (derive_virtual_seed_loop ceiling hkdf g salt info n i list num).2.1 j
          = memset_seed_info 0 := by
  intro n
  induction n with
  | zero => intro i list num h; obtain ⟨k, hk, _⟩ := h; omega
  | succ n ih =>
    intro i list num h
    unfold derive_virtual_seed_loop
    cases hh : hkdf (g.seed_list i).seed salt info with
    | none =>
      refine ⟨rfl, rfl, ?_⟩
      intro j hj
      simp [memset_seed_list, hj]
    | some key =>
      simp only
      apply ih
      obtain ⟨k, hk, hf⟩ := h
      cases k with
      | zero => simp only [Nat.add_zero] at hf; rw [hh] at hf; simp at hf
      | succ k =>
        have hik : i + 1 + k = i + (k + 1) := by omega
        exact ⟨k, by omega, by rw [hik]; exact hf⟩

theorem derive_virtual_seed_loop_ok (ceiling : Nat)
    (hkdf : (Nat → Nat) → List Nat → List Nat → Option (Nat → Nat))
    (g : physical_seed) (salt info : List Nat) :
    ∀ (n i : Nat) (list : Nat → seed_info) (num : Nat),
      (derive_virtual_seed_loop ceiling hkdf g salt info n i list num).1 = true →
      (∀ j, j < i →
        (derive_virtual_seed_loop ceiling hkdf g salt info n i list num).2.1 j = list j) ∧
      (∀ j, i ≤ j → j < i + n →
        ((derive_virtual_seed_loop ceiling hkdf g salt info n i list num).2.1 j).cse_svn
          = (g.seed_list j).cse_svn ∧
        hkdf (g.seed_list j).seed salt info
          = some ((derive_virtual_seed_loop ceiling hkdf g salt info n i list num).2.1 j).seed) := by
  intro n
  induction n with
  | zero =>
    intro i list num _
    exact ⟨fun j _ => rfl, fun j h1 h2 => by omega⟩
  | succ n ih =>
    intro i list num h
    unfold derive_virtual_seed_loop at h ⊢
    cases hh : hkdf (g.seed_list i).seed salt info with
    | none => rw [hh] at h; simp at h
    | some key =>
      rw [hh] at h
      simp only at h ⊢
      obtain ⟨h1, h2⟩ := ih (i + 1) _ num h
      refine ⟨?_, ?_⟩
      · intro j hj
        rw [h1 j (by omega)]
        simp [store_seed, Nat.ne_of_lt hj]
      · intro j hj1 hj2
        by_cases hji : j = i
        · subst hji
          rw [h1 j (by omega)]
          simp [store_seed, hh]
        · exact h2 j (by omega) (by omega)

theorem derive_virtual_seed_some (ceiling : Nat)
    (hkdf : (Nat → Nat) → List Nat → List Nat → Option (Nat → Nat))
    (g : physical_seed) (list : Nat → seed_info) (num : Nat) (salt info : List Nat) :
    derive_virtual_seed ceiling hkdf g (some list) num salt info
      = if g.num_seeds = 0 then (false, some list, num)
        else
          ((derive_virtual_seed_loop ceiling hkdf g salt info g.num_seeds 0 list num).1,
           some (derive_virtual_seed_loop ceiling hkdf g salt info g.num_seeds 0 list num).2.1,
           g.num_seeds) := rfl

/-- C19 (code defect): when hkdf_sha256 fails for a seed index below the physical
seed count, derive_virtual_seed returns false and the output list is zeroed, but
`*num_seeds` is the physical seed count, not 0: the assignment after the loop
overwrites the 0 stored on failure.  When it returns true, `*num_seeds` is the
physical seed count and every output entry below it carries the svn of the
physical entry and the key derived from its seed. -/
theorem C19_derive_virtual_seed_count_on_failure (ceiling : Nat)
    (hkdf_sha256 : (Nat → Nat) → List Nat → List Nat → Option (Nat → Nat))
    (g_phy_seed : physical_seed) (list : Nat → seed_info) (num_seeds : Nat)
    (salt info : List Nat) :
    ((∃ i, i < g_phy_seed.num_seeds ∧
        hkdf_sha256 (g_phy_seed.seed_list i).seed salt info = none) →
      (derive_virtual_seed ceiling hkdf_sha256 g_phy_seed (some list) num_seeds salt info).1
        = false ∧
      (derive_virtual_seed ceiling hkdf_sha256 g_phy_seed (some list) num_seeds salt info).2.2
        = g_phy_seed.num_seeds ∧
      g_phy_seed.num_seeds ≠ 0 ∧
      ∃ out,
        (derive_virtual_seed ceiling hkdf_sha256 g_phy_seed (some list) num_seeds salt info).2.1
          = some out ∧
        ∀ j, j < ceiling → out j = memset_seed_info 0) ∧
    ((derive_virtual_seed ceiling hkdf_sha256 g_phy_seed (some list) num_seeds salt info).1
        = true →
      (derive_virtual_seed ceiling hkdf_sha256 g_phy_seed (some list) num_seeds salt info).2.2
        = g_phy_seed.num_seeds ∧
      ∃ out,
        (derive_virtual_seed ceiling hkdf_sha256 g_phy_seed (some list) num_seeds salt info).2.1
          = some out ∧
        ∀ i, i < g_phy_seed.num_seeds →
          (out i).cse_svn = (g_phy_seed.seed_list i).cse_svn) := by
  constructor
  · rintro ⟨i, hi, hf⟩
    have hne : g_phy_seed.num_seeds ≠ 0 := by omega
    obtain ⟨l1, _, l3⟩ := derive_virtual_seed_loop_fail ceiling hkdf_sha256 g_phy_seed salt info
      g_phy_seed.num_seeds 0 list num_seeds ⟨i, hi, by rw [Nat.zero_add]; exact hf⟩
    rw [derive_virtual_seed_some, if_neg hne]
    exact ⟨l1, rfl, hne, _, rfl, l3⟩
  · intro h
    rw [derive_virtual_seed_some] at h ⊢
    by_cases hz : g_phy_seed.num_seeds = 0
    · rw [if_pos hz] at h; simp at h
    · rw [if_neg hz] at h ⊢
      obtain ⟨_, l2⟩ := derive_virtual_seed_loop_ok ceiling hkdf_sha256 g_phy_seed salt info
        g_phy_seed.num_seeds 0 list num_seeds h
      exact ⟨rfl, _, rfl, fun i hi => (l2 i (by omega) (by omega)).1⟩

/-- C19 at a failing input: one physical seed and a hkdf_sha256 that fails.
derive_virtual_seed returns false and leaves 1 in `*num_seeds`. -/
theorem C19_derive_virtual_seed_count_on_failure_witness :
    (∃ i, i < seeds_single.num_seeds ∧
      (fun (_ : Nat → Nat) (_ _ : List Nat) => (none : Option (Nat → Nat)))
        (seeds_single.seed_list i).seed [] [] = none) ∧
    (derive_virtual_seed 10 (fun _ _ _ => none) seeds_single
      (some (fun _ => memset_seed_info 0xFF)) 5 [] []).1 = false ∧
    (derive_virtual_seed 10 (fun _ _ _ => none) seeds_single
      (some (fun _ => memset_seed_info 0xFF)) 5 [] []).2.2 = 1 :=
  have hf : ∃ i, i < seeds_single.num_seeds ∧
      (fun (_ : Nat → Nat) (_ _ : List Nat) => (none : Option (Nat → Nat)))
        (seeds_single.seed_list i).seed [] [] = none := ⟨0, by decide, rfl⟩
  have h := (C19_derive_virtual_seed_count_on_failure 10 (fun _ _ _ => none) seeds_single
    (fun _ => memset_seed_info 0xFF) 5 [] []).1 hf
  ⟨hf, h.1, h.2.1⟩

/-- C18 at the seed list with the svn values 5, 1, 2: the index 2 that
get_max_svn_index yields is below the seed count 3. -/
theorem C18_max_svn_index_last_ascent_witness :
    seeds_5_1_2.num_seeds ≠ 0 ∧ get_max_svn_index seeds_5_1_2 < seeds_5_1_2.num_seeds :=
  ⟨by decide, (C18_max_svn_index_last_ascent.2.2.2 seeds_5_1_2).2 (by decide)⟩

theorem parse_seed_sbl_loop_le (ceiling : Nat) :
    ∀ (n i d : Nat) (list : Nat → seed_info) (entries : Nat → seed_entry),
      d ≤ ceiling → (parse_seed_sbl_loop ceiling n i d list entries).2.1 ≤ ceiling := by
  intro n
  induction n with
  | zero => intro i d list entries h; exact h
  | succ n ih =>
    intro i d list entries h
    unfold parse_seed_sbl_loop
    simp only
    split
    · split
      · exact h
      · rename_i hne
        apply ih
        have hlt : (entries i).index = d ∧ (entries i).index < ceiling := by
          constructor
          · by_contra hc; exact hne (Or.inl hc)
          · by_contra hc; exact hne (Or.inr (by omega))
        have hmod : (d + 1) % 256 ≤ d + 1 := Nat.mod_le _ _
        omega
    · exact ih _ _ _ _ h

theorem parse_seed_sbl_le (ceiling : Nat) (mem : boot_memory) (addr : Nat)
    (phy_seed : physical_seed)
    (h : (parse_seed_sbl ceiling mem addr phy_seed).1 = true) :
    (parse_seed_sbl ceiling mem addr phy_seed).2.1.num_seeds ≤ ceiling := by
  unfold parse_seed_sbl at h ⊢
  cases hb : mem.boot_params addr with
  | none => rw [hb] at h; simp at h
  | some boot_params =>
    rw [hb] at h
    simp only at h ⊢
    cases hh : mem.seed_hob boot_params.p_seed_list with
    | none => rw [hh] at h; simp at h
    | some seed_hob =>
      rw [hh] at h
      simp only at h ⊢
      split
      · exact parse_seed_sbl_loop_le ceiling _ _ _ _ _ (Nat.zero_le _)
      · rename_i hf
        rw [if_neg hf] at h
        simp at h

theorem parse_seed_abl_le (ceiling : Nat) (mem : boot_memory) (addr : Nat)
    (phy_seed : physical_seed)
    (h : (parse_seed_abl ceiling mem addr phy_seed).1 = true) :
    2 ≤ (parse_seed_abl ceiling mem addr phy_seed).2.1.num_seeds ∧
    (parse_seed_abl ceiling mem addr phy_seed).2.1.num_seeds ≤ ABL_SEED_LIST_MAX := by
  unfold parse_seed_abl at h ⊢
  cases hb : mem.abl_seed addr with
  | none => rw [hb] at h; simp at h
  | some abl_seed =>
    rw [hb] at h
    simp only at h ⊢
    split
    · rename_i hc; exact hc
    · rename_i hc
      rw [if_neg hc] at h
      simp at h

theorem init_seed_num_seeds_le (ceiling : Nat) (cmdline : Option (String → Option Nat))
    (mem : boot_memory) (g_phy_seed : physical_seed) (seed_arg : List seed_argument)
    (h4 : ABL_SEED_LIST_MAX ≤ ceiling) :
    (init_seed ceiling cmdline mem g_phy_seed seed_arg).1.num_seeds ≤ ceiling ∧
    (((parse_seed_arg cmdline seed_arg).2.getD (parse_seed_arg cmdline seed_arg).1
        ⟨none, BOOTLOADER_INVD, 0⟩).bootloader_id ≠ BOOTLOADER_SBL →
      1 ≤ (init_seed ceiling cmdline mem g_phy_seed seed_arg).1.num_seeds) := by
  have h1 : 1 ≤ ceiling := by unfold ABL_SEED_LIST_MAX at h4; omega
  unfold init_seed
  simp only
  generalize ((parse_seed_arg cmdline seed_arg).2.getD (parse_seed_arg cmdline seed_arg).1
    ⟨none, BOOTLOADER_INVD, 0⟩) = arg
  by_cases hs : arg.bootloader_id = BOOTLOADER_SBL
  · simp only [hs, if_true, ne_eq, not_true_eq_false, false_implies, and_true]
    cases hr : (parse_seed_sbl ceiling mem arg.addr g_phy_seed).1 with
    | false => simpa using h1
    | true =>
      have := parse_seed_sbl_le ceiling mem arg.addr g_phy_seed hr
      simpa using this
  · simp only [hs, if_false]
    by_cases ha : arg.bootloader_id = BOOTLOADER_ABL
    · simp only [ha, if_true]
      cases hr : (parse_seed_abl ceiling mem arg.addr g_phy_seed).1 with
      | false => simpa using h1
      | true =>
        have := parse_seed_abl_le ceiling mem arg.addr g_phy_seed hr
        simp only [Bool.not_true, Bool.false_eq_true, if_false]
        exact ⟨by omega, fun _ => by omega⟩
    · simp only [ha, if_false]
      simpa using h1

theorem init_seed_empty_hob (ceiling : Nat) (g_phy_seed : physical_seed) :
    (init_seed ceiling (some cmdline_sbl) memory_empty_hob g_phy_seed seed_arg_table).1
      = ⟨g_phy_seed.seed_list, 0⟩ := by
  simp [init_seed, parse_seed_arg, parse_seed_arg_loop, seed_arg_table, cmdline_sbl,
    List.modify, List.getD, BOOTLOADER_SBL, parse_seed_sbl, memory_empty_hob,
    parse_seed_sbl_loop]

/-- C20 (code defect): the lower bound fails on the SBL path.  With
`ImageBootParamsAddr=` on the command line and a seed hand-off block that holds no
dseed entry, parse_seed_sbl reports success with dseed_index 0, so init_seed
leaves g_phy_seed.num_seeds = 0 without the dummy seed, and derive_virtual_seed
and derive_attkb_enc_key both return false, whatever the ceiling, the prior
g_phy_seed and the hash functions.  The upper bound holds for every input once
the ceiling is at least ABL_SEED_LIST_MAX, and the lower bound holds whenever the
selected argument is not the SBL one. -/
theorem C20_init_seed_sbl_without_dseed :
    (∀ (ceiling : Nat) (g_phy_seed : physical_seed),
      (init_seed ceiling (some cmdline_sbl) memory_empty_hob g_phy_seed
        seed_arg_table).1.num_seeds = 0 ∧
      (∀ (hkdf_sha256 : (Nat → Nat) → List Nat → List Nat → Option (Nat → Nat))
        (list : Nat → seed_info) (num_seeds : Nat) (salt info : List Nat),
        (derive_virtual_seed ceiling hkdf_sha256
          (init_seed ceiling (some cmdline_sbl) memory_empty_hob g_phy_seed seed_arg_table).1
          (some list) num_seeds salt info).1 = false) ∧
      (∀ (hmac_sha256 : List Nat → List Nat → Option (List Nat)) (key : List Nat),
        (derive_attkb_enc_key ceiling hmac_sha256
          (init_seed ceiling (some cmdline_sbl) memory_empty_hob g_phy_seed seed_arg_table).1
          (some key)).1 = false)) ∧
    (∀ (ceiling : Nat) (cmdline : Option (String → Option Nat)) (mem : boot_memory)
      (g_phy_seed : physical_seed) (seed_arg : List seed_argument),
      ABL_SEED_LIST_MAX ≤ ceiling →
      (init_seed ceiling cmdline mem g_phy_seed seed_arg).1.num_seeds ≤ ceiling ∧
      (((parse_seed_arg cmdline seed_arg).2.getD (parse_seed_arg cmdline seed_arg).1
          ⟨none, BOOTLOADER_INVD, 0⟩).bootloader_id ≠ BOOTLOADER_SBL →
        1 ≤ (init_seed ceiling cmdline mem g_phy_seed seed_arg).1.num_seeds)) := by
  refine ⟨?_, ?_⟩
  · intro ceiling g_phy_seed
    rw [init_seed_empty_hob]
    refine ⟨rfl, ?_, ?_⟩
    · intro hkdf_sha256 list num_seeds salt info
      rw [derive_virtual_seed_some, if_pos rfl]
    · intro hmac_sha256 key
      unfold derive_attkb_enc_key
      simp
  · intro ceiling cmdline mem g_phy_seed seed_arg h4
    exact init_seed_num_seeds_le ceiling cmdline mem g_phy_seed seed_arg h4

/-- C20 without a command line and with a ceiling of 4: init_seed falls back to the
single dummy seed. -/
theorem C20_init_seed_sbl_without_dseed_witness :
    ABL_SEED_LIST_MAX ≤ 4 ∧
    ((parse_seed_arg none seed_arg_table).2.getD (parse_seed_arg none seed_arg_table).1
      ⟨none, BOOTLOADER_INVD, 0⟩).bootloader_id ≠ BOOTLOADER_SBL ∧
    (init_seed 4 none memory_empty_hob zero_phy_seed seed_arg_table).1.num_seeds ≤ 4 ∧
    1 ≤ (init_seed 4 none memory_empty_hob zero_phy_seed seed_arg_table).1.num_seeds :=
  have h4 : ABL_SEED_LIST_MAX ≤ 4 := by decide
  have hid : ((parse_seed_arg none seed_arg_table).2.getD (parse_seed_arg none seed_arg_table).1
      ⟨none, BOOTLOADER_INVD, 0⟩).bootloader_id ≠ BOOTLOADER_SBL := by decide
  have h := C20_init_seed_sbl_without_dseed.2 4 none memory_empty_hob zero_phy_seed
    seed_arg_table h4
  ⟨h4, hid, h.1, h.2 hid⟩

end Acrn
